import Mathlib

/-!
Subnet resource of the Nutanix Terraform provider.

A shallow embedding of `nutanix/resource_nutanix_subnet.go`: the four lifecycle
handlers of the subnet resource (create, read, update, delete), the name
pre-check, the request builders and the state refresh function, and of
`keyToTypeMap` of the schema generator `jsonToSchema/main.go`, followed by
theorems about them.

Conventions of the embedding.

* A Go `interface{}` value is a `Value` (a field of the resource data), an
  `Elem` (an entry of a map or list held by a field) or an `Atom` (an entry of a
  map held by such an entry); a type assertion `v.(T)` is a function into
  `Result` that faults when the dynamic type is not `T`.
* A Go function returning `error` returns a `Result`: `ok` for `nil`, `error`
  for a returned error (carrying its text), `fault` for a run-time panic
  (failed type assertion, nil dereference).
* `int` and `int64` are both 64 bits wide on the platforms the provider is
  built for, so the conversions `int64(x)` between them are the identity; both
  are rendered as `Int`.
* A pointer `*string`, `*int64`, `*Reference` ... whose address the source never
  compares is `Option` of the value pointed to (`none` for `nil`). The one
  pointer whose address the source does compare, `Status.Name`, is a `StrPtr`,
  which carries its address.
* The backend is a `Conn`: the answer to each call is a function of the calls
  issued before it, and every handler extends the list of calls it is given.
* A Go `map[string]string` is the list of its entries, one for each key, read
  with `List.lookup`; the order of the list has no meaning. An index expression
  on a slice is a function into `Result` that faults when the index is out of
  range.
-/

namespace Nutanix

/-! ## Dynamic values -/

/-- Entry of a map that is itself an entry of a map (`or["kind"]` where
`or = metad["owner_reference"]`). -/
inductive Atom where
  | str (s : String)
  | int (n : Int)
  | int64 (n : Int)
  deriving DecidableEq, Repr

/-- Entry of a `map[string]interface{}` or `[]interface{}` held by a field. -/
inductive Elem where
  | str (s : String)
  | int (n : Int)
  | int64 (n : Int)
  | map (m : List (String × Atom))
  deriving DecidableEq, Repr

/-- Dynamic value of a field of the resource data, one constructor for each Go
type the source reads or writes: `nil`, `string`, `int`, `int64`, `*int64`,
`map[string]interface{}`, `map[string]string`, `[]interface{}`, `[]string` and
`[]map[string]interface{}`. -/
inductive Value where
  | nil
  | str (s : String)
  | int (n : Int)
  | int64 (n : Int)
  | int64Ptr (p : Option Int)
  | mapIface (m : List (String × Elem))
  | mapStr (m : List (String × String))
  | listIface (l : List Elem)
  | listStr (l : List String)
  | listMap (l : List (List (String × Elem)))
  deriving DecidableEq, Repr

deriving instance DecidableEq for Except

/-- Outcome of a Go call that can return an error or panic. -/
inductive Result (α : Type) where
  | ok (a : α)
  | error (e : String)
  | fault
  deriving DecidableEq, Repr

/-- Sequencing: an error or a fault of the first step ends the computation. -/
def Result.bind {α β : Type} (r : Result α) (f : α → Result β) : Result β :=
  match r with
  | .ok a => f a
  | .error e => .error e
  | .fault => .fault

instance : Monad Result where
  pure := Result.ok
  bind := Result.bind

/-- The type assertion `v.(string)` on a field value. -/
def Value.asString : Value → Result String
  | .str s => .ok s
  | _ => .fault

/-- The type assertion `v.(int)`. -/
def Value.asInt : Value → Result Int
  | .int n => .ok n
  | _ => .fault

/-- The type assertion `v.(int64)`. -/
def Value.asInt64 : Value → Result Int
  | .int64 n => .ok n
  | _ => .fault

/-- The type assertion `v.(map[string]interface{})`. -/
def Value.asMap : Value → Result (List (String × Elem))
  | .mapIface m => .ok m
  | _ => .fault

/-- The type assertion `v.([]interface{})`. -/
def Value.asList : Value → Result (List Elem)
  | .listIface l => .ok l
  | _ => .fault

/-- The type assertion `v.([]string)`. -/
def Value.asStringList : Value → Result (List String)
  | .listStr l => .ok l
  | _ => .fault

/-- The type assertion `m[k].(string)` on a map entry; a missing key yields the
nil interface, on which the assertion panics. -/
def Elem.asString : Option Elem → Result String
  | some (.str s) => .ok s
  | _ => .fault

/-- The type assertion `m[k].(map[string]interface{})` on a map entry. -/
def Elem.asMap : Option Elem → Result (List (String × Atom))
  | some (.map m) => .ok m
  | _ => .fault

/-- The type assertion `m[k].(string)` on an entry of a nested map. -/
def Atom.asString : Option Atom → Result String
  | some (.str s) => .ok s
  | _ => .fault

/-! ## Resource data -/

/-- Value types of the schema (`schema.TypeString` ...). -/
inductive ValueType where
  | TypeString
  | TypeInt
  | TypeMap
  | TypeList
  deriving DecidableEq, Repr

/-- The keys of `getSubnetSchema` with their `Type`. -/
def getSubnetSchema : List (String × ValueType) :=
  [ ("api_version", .TypeString),
    ("metadata", .TypeMap),
    ("categories", .TypeMap),
    ("owner_reference", .TypeMap),
    ("project_reference", .TypeMap),
    ("name", .TypeString),
    ("state", .TypeString),
    ("description", .TypeString),
    ("availability_zone_reference", .TypeMap),
    ("cluster_reference", .TypeMap),
    ("vswitch_name", .TypeString),
    ("subnet_type", .TypeString),
    ("default_gateway_ip", .TypeString),
    ("prefix_length", .TypeInt),
    ("subnet_ip", .TypeString),
    ("dhcp_server_address", .TypeMap),
    ("dhcp_server_address_port", .TypeInt),
    ("ip_config_pool_list_ranges", .TypeList),
    ("dhcp_options", .TypeMap),
    ("dhcp_domain_name_server_list", .TypeList),
    ("dhcp_domain_search_list", .TypeList),
    ("vlan_id", .TypeInt),
    ("network_function_chain_reference", .TypeMap) ]

/-- Zero value of a schema type, as the plugin SDK hands it out for a field that
is not set: `""`, `0`, an empty `map[string]interface{}`, an empty
`[]interface{}`. -/
def ValueType.Zero : ValueType → Value
  | .TypeString => .str ""
  | .TypeInt => .int 0
  | .TypeMap => .mapIface []
  | .TypeList => .listIface []

/-- Zero value of a key of the subnet schema. -/
def zeroOf (key : String) : Value :=
  match getSubnetSchema.lookup key with
  | some t => t.Zero
  | none => .nil

/-- The `*schema.ResourceData` handed to the handlers: the identifier
(`d.Id()`), the fields that are set, and the keys the orchestrator reports as
changed (`d.HasChange`). A field that is not set is `none`. -/
structure ResourceData where
  id : String
  fields : String → Option Value
  changed : String → Bool

/-- `d.Get(key)`: the value of the field, or the zero value of its type when
the field is not set. -/
def ResourceData.Get (d : ResourceData) (key : String) : Value :=
  match d.fields key with
  | some v => v
  | none => zeroOf key

/-- `d.GetOk(key)`: the value as `Get` returns it, and whether the field is set
to something other than the zero value of its type. -/
def ResourceData.GetOk (d : ResourceData) (key : String) : Value × Bool :=
  (d.Get key, decide (d.fields key ≠ none ∧ d.Get key ≠ zeroOf key))

/-- The Go type the SDK gives to the value of a field of a schema type. -/
def Value.hasType : Value → ValueType → Bool
  | .str _, .TypeString => true
  | .int _, .TypeInt => true
  | .mapIface _, .TypeMap => true
  | .listIface _, .TypeList => true
  | _, _ => false

/-- Every field that is set holds a value of the Go type of its schema type, as
is the case for resource data the SDK builds from a configuration. -/
def ResourceData.WellTyped (d : ResourceData) : Prop :=
  ∀ k t v, getSubnetSchema.lookup k = some t → d.fields k = some v → v.hasType t = true

/-- `d.Set(key, value)`: the field now holds the value. The value is kept as it
was passed; the conversion the SDK applies to it (to the Go type of the schema)
and the errors `Set` can return for a value of the wrong shape are not
rendered, so `Set` always succeeds. -/
def ResourceData.Set (d : ResourceData) (key : String) (v : Value) : ResourceData :=
  { d with fields := fun k => if k = key then some v else d.fields k }

/-- `d.SetId(id)`. -/
def ResourceData.SetId (d : ResourceData) (id : String) : ResourceData :=
  { d with id := id }

/-- `d.HasChange(key)`. -/
def ResourceData.HasChange (d : ResourceData) (key : String) : Bool :=
  d.changed key

/-! ## Structures of the REST client (`client/v3`) -/

/-- `v3.Reference`. -/
structure Reference where
  Kind : Option String := none
  UUID : Option String := none
  Name : Option String := none
  deriving DecidableEq, Repr

/-- `v3.SubnetMetadata`, the metadata of a request. -/
structure SubnetMetadata where
  Kind : Option String := none
  UUID : Option String := none
  SpecVersion : Option Int := none
  SpecHash : Option String := none
  Name : Option String := none
  Categories : Option (List (String × String)) := none
  OwnerReference : Option Reference := none
  ProjectReference : Option Reference := none
  deriving DecidableEq, Repr

/-- `v3.Address`. -/
structure Address where
  IP : Option String := none
  FQDN : Option String := none
  IPV6 : Option String := none
  Port : Option Int := none
  deriving DecidableEq, Repr

/-- `v3.IPPool`. -/
structure IPPool where
  Range : Option String := none
  deriving DecidableEq, Repr

/-- `v3.DHCPOptions`; a nil slice is `none`. -/
structure DHCPOptions where
  BootFileName : Option String := none
  DomainName : Option String := none
  TFTPServerName : Option String := none
  DomainNameServerList : Option (List (Option String)) := none
  DomainSearchList : Option (List (Option String)) := none
  deriving DecidableEq, Repr

/-- `v3.IPConfig`; the elements of `PoolList` are taken to be non-nil. -/
structure IPConfig where
  DefaultGatewayIP : Option String := none
  PrefixLength : Option Int := none
  SubnetIP : Option String := none
  DHCPServerAddress : Option Address := none
  PoolList : Option (List IPPool) := none
  DHCPOptions : Option DHCPOptions := none
  deriving DecidableEq, Repr

/-- `v3.SubnetResources`. -/
structure SubnetResources where
  VswitchName : Option String := none
  SubnetType : Option String := none
  VlanID : Option Int := none
  NetworkFunctionChainReference : Option Reference := none
  IPConfig : Option IPConfig := none
  deriving DecidableEq, Repr

/-- `v3.Subnet`, the spec of a request. -/
structure Subnet where
  Name : Option String := none
  Description : Option String := none
  AvailabilityZoneReference : Option Reference := none
  ClusterReference : Option Reference := none
  Resources : Option SubnetResources := none
  deriving DecidableEq, Repr

/-- `v3.SubnetIntentInput`, the body of a create or update request. -/
structure SubnetIntentInput where
  APIVersion : Option String := none
  Metadata : Option SubnetMetadata := none
  Spec : Option Subnet := none
  deriving DecidableEq, Repr

/-- A non-nil `*string` together with the address it holds. -/
structure StrPtr where
  addr : Nat
  val : String
  deriving DecidableEq, Repr

/-- Metadata of a response. The two timestamps are carried as the text their
`String()` method yields. -/
structure Metadata where
  LastUpdateTime : String := ""
  Kind : Option String := none
  UUID : Option String := none
  CreationTime : String := ""
  SpecVersion : Option Int := none
  SpecHash : Option String := none
  Name : Option String := none
  Categories : List (String × String) := []
  OwnerReference : Option Reference := none
  deriving DecidableEq, Repr

/-- Resources part of the status of a response. -/
structure SubnetResourcesDefStatus where
  VswitchName : Option String := none
  SubnetType : Option String := none
  IPConfig : Option IPConfig := none
  VlanID : Option Int := none
  NetworkFunctionChainReference : Option Reference := none
  deriving DecidableEq, Repr

/-- Status of a response. -/
structure SubnetDefStatus where
  Name : Option StrPtr := none
  Description : Option String := none
  AvailabilityZoneReference : Option Reference := none
  ClusterReference : Option Reference := none
  State : Option String := none
  Resources : SubnetResourcesDefStatus := {}
  deriving DecidableEq, Repr

/-- `v3.SubnetIntentResponse`, also the type of the entities of a listing. The
sub-structures the source dereferences without a nil test (`Metadata`,
`Status`, `Status.Resources`) are taken to be present. -/
structure SubnetIntentResponse where
  APIVersion : Option String := none
  Metadata : Metadata := {}
  Status : SubnetDefStatus := {}
  deriving DecidableEq, Repr

/-! ## Backend -/

/-- A call issued to the backend. -/
inductive Call where
  | ListSubnet
  | CreateSubnet (request : SubnetIntentInput)
  | GetSubnet (uuid : String)
  | UpdateSubnet (uuid : String) (request : SubnetIntentInput)
  | DeleteSubnet (uuid : String)
  deriving DecidableEq, Repr

/-- The backend as the handlers see it through `conn.V3`: each answer is a
function of the calls issued so far and of the arguments. An answer is either a
document or the text of an error. -/
structure Conn where
  ListSubnet : List Call → Except String (List SubnetIntentResponse)
  CreateSubnet : List Call → SubnetIntentInput → Except String SubnetIntentResponse
  GetSubnet : List Call → String → Except String SubnetIntentResponse
  UpdateSubnet : List Call → String → SubnetIntentInput → Except String SubnetIntentResponse
  DeleteSubnet : List Call → String → Option String

/-! ## Helpers of package `utils` -/

/-- Modelled from the spec: package `utils` is not among the sources and the
spec does not describe it. The spec has a field that is absent in the Remote
Entity read back as the zero value, so `utils.StringValue` of a nil pointer is
taken to be the empty string and otherwise the string pointed to. -/
def utils.StringValue (p : Option String) : String :=
  match p with
  | some s => s
  | none => ""

/-- Modelled from the spec: package `utils` is not among the sources and the
spec does not describe it; `utils.Int64Value` of a nil pointer is taken to be
`0` and otherwise the number pointed to. -/
def utils.Int64Value (p : Option Int) : Int :=
  match p with
  | some n => n
  | none => 0

/-- Modelled from the spec: package `utils` is not among the sources and the
spec does not describe it; `utils.String(v)` is taken to be the usual helper
`func String(v string) *string { return &v }`, which returns a pointer to a new
variable holding `v`. The new variable takes the first free address `heap`, and
the next free address is returned with the pointer. Where the source stores the
result in a field whose address it never compares, the call is rendered as
`some v`. -/
def utils.String (heap : Nat) (v : String) : StrPtr × Nat :=
  (⟨heap, v⟩, heap + 1)

/-- Go's `==` on two `*string` operands: both nil, or both holding the same
address. The strings pointed to are not looked at. -/
def ptrEq (p q : Option StrPtr) : Bool :=
  match p, q with
  | none, none => true
  | some a, some b => decide (a.addr = b.addr)
  | _, _ => false

/-! ## `resourceNutanixSubnetExists` -/

/-- The loop of `resourceNutanixSubnetExists` over the listed entities: `acc` is
`subnetUUID`, `heap` the next free address. Each round compares the pointer
`subnet.Status.Name` with the pointer returned by a new call of
`utils.String(name)`. -/
def existsLoop (name : String) : List SubnetIntentResponse → Nat → Option String → Option String
  | [], _, acc => acc
  | subnet :: rest, heap, acc =>
    let (p, heap1) := utils.String heap name
    if ptrEq subnet.Status.Name (some p) then
      existsLoop name rest heap1 subnet.Metadata.UUID
    else
      existsLoop name rest heap1 acc

/-- `resourceNutanixSubnetExists(conn, name)`: one `ListSubnet` call, then the
scan. `heap` is the next free address once the listing has been received.
Returns the pair of results of the Go function (`Except.error` when the listing
failed) and the calls issued so far. -/
def resourceNutanixSubnetExists (conn : Conn) (heap : Nat) (name : String)
    (calls : List Call) : Except String (Option String) × List Call :=
  match conn.ListSubnet calls with
  | .error err => (.error err, calls ++ [Call.ListSubnet])
  | .ok subnetList => (.ok (existsLoop name subnetList heap none), calls ++ [Call.ListSubnet])

/-! ## Library functions used by the handlers -/

/-- Go's `strings.Contains(s, substr)`: `substr` starts at some position of
`s`. -/
def strings.Contains (s substr : String) : Bool :=
  (List.tails s.data).any (fun t => List.isPrefixOf substr.data t)

/-- Value of a string of decimal digits, `none` when a character is not a
digit. -/
def digitsValue : List Char → Nat → Option Nat
  | [], acc => some acc
  | c :: cs, acc =>
    if c.isDigit then digitsValue cs (acc * 10 + (c.toNat - 48)) else none

/-- Go's `strconv.Atoi(s)`: an optional sign, then at least one decimal digit,
the value within the range of a 64-bit `int`. The error is returned as its
text (the quoting of `s` in it is rendered without escapes). -/
def strconv.Atoi (s : String) : Except String Int :=
  let syntaxErr : Except String Int :=
    .error ("strconv.Atoi: parsing \"" ++ s ++ "\": invalid syntax")
  let rangeErr : Except String Int :=
    .error ("strconv.Atoi: parsing \"" ++ s ++ "\": value out of range")
  let (neg, digits) :=
    match s.data with
    | '-' :: cs => (true, cs)
    | '+' :: cs => (false, cs)
    | cs => (false, cs)
  match digits with
  | [] => syntaxErr
  | _ =>
    match digitsValue digits 0 with
    | none => syntaxErr
    | some n =>
      if neg then
        if n ≤ 2 ^ 63 then .ok (-(n : Int)) else rangeErr
      else
        if n < 2 ^ 63 then .ok (n : Int) else rangeErr

/-! ## `subnetStateRefreshFunc` and the poller -/

/-- The triple `(interface{}, string, error)` a `resource.StateRefreshFunc`
returns. `result` is `none` for the nil interface and `some p` for an interface
holding the pointer `p` (which may itself be nil). -/
structure RefreshResult where
  result : Option (Option SubnetIntentResponse)
  state : String
  err : Option String
  deriving DecidableEq, Repr

/-- The function built by `subnetStateRefreshFunc(client, uuid)`, applied once:
one `GetSubnet` call. On an error `GetSubnet` is taken to return a nil
document. The outcome is `fault` when `Status.State` is nil and is
dereferenced; an error is reported inside the triple, never as
`Result.error`. -/
def subnetStateRefreshFunc (client : Conn) (uuid : String) (calls : List Call) :
    Result RefreshResult × List Call :=
  let calls1 := calls ++ [Call.GetSubnet uuid]
  match client.GetSubnet calls uuid with
  | .error err =>
    if strings.Contains err "ENTITY_NOT_FOUND" then
      (.ok ⟨some none, "DELETED", none⟩, calls1)
    else
      (.ok ⟨none, "", some err⟩, calls1)
  | .ok v =>
    match v.Status.State with
    | none => (.fault, calls1)
    | some state => (.ok ⟨some (some v), state, none⟩, calls1)

/-- The fields of `resource.StateChangeConf` that decide the outcome of the
wait. `polls` stands for `Timeout`, `Delay` and `MinTimeout`: it is the number
of refreshes that fit into the timeout. -/
structure StateChangeConf where
  Pending : List String
  Target : List String
  polls : Nat
  NotFoundChecks : Nat := 20

/-- The loop of `WaitForState` of the plugin SDK (`helper/resource`), with
`ContinuousTargetOccurence` at its default of one. Each round refreshes once:
an error of the refresh ends the wait with that error; a nil result counts
towards `NotFoundChecks` (or is success when no target is configured); a state
in `Target` ends the wait with success; a state in `Pending` lets the wait go
on; any other state is an unexpected-state error when `Pending` is not empty.
When no round is left the wait ends with the timeout error. -/
def waitLoop (conf : StateChangeConf) (refresh : List Call → Result RefreshResult × List Call) :
    Nat → Nat → String → List Call → Result RefreshResult × List Call
  | 0, _, lastState, calls =>
    (.error ("timeout while waiting for state to become " ++
      toString conf.Target ++ " (last state: " ++ lastState ++ ")"), calls)
  | fuel + 1, notfoundTick, _, calls =>
    match refresh calls with
    | (.fault, calls1) => (.fault, calls1)
    | (.error e, calls1) => (.error e, calls1)
    | (.ok r, calls1) =>
      match r.err with
      | some e => (.error e, calls1)
      | none =>
        match r.result with
        | none =>
          if conf.Target.isEmpty then (.ok r, calls1)
          else if notfoundTick + 1 > conf.NotFoundChecks then
            (.error "couldn't find resource", calls1)
          else waitLoop conf refresh fuel (notfoundTick + 1) r.state calls1
        | some _ =>
          if conf.Target.contains r.state then (.ok r, calls1)
          else if conf.Pending.contains r.state then
            waitLoop conf refresh fuel 0 r.state calls1
          else if conf.Pending.isEmpty then
            waitLoop conf refresh fuel 0 r.state calls1
          else
            (.error ("unexpected state " ++ r.state ++ ", wanted target " ++
              toString conf.Target), calls1)

/-- `stateConf.WaitForState()`. -/
def StateChangeConf.WaitForState (conf : StateChangeConf)
    (refresh : List Call → Result RefreshResult × List Call) (calls : List Call) :
    Result RefreshResult × List Call :=
  waitLoop conf refresh conf.polls 0 "" calls

/-- What a handler leaves behind: the error it returns (`ok` for `nil`), the
resource data and the calls issued so far. -/
structure Run where
  err : Result Unit
  d : ResourceData
  calls : List Call

/-! ## `resourceNutanixSubnetRead` -/

/-- The map written for a reference that is present: `kind`, `name`, `uuid`. -/
def referenceMap (r : Reference) : List (String × Elem) :=
  [ ("kind", .str (utils.StringValue r.Kind)),
    ("name", .str (utils.StringValue r.Name)),
    ("uuid", .str (utils.StringValue r.UUID)) ]

/-- Lines 144 to 342 of `resourceNutanixSubnetRead`: the fields of the response
are written to the resource data in the order of the source. -/
def readResponse (resp : SubnetIntentResponse) (d : ResourceData) : ResourceData :=
  -- set metadata values
  let d := d.Set "metadata" (.mapIface
    [ ("last_update_time", .str resp.Metadata.LastUpdateTime),
      ("kind", .str (utils.StringValue resp.Metadata.Kind)),
      ("uuid", .str (utils.StringValue resp.Metadata.UUID)),
      ("creation_time", .str resp.Metadata.CreationTime),
      ("spec_version", .str (toString (utils.Int64Value resp.Metadata.SpecVersion))),
      ("spec_hash", .str (utils.StringValue resp.Metadata.SpecHash)),
      ("name", .str (utils.StringValue resp.Metadata.Name)) ])
  let d := d.Set "categories" (.mapStr resp.Metadata.Categories)
  let d := d.Set "owner_reference" (.mapIface
    (match resp.Metadata.OwnerReference with
     | some r => referenceMap r
     | none => []))
  let d := d.Set "api_version" (.str (utils.StringValue resp.APIVersion))
  let d := d.Set "name" (.str (utils.StringValue (resp.Status.Name.map StrPtr.val)))
  let d := d.Set "description" (.str (utils.StringValue resp.Status.Description))
  -- set availability zone reference values
  let d := d.Set "availability_zone_reference" (.mapIface
    (match resp.Status.AvailabilityZoneReference with
     | some r => referenceMap r
     | none => []))
  -- set cluster reference values
  let d := d.Set "cluster_reference" (.mapIface
    (match resp.Status.ClusterReference with
     | some r => referenceMap r
     | none => []))
  -- set state value
  let d := d.Set "state" (.str (utils.StringValue resp.Status.State))
  let d := d.Set "vswitch_name" (.str (utils.StringValue resp.Status.Resources.VswitchName))
  let d :=
    match resp.Status.Resources.SubnetType with
    | some st => d.Set "subnet_type" (.str (utils.StringValue (some st)))
    | none => d.Set "subnet_type" (.str "")
  let d :=
    match resp.Status.Resources.IPConfig with
    | some ipc =>
      let d := d.Set "default_gateway_ip" (.str (utils.StringValue ipc.DefaultGatewayIP))
      let d := d.Set "prefix_length" (.int64 (utils.Int64Value ipc.PrefixLength))
      let d := d.Set "subnet_ip" (.str (utils.StringValue ipc.SubnetIP))
      let (address, port) : List (String × Elem) × Int :=
        match ipc.DHCPServerAddress with
        | some a =>
          ([ ("ip", .str (utils.StringValue a.IP)),
             ("fqdn", .str (utils.StringValue a.FQDN)),
             ("ipv6", .str (utils.StringValue a.IPV6)) ],
           utils.Int64Value a.Port)
        | none => ([], 0)
      let d := d.Set "dhcp_server_address" (.mapIface address)
      let d := d.Set "dhcp_server_address_port" (.int64 port)
      let d :=
        match ipc.PoolList with
        | some pl =>
          d.Set "ip_config_pool_list_ranges"
            (.listStr (pl.map (fun (v : IPPool) => utils.StringValue v.Range)))
        | none => d.Set "ip_config_pool_list_ranges" (.listStr [])
      match ipc.DHCPOptions with
      | some o =>
        let d := d.Set "dhcp_options" (.mapIface
          [ ("boot_file_name", .str (utils.StringValue o.BootFileName)),
            ("domain_name", .str (utils.StringValue o.DomainName)),
            ("tftp_server_name", .str (utils.StringValue o.TFTPServerName)) ])
        let d :=
          match o.DomainNameServerList with
          | some dnsl =>
            d.Set "dhcp_domain_name_server_list" (.listStr (dnsl.map utils.StringValue))
          | none => d
        match o.DomainSearchList with
        | some dnsl =>
          d.Set "dhcp_domain_search_list" (.listStr (dnsl.map utils.StringValue))
        | none => d
      | none =>
        let d := d.Set "dhcp_options" (.mapIface [])
        let d := d.Set "dhcp_domain_name_server_list" (.listMap [])
        d.Set "dhcp_domain_search_list" (.listMap [])
    | none =>
      let d := d.Set "default_gateway_ip" (.str "")
      let d := d.Set "prefix_length" (.int 0)
      let d := d.Set "subnet_ip" (.str "")
      let d := d.Set "dhcp_server_address_port" (.int 0)
      let d := d.Set "ip_config_pool_list_ranges" (.listMap [])
      let d := d.Set "dhcp_options" (.mapIface [])
      let d := d.Set "dhcp_domain_name_server_list" (.listMap [])
      d.Set "dhcp_domain_search_list" (.listMap [])
  let d := d.Set "vlan_id" (.int64Ptr resp.Status.Resources.VlanID)
  -- set network_function_chain_reference
  let d :=
    match resp.Status.Resources.NetworkFunctionChainReference with
    | some r => d.Set "network_function_chain_reference" (.mapIface (referenceMap r))
    | none => d.Set "network_function_chain_reference" (.mapIface [])
  d

/-- `resourceNutanixSubnetRead(d, meta)`: one `GetSubnet` call for `d.Id()`; an
error of the call is returned as it is, otherwise the response is written to the
resource data. -/
def resourceNutanixSubnetRead (conn : Conn) (d : ResourceData) (calls : List Call) : Run :=
  let calls1 := calls ++ [Call.GetSubnet d.id]
  match conn.GetSubnet calls d.id with
  | .error err => ⟨.error err, d, calls1⟩
  | .ok resp => ⟨.ok (), readResponse resp d, calls1⟩

/-! ## Request builders -/

/-- The loop `for k, v := range c { labels[k] = v.(string) }`. -/
def stringLabels : List (String × Elem) → Result (List (String × String))
  | [] => .ok []
  | (k, v) :: rest => do
    let s ← Elem.asString (some v)
    let labels ← stringLabels rest
    pure ((k, s) :: labels)

/-- The loop `for k, v := range p { pool[k] = utils.String(v.(string)) }` over a
`[]interface{}`. -/
def stringElems : List Elem → Result (List String)
  | [] => .ok []
  | v :: rest => do
    let s ← Elem.asString (some v)
    let l ← stringElems rest
    pure (s :: l)

/-- The reference literal of the create path, written out five times in the
source: `Kind` and `UUID` from `a["kind"].(string)` and `a["uuid"].(string)`,
`Name` only when the key `name` is in the map. -/
def createReference (a : List (String × Elem)) : Result Reference := do
  let kind ← Elem.asString (a.lookup "kind")
  let uuid ← Elem.asString (a.lookup "uuid")
  let r : Reference := { Kind := some kind, UUID := some uuid }
  match a.lookup "name" with
  | some v =>
    let name ← Elem.asString (some v)
    pure { r with Name := some name }
  | none => pure r

/-- The same literal for the map `or` taken from inside the metadata map. -/
def createReferenceNested (a : List (String × Atom)) : Result Reference := do
  let kind ← Atom.asString (a.lookup "kind")
  let uuid ← Atom.asString (a.lookup "uuid")
  let r : Reference := { Kind := some kind, UUID := some uuid }
  match a.lookup "name" with
  | some v =>
    let name ← Atom.asString (some v)
    pure { r with Name := some name }
  | none => pure r

/-- The reference literal of the update path: `Kind`, `UUID` and `Name` all by
type assertion on the map entry. -/
def updateReference (a : List (String × Elem)) : Result Reference := do
  let kind ← Elem.asString (a.lookup "kind")
  let uuid ← Elem.asString (a.lookup "uuid")
  let name ← Elem.asString (a.lookup "name")
  pure { Kind := some kind, UUID := some uuid, Name := some name }

/-- The four assignments from the metadata map that the create and the update
path share (`uuid`, `spec_version`, `spec_hash`, `name`). -/
def metadataEntries (metad : List (String × Elem)) (metadata : SubnetMetadata) :
    Result SubnetMetadata := do
  let metadata ←
    (match metad.lookup "uuid" with
     | some v =>
       if v ≠ Elem.str "" then do
         let s ← Elem.asString (some v)
         pure { metadata with UUID := some s }
       else pure metadata
     | none => pure metadata)
  let metadata ←
    (match metad.lookup "spec_version" with
     | some v =>
       if v ≠ Elem.int 0 then do
         let s ← Elem.asString (some v)
         match strconv.Atoi s with
         | .error err => Result.error err
         | .ok i => pure { metadata with SpecVersion := some i }
       else pure metadata
     | none => pure metadata)
  let metadata ←
    (match metad.lookup "spec_hash" with
     | some v =>
       if v ≠ Elem.str "" then do
         let s ← Elem.asString (some v)
         pure { metadata with SpecHash := some s }
       else pure metadata
     | none => pure metadata)
  match metad.lookup "name" with
  | some v =>
    let s ← Elem.asString (some v)
    pure { metadata with Name := some s }
  | none => pure metadata

/-- `getSubnetMetadaAttributes(d, metadata)`; the result is the metadata
structure after the function has filled it. -/
def getSubnetMetadaAttributes (d : ResourceData) (metadata : SubnetMetadata) :
    Result SubnetMetadata := do
  let (m, mok) := d.GetOk "metadata"
  let metad ← m.asMap
  if !mok then
    Result.error "please provide metadata required attributes"
  else do
    let kind ← Elem.asString (metad.lookup "kind")
    let metadata := { metadata with Kind := some kind }
    let metadata ← metadataEntries metad metadata
    let metadata ←
      (match d.GetOk "categories" with
       | (v, true) => do
         let c ← v.asMap
         let labels ← stringLabels c
         pure { metadata with Categories := some labels }
       | (_, false) => pure metadata)
    let metadata ←
      (match d.GetOk "project_reference" with
       | (p, true) => do
         let pr ← p.asMap
         let r ← createReference pr
         pure { metadata with ProjectReference := some r }
       | (_, false) => pure metadata)
    match metad.lookup "owner_reference" with
    | some o =>
      let or ← Elem.asMap (some o)
      let r ← createReferenceNested or
      pure { metadata with OwnerReference := some r }
    | none => pure metadata

/-- `getSubnetResources(d, subnet)`; the result is the resources structure after
the function has filled it. The function returns no error of its own. -/
def getSubnetResources (d : ResourceData) (subnet : SubnetResources) :
    Result SubnetResources := do
  let ip : IPConfig := {}
  let dhcpo : DHCPOptions := {}
  let subnet ←
    (match d.GetOk "vswitch_name" with
     | (v, true) => do
       let s ← v.asString
       pure { subnet with VswitchName := some s }
     | (_, false) => pure subnet)
  let subnet ←
    (match d.GetOk "subnet_type" with
     | (st, true) => do
       let s ← st.asString
       pure { subnet with SubnetType := some s }
     | (_, false) => pure subnet)
  let ip ←
    (match d.GetOk "default_gateway_ip" with
     | (v, true) => do
       let s ← v.asString
       pure { ip with DefaultGatewayIP := some s }
     | (_, false) => pure ip)
  let ip ←
    (match d.GetOk "prefix_length" with
     | (v, true) => do
       let n ← v.asInt
       pure { ip with PrefixLength := some n }
     | (_, false) => pure ip)
  let ip ←
    (match d.GetOk "subnet_ip" with
     | (v, true) => do
       let s ← v.asString
       pure { ip with SubnetIP := some s }
     | (_, false) => pure ip)
  let ip ←
    (match d.GetOk "dhcp_server_address" with
     | (v, true) => do
       let dhcpa ← v.asMap
       let address : Address := {}
       let address ←
         (match dhcpa.lookup "ip" with
          | some x => do
            let s ← Elem.asString (some x)
            pure { address with IP := some s }
          | none => pure address)
       let address ←
         (match dhcpa.lookup "fqdn" with
          | some x => do
            let s ← Elem.asString (some x)
            pure { address with FQDN := some s }
          | none => pure address)
       let address ←
         (match d.GetOk "dhcp_server_address_port" with
          | (w, true) => do
            let n ← w.asInt64
            pure { address with Port := some n }
          | (_, false) => pure address)
       let address ←
         (match dhcpa.lookup "ipv6" with
          | some x => do
            let s ← Elem.asString (some x)
            pure { address with IPV6 := some s }
          | none => pure address)
       pure { ip with DHCPServerAddress := some address }
     | (_, false) => pure ip)
  let ip ←
    (match d.GetOk "ip_config_pool_list_ranges" with
     | (v, true) => do
       let p ← v.asList
       let ranges ← stringElems p
       pure { ip with PoolList := some (ranges.map (fun r => ({ Range := some r } : IPPool))) }
     | (_, false) => pure ip)
  let dhcpo ←
    (match d.GetOk "dhcp_options" with
     | (v, true) => do
       let dop ← v.asMap
       let dhcpo ←
         (match dop.lookup "boot_file_name" with
          | some x => do
            let s ← Elem.asString (some x)
            pure { dhcpo with BootFileName := some s }
          | none => pure dhcpo)
       let dhcpo ←
         (match dop.lookup "domain_name" with
          | some x => do
            let s ← Elem.asString (some x)
            pure { dhcpo with DomainName := some s }
          | none => pure dhcpo)
       match dop.lookup "tftp_server_name" with
       | some x => do
         let s ← Elem.asString (some x)
         pure { dhcpo with TFTPServerName := some s }
       | none => pure dhcpo
     | (_, false) => pure dhcpo)
  let dhcpo ←
    (match d.GetOk "dhcp_domain_name_server_list" with
     | (v, true) => do
       let p ← v.asList
       let pool ← stringElems p
       pure { dhcpo with DomainNameServerList := some (pool.map some) }
     | (_, false) => pure dhcpo)
  let dhcpo ←
    (match d.GetOk "dhcp_domain_search_list" with
     | (v, true) => do
       let p ← v.asList
       let pool ← stringElems p
       pure { dhcpo with DomainSearchList := some (pool.map some) }
     | (_, false) => pure dhcpo)
  -- set vlan_id
  let (v, ok) := d.GetOk "vlan_id"
  let vlan ← v.asInt
  let subnet := if vlan = 0 || ok then { subnet with VlanID := some vlan } else subnet
  -- set network_function_chain_reference
  let subnet ←
    (match d.GetOk "network_function_chain_reference" with
     | (w, true) => do
       let ref ← w.asMap
       let r ← createReference ref
       pure { subnet with NetworkFunctionChainReference := some r }
     | (_, false) => pure subnet)
  let ip := { ip with DHCPOptions := some dhcpo }
  pure { subnet with IPConfig := some ip }

/-! ## `resourceNutanixSubnetCreate` -/

/-- Lines 34 to 88 of `resourceNutanixSubnetCreate`: the arguments are read and
the parts of the request are filled, with the two checks of the required
attributes in between. No call is issued here. The result is `request`, `spec`,
`metadata` and `subnet`. -/
def createArguments (d : ResourceData) :
    Result (SubnetIntentInput × Subnet × SubnetMetadata × SubnetResources) := do
  -- Prepare request
  let request : SubnetIntentInput := {}
  let spec : Subnet := {}
  let metadata : SubnetMetadata := {}
  let subnet : SubnetResources := {}
  -- Read arguments and set request values
  let (_, nok) := d.GetOk "name"
  let (desc, descok) := d.GetOk "description"
  let (azr, azrok) := d.GetOk "availability_zone_reference"
  let (cr, crok) := d.GetOk "cluster_reference"
  let (_, stok) := d.GetOk "subnet_type"
  if !stok && !nok then
    Result.error "Please provide the required attributes name, subnet_type"
  else do
    let request ←
      (match d.GetOk "api_version" with
       | (v, true) => do
         let s ← v.asString
         pure { request with APIVersion := some s }
       | (_, false) => pure request)
    if !nok then
      Result.error "Please provide the required name attribute"
    else do
      let metadata ← getSubnetMetadaAttributes d metadata
      let spec ←
        (if descok then do
           let s ← desc.asString
           pure { spec with Description := some s }
         else pure spec)
      let spec ←
        (if azrok then do
           let a ← azr.asMap
           let r ← createReference a
           pure { spec with AvailabilityZoneReference := some r }
         else pure spec)
      let spec ←
        (if crok then do
           let a ← cr.asMap
           let r ← createReference a
           pure { spec with ClusterReference := some r }
         else pure spec)
      let subnet ← getSubnetResources d subnet
      pure (request, spec, metadata, subnet)

/-- The `StateChangeConf` of the create and of the update path. -/
def createStateConf (polls : Nat) : StateChangeConf :=
  { Pending := ["PENDING", "RUNNING"], Target := ["COMPLETE"], polls := polls }

/-- The `StateChangeConf` of the delete path. -/
def deleteStateConf (polls : Nat) : StateChangeConf :=
  { Pending := ["PENDING", "RUNNING", "DELETE_IN_PROGRESS", "COMPLETE"],
    Target := ["DELETED"], polls := polls }

/-- `resourceNutanixSubnetCreate(d, meta)`. `heap` is the next free address when
the name pre-check has received the listing, `polls` the number of refreshes
that fit into the timeout of the wait. -/
def resourceNutanixSubnetCreate (conn : Conn) (heap polls : Nat) (d : ResourceData)
    (calls : List Call) : Run :=
  match createArguments d with
  | .error e => ⟨.error e, d, calls⟩
  | .fault => ⟨.fault, d, calls⟩
  | .ok (request, spec, metadata, subnet) =>
    -- the value `n` read at line 40
    let n := (d.GetOk "name").1
    match (d.Get "name").asString, n.asString with
    | .ok name, .ok nstr =>
      match resourceNutanixSubnetExists conn heap name calls with
      | (.error err, calls1) => ⟨.error err, d, calls1⟩
      | (.ok (some subnetUUID), calls1) =>
        ⟨.error ("Subnet already with name " ++ name ++
          " exists in the given cluster, UUID " ++ subnetUUID), d, calls1⟩
      | (.ok none, calls1) =>
        let spec := { spec with Name := some nstr, Resources := some subnet }
        let request := { request with Metadata := some metadata, Spec := some spec }
        -- Make request to the API
        let calls2 := calls1 ++ [Call.CreateSubnet request]
        match conn.CreateSubnet calls1 request with
        | .error err => ⟨.error err, d, calls2⟩
        | .ok resp =>
          match resp.Metadata.UUID with
          | none => ⟨.fault, d, calls2⟩
          | some uuid =>
            let d := d.SetId uuid
            match (createStateConf polls).WaitForState (subnetStateRefreshFunc conn d.id) calls2 with
            | (.error err, calls3) =>
              ⟨.error ("Error waiting for subnet (" ++ d.id ++ ") to create: " ++ err), d, calls3⟩
            | (.fault, calls3) => ⟨.fault, d, calls3⟩
            | (.ok _, calls3) => resourceNutanixSubnetRead conn d calls3
    | _, _ => ⟨.fault, d, calls⟩

/-! ## `resourceNutanixSubnetUpdate` -/

/-- Lines 351 to 507 of `resourceNutanixSubnetUpdate`: the request is filled
from the fields flagged as changed. No call is issued here. -/
def updateRequest (d : ResourceData) : Result SubnetIntentInput := do
  let request : SubnetIntentInput := {}
  let metadata : SubnetMetadata := {}
  let res : SubnetResources := {}
  let ipcfg : IPConfig := {}
  let dhcpO : DHCPOptions := {}
  let spec : Subnet := {}
  -- get state
  let metadata ←
    (if d.HasChange "metadata" then do
       let metad ← (d.Get "metadata").asMap
       metadataEntries metad metadata
     else pure metadata)
  let metadata ←
    (if d.HasChange "categories" then do
       let p ← (d.Get "categories").asMap
       let labels ← stringLabels p
       pure { metadata with Categories := some labels }
     else pure metadata)
  let metadata ←
    (if d.HasChange "owner_reference" then do
       let or ← (d.Get "owner_reference").asMap
       let r ← updateReference or
       pure { metadata with OwnerReference := some r }
     else pure metadata)
  let metadata ←
    (if d.HasChange "project_reference" then do
       let pr ← (d.Get "project_reference").asMap
       let r ← updateReference pr
       pure { metadata with ProjectReference := some r }
     else pure metadata)
  let spec ←
    (if d.HasChange "name" then do
       let s ← (d.Get "name").asString
       pure { spec with Name := some s }
     else pure spec)
  let spec ←
    (if d.HasChange "description" then do
       let s ← (d.Get "description").asString
       pure { spec with Description := some s }
     else pure spec)
  let spec ←
    (if d.HasChange "availability_zone_reference" then do
       let a ← (d.Get "availability_zone_reference").asMap
       let r ← updateReference a
       pure { spec with AvailabilityZoneReference := some r }
     else pure spec)
  let spec ←
    (if d.HasChange "cluster_reference" then do
       let a ← (d.Get "cluster_reference").asMap
       let r ← updateReference a
       pure { spec with ClusterReference := some r }
     else pure spec)
  let dhcpO ←
    (if d.HasChange "dhcp_domain_name_server_list" then do
       let dd ← (d.Get "dhcp_domain_name_server_list").asStringList
       pure { dhcpO with DomainNameServerList := some (dd.map some) }
     else pure dhcpO)
  let dhcpO ←
    (if d.HasChange "dhcp_domain_search_list" then do
       let dd ← (d.Get "dhcp_domain_search_list").asStringList
       pure { dhcpO with DomainSearchList := some (dd.map some) }
     else pure dhcpO)
  let ipcfg ←
    (if d.HasChange "ip_config_pool_list_ranges" then do
       let dd ← (d.Get "ip_config_pool_list_ranges").asStringList
       pure { ipcfg with PoolList := some (dd.map (fun v => ({ Range := some v } : IPPool))) }
     else pure ipcfg)
  let dhcpO ←
    (if d.HasChange "dhcp_options" then do
       let dOptions ← (d.Get "dhcp_options").asMap
       let boot ← Elem.asString (dOptions.lookup "boot_file_name")
       let dn ← Elem.asString (dOptions.lookup "domain_name")
       let tsn ← Elem.asString (dOptions.lookup "tftp_server_name")
       pure { dhcpO with BootFileName := some boot, DomainName := some dn,
                         TFTPServerName := some tsn }
     else pure dhcpO)
  let res ←
    (if d.HasChange "network_function_chain_reference" then do
       let a ← (d.Get "network_function_chain_reference").asMap
       let r ← updateReference a
       pure { res with NetworkFunctionChainReference := some r }
     else pure res)
  let res ←
    (if d.HasChange "vswitch_name" then do
       let s ← (d.Get "vswitch_name").asString
       pure { res with VswitchName := some s }
     else pure res)
  let res ←
    (if d.HasChange "subnet_type" then do
       let s ← (d.Get "subnet_type").asString
       pure { res with SubnetType := some s }
     else pure res)
  let ipcfg ←
    (if d.HasChange "default_gateway_ip" then do
       let s ← (d.Get "default_gateway_ip").asString
       pure { ipcfg with DefaultGatewayIP := some s }
     else pure ipcfg)
  let ipcfg ←
    (if d.HasChange "prefix_length" then do
       let n ← (d.Get "prefix_length").asInt
       pure { ipcfg with PrefixLength := some n }
     else pure ipcfg)
  let ipcfg ←
    (if d.HasChange "subnet_ip" then do
       let s ← (d.Get "subnet_ip").asString
       pure { ipcfg with SubnetIP := some s }
     else pure ipcfg)
  let ipcfg ←
    (if d.HasChange "dhcp_server_address" then do
       let dh ← (d.Get "dhcp_server_address").asMap
       let ip ← Elem.asString (dh.lookup "ip")
       let ipv6 ← Elem.asString (dh.lookup "ipv6")
       let fqdn ← Elem.asString (dh.lookup "fqdn")
       let dhcs : Address := { IP := some ip, IPV6 := some ipv6, FQDN := some fqdn }
       pure { ipcfg with DHCPServerAddress := some dhcs }
     else pure ipcfg)
  let ipcfg ←
    (if d.HasChange "dhcp_server_address_port" then do
       let port ← (d.Get "dhcp_server_address_port").asInt
       match ipcfg.DHCPServerAddress with
       | none => Result.fault
       | some a => pure { ipcfg with DHCPServerAddress := some { a with Port := some port } }
     else pure ipcfg)
  let res ←
    (if d.HasChange "vlan_id" then do
       let n ← (d.Get "vlan_id").asInt
       pure { res with VlanID := some n }
     else pure res)
  let ipcfg := { ipcfg with DHCPOptions := some dhcpO }
  let res := { res with IPConfig := some ipcfg }
  let spec := { spec with Resources := some res }
  pure { request with Metadata := some metadata, Spec := some spec }

/-- `resourceNutanixSubnetUpdate(d, meta)`. -/
def resourceNutanixSubnetUpdate (conn : Conn) (polls : Nat) (d : ResourceData)
    (calls : List Call) : Run :=
  match updateRequest d with
  | .error e => ⟨.error e, d, calls⟩
  | .fault => ⟨.fault, d, calls⟩
  | .ok request =>
    let calls1 := calls ++ [Call.UpdateSubnet d.id request]
    match conn.UpdateSubnet calls d.id request with
    | .error errUpdate => ⟨.error errUpdate, d, calls1⟩
    | .ok _ =>
      match (createStateConf polls).WaitForState (subnetStateRefreshFunc conn d.id) calls1 with
      | (.error err, calls2) =>
        ⟨.error ("Error waiting for subnet (" ++ d.id ++ ") to update: " ++ err), d, calls2⟩
      | (.fault, calls2) => ⟨.fault, d, calls2⟩
      | (.ok _, calls2) => resourceNutanixSubnetRead conn d calls2

/-! ## `resourceNutanixSubnetDelete` -/

/-- `resourceNutanixSubnetDelete(d, meta)`. -/
def resourceNutanixSubnetDelete (conn : Conn) (polls : Nat) (d : ResourceData)
    (calls : List Call) : Run :=
  let calls1 := calls ++ [Call.DeleteSubnet d.id]
  match conn.DeleteSubnet calls d.id with
  | some err => ⟨.error err, d, calls1⟩
  | none =>
    match (deleteStateConf polls).WaitForState (subnetStateRefreshFunc conn d.id) calls1 with
    | (.error err, calls2) =>
      ⟨.error ("Error waiting for subnet (" ++ d.id ++ ") to delete: " ++ err), d, calls2⟩
    | (.fault, calls2) => ⟨.fault, d, calls2⟩
    | (.ok _, calls2) => ⟨.ok (), d.SetId "", calls2⟩

/-- The operation a call invokes, without its arguments. -/
def Call.name : Call → String
  | .ListSubnet => "ListSubnet"
  | .CreateSubnet _ => "CreateSubnet"
  | .GetSubnet _ => "GetSubnet"
  | .UpdateSubnet _ _ => "UpdateSubnet"
  | .DeleteSubnet _ => "DeleteSubnet"

/-! ## `keyToTypeMap` (`jsonToSchema/main.go`) -/

/-- Go's `unicode.IsSpace(r)`: the characters of the Unicode property
`White_Space`. -/
def unicode.IsSpace (c : Char) : Bool :=
  let n := c.toNat
  (9 ≤ n && n ≤ 13) || n == 0x20 || n == 0x85 || n == 0xA0 || n == 0x1680 ||
  (0x2000 ≤ n && n ≤ 0x200A) || n == 0x2028 || n == 0x2029 || n == 0x202F ||
  n == 0x205F || n == 0x3000

/-- The scan of `strings.Fields`: `cur` holds, in reverse, the characters of
the word that is being read. -/
def fieldsScan : List Char → List Char → List String
  | [], cur => if cur.isEmpty then [] else [String.mk cur.reverse]
  | c :: cs, cur =>
    if unicode.IsSpace c then
      if cur.isEmpty then fieldsScan cs [] else String.mk cur.reverse :: fieldsScan cs []
    else fieldsScan cs (c :: cur)

/-- Go's `strings.Fields(s)`: the maximal runs of characters of `s` that are
not white space, in order. -/
def strings.Fields (s : String) : List String :=
  fieldsScan s.data []

/-- The index expression `words[i]` on a slice; an index out of range
panics. -/
def sliceIndex (words : List String) (i : Nat) : Result String :=
  match words[i]? with
  | some w => .ok w
  | none => .fault

/-- The assignment `maps[k] = v` on a Go map, held as the list of its
entries. -/
def mapAssign (maps : List (String × String)) (k v : String) : List (String × String) :=
  (k, v) :: maps.filter (fun p => p.1 != k)

/-- Lines 150 to 155 of `keyToTypeMap`: the test
`len(words) > 2` and then `words[2] == "struct" && words[3] == "{"`, whose
second operand is evaluated only when the first holds. The result tells
whether the branch that sets the flag and continues is taken. -/
def structHeaderTest (words : List String) : Result Bool :=
  if words.length > 2 then do
    let w2 ← sliceIndex words 2
    if w2 = "struct" then do
      let w3 ← sliceIndex words 3
      pure (decide (w3 = "\x7b"))
    else pure false
  else pure false

/-- Lines 156 to 160 of `keyToTypeMap`: with the flag set and more than one
word, a line whose first word is not `//` is entered into the map. -/
def fieldEntry (flag : Bool) (words : List String) (maps : List (String × String)) :
    Result (List (String × String)) :=
  if flag && decide (words.length > 1) then do
    let w0 ← sliceIndex words 0
    if w0 ≠ "//" then do
      let w1 ← sliceIndex words 1
      pure (mapAssign maps w0 w1)
    else pure maps
  else pure maps

/-- The loop `for scanner.Scan() { ... }` of `keyToTypeMap` over the texts the
scanner still has to deliver, with the current `flag` and `maps`. -/
def keyToTypeMapLoop : List String → Bool → List (String × String) →
    Result (List (String × String))
  | [], _, maps => .ok maps
  | text :: rest, flag, maps =>
    let words := strings.Fields text
    if text = "\x7d" then .ok maps
    else
      match structHeaderTest words with
      | .fault => .fault
      | .error e => .error e
      | .ok true => keyToTypeMapLoop rest true maps
      | .ok false =>
        match fieldEntry flag words maps with
        | .fault => .fault
        | .error e => .error e
        | .ok maps => keyToTypeMapLoop rest flag maps

/-- `keyToTypeMap(structName)`, as a function of the lines of the struct file:
`lines` are the texts `scanner.Text()` delivers in turn for the file the
function has opened. -/
def keyToTypeMap (lines : List String) : Result (List (String × String)) :=
  keyToTypeMapLoop lines false []

/-! ## Examples of inputs -/

/-- Resource data with the given fields set and no identifier. -/
def dataOf (fields : List (String × Value)) : ResourceData :=
  { id := "", fields := fun k => fields.lookup k, changed := fun _ => false }

/-- A backend that lists the given entities, accepts every request and answers
every fetch with the given document. -/
def connOf (entities : List SubnetIntentResponse) (doc : SubnetIntentResponse) : Conn :=
  { ListSubnet := fun _ => .ok entities,
    CreateSubnet := fun _ _ => .ok doc,
    GetSubnet := fun _ _ => .ok doc,
    UpdateSubnet := fun _ _ _ => .ok doc,
    DeleteSubnet := fun _ _ => none }

/-- An entity named `net1` with identifier `u1`; its name is held at address
`0`. -/
def net1Entity : SubnetIntentResponse :=
  { Metadata := { UUID := some "u1", Kind := some "subnet" },
    Status := { Name := some ⟨0, "net1"⟩, State := some "COMPLETE" } }

/-- Desired state `{name: "net1", subnet_type: "VLAN"}` with the metadata map
the schema requires. -/
def net1Desired : ResourceData :=
  dataOf [ ("name", .str "net1"), ("subnet_type", .str "VLAN"),
           ("metadata", .mapIface [("kind", .str "subnet")]) ]

/-- Desired state with a name and the metadata map, and no `subnet_type`. -/
def noTypeDesired : ResourceData :=
  dataOf [ ("name", .str "net1"), ("metadata", .mapIface [("kind", .str "subnet")]) ]

/-- The desired state `net1Desired` with a project reference added. -/
def projectDesired : ResourceData :=
  dataOf [ ("name", .str "net1"), ("subnet_type", .str "VLAN"),
           ("metadata", .mapIface [("kind", .str "subnet")]),
           ("project_reference", .mapIface [("kind", .str "project"), ("uuid", .str "p1")]) ]

/-- An entity whose IP configuration carries DHCP options with both lists
nil. -/
def optionsEntity : SubnetIntentResponse :=
  { Metadata := { UUID := some "u2", Kind := some "subnet" },
    Status := { Name := some ⟨0, "net2"⟩, State := some "COMPLETE",
                Resources := { IPConfig := some { DHCPOptions := some {} } } } }

/-- A backend whose every fetch fails with a not-found error. -/
def goneConn : Conn :=
  { ListSubnet := fun _ => .ok [],
    CreateSubnet := fun _ _ => .error "unavailable",
    GetSubnet := fun _ _ => .error "status: 404, code: ENTITY_NOT_FOUND, subnet is gone",
    UpdateSubnet := fun _ _ _ => .error "unavailable",
    DeleteSubnet := fun _ _ => none }

/-- Resource data of the subnet `u1` after a change of `name` and `vlan_id`,
and of nothing else. -/
def renamedData : ResourceData :=
  { id := "u1",
    fields := fun k =>
      [ ("name", Value.str "net1b"), ("subnet_type", Value.str "VLAN"),
        ("vlan_id", Value.int 7), ("description", Value.str "old") ].lookup k,
    changed := fun k => k == "name" || k == "vlan_id" }

/-- An entity the backend still reports as `PENDING`. -/
def pendingEntity : SubnetIntentResponse :=
  { Metadata := { UUID := some "u1", Kind := some "subnet" },
    Status := { Name := some ⟨0, "net1"⟩, State := some "PENDING" } }

/-- The request `updateRequest` builds for `renamedData`. -/
def renamedRequest : SubnetIntentInput :=
  { Metadata := some {},
    Spec := some
      { Name := some "net1b",
        Resources := some
          { VlanID := some 7, IPConfig := some { DHCPOptions := some {} } } } }

/-- The request `resourceNutanixSubnetCreate` sends for `net1Desired`. -/
def net1Request : SubnetIntentInput :=
  { Metadata := some { Kind := some "subnet" },
    Spec := some
      { Name := some "net1",
        Resources := some
          { SubnetType := some "VLAN", VlanID := some 0,
            IPConfig := some { DHCPOptions := some {} } } } }

/-- A backend that answers no call: every call fails with the same error. -/
def downConn : Conn :=
  { ListSubnet := fun _ => .error "connection refused",
    CreateSubnet := fun _ _ => .error "connection refused",
    GetSubnet := fun _ _ => .error "connection refused",
    UpdateSubnet := fun _ _ _ => .error "connection refused",
    DeleteSubnet := fun _ _ => some "connection refused" }

/-- A backend that reports the subnet as `PENDING` at the first fetch and as
`COMPLETE` from the second fetch on. -/
def slowConn : Conn :=
  { ListSubnet := fun _ => .ok [],
    CreateSubnet := fun _ _ => .ok pendingEntity,
    GetSubnet := fun calls _ =>
      if (calls.filter (fun c => c.name == "GetSubnet")).length = 0 then .ok pendingEntity
      else .ok net1Entity,
    UpdateSubnet := fun _ _ _ => .ok pendingEntity,
    DeleteSubnet := fun _ _ => none }

/-- The desired state `net1Desired` with a top-level owner reference added. -/
def ownerDesired : ResourceData :=
  net1Desired.Set "owner_reference"
    (.mapIface [("kind", .str "user"), ("uuid", .str "o1"), ("name", .str "admin")])

/-- The resources `getSubnetResources` builds for `net1Desired`. -/
def net1Resources : SubnetResources :=
  { SubnetType := some "VLAN", VlanID := some 0, IPConfig := some { DHCPOptions := some {} } }

/-- The desired state `net1Desired` with a cluster reference that has no
`name`. -/
def clusterDesired : ResourceData :=
  net1Desired.Set "cluster_reference"
    (.mapIface [("kind", .str "cluster"), ("uuid", .str "c1")])

/-- The request the create handler assembles for `clusterDesired`. -/
def clusterRequest : SubnetIntentInput :=
  { Metadata := some { Kind := some "subnet" },
    Spec := some
      { Name := some "net1",
        ClusterReference := some { Kind := some "cluster", UUID := some "c1" },
        Resources := some net1Resources } }

/-- The desired state `net1Desired` with a project reference that has a `name`
and neither `kind` nor `uuid`; the schema declares all three keys of the map
optional. -/
def noKindDesired : ResourceData :=
  net1Desired.Set "project_reference" (.mapIface [("name", .str "p")])

/-- A desired state whose metadata map has a `name` and no `kind`; the schema
declares every key of the map optional. -/
def noKindMetadataDesired : ResourceData :=
  dataOf [ ("name", .str "net1"), ("subnet_type", .str "VLAN"),
           ("metadata", .mapIface [("name", .str "net1")]) ]

/-- Resource data of the subnet `u1` after a change of the DHCP server port
alone: the DHCP server address is not flagged as changed. -/
def portOnlyData : ResourceData :=
  { id := "u1",
    fields := fun k =>
      [ ("name", Value.str "net1"), ("subnet_type", Value.str "VLAN"),
        ("dhcp_server_address", Value.mapIface
          [("ip", .str "10.0.0.2"), ("ipv6", .str ""), ("fqdn", .str "")]),
        ("dhcp_server_address_port", Value.int 67) ].lookup k,
    changed := fun k => k == "dhcp_server_address_port" }

/-- The resource data `portOnlyData` with a change of the metadata as well,
whose `spec_version` is not a number. -/
def portAndVersionData : ResourceData :=
  { id := "u1",
    fields := fun k =>
      [ ("name", Value.str "net1"), ("subnet_type", Value.str "VLAN"),
        ("metadata", Value.mapIface [("kind", .str "subnet"), ("spec_version", .str "x")]),
        ("dhcp_server_address", Value.mapIface
          [("ip", .str "10.0.0.2"), ("ipv6", .str ""), ("fqdn", .str "")]),
        ("dhcp_server_address_port", Value.int 67) ].lookup k,
    changed := fun k => k == "dhcp_server_address_port" || k == "metadata" }

/-- Resource data of the subnet `u1` after a change of the DHCP server address
and of its port. -/
def addressAndPortData : ResourceData :=
  { id := "u1",
    fields := fun k =>
      [ ("name", Value.str "net1"), ("subnet_type", Value.str "VLAN"),
        ("dhcp_server_address", Value.mapIface
          [("ip", .str "10.0.0.2"), ("ipv6", .str ""), ("fqdn", .str "")]),
        ("dhcp_server_address_port", Value.int 67) ].lookup k,
    changed := fun k => k == "dhcp_server_address_port" || k == "dhcp_server_address" }

/-- The request the update handler assembles for `addressAndPortData`. -/
def addressAndPortRequest : SubnetIntentInput :=
  { Metadata := some {},
    Spec := some
      { Resources := some
          { IPConfig := some
              { DHCPServerAddress := some
                  { IP := some "10.0.0.2", IPV6 := some "", FQDN := some "", Port := some 67 },
                DHCPOptions := some {} } } } }

/-- The lines of a struct file: a struct `Foo` whose field `Name` is declared
twice, with a comment among the fields and a line after the closing brace. -/
def fooLines : List String :=
  [ "package v3", "", "// Foo is a thing", "type Foo struct \x7b", "  Name string",
    "  // a comment here", "  Age *int64", "  Name *string", "\x7d", "  Extra x" ]

/-- The lines of a struct file whose header has the opening brace on the next
line. -/
def openLines : List String :=
  [ "package v3", "type Foo struct", "\x7b", "  Name string", "\x7d" ]

/-! ## Notions used in the statements -/

/-- The request `resourceNutanixSubnetCreate` sends for `d`: the parts filled
by lines 34 to 88, put together as lines 100 to 103 do. -/
def createRequest (d : ResourceData) : Result SubnetIntentInput := do
  let (request, spec, metadata, subnet) ← createArguments d
  let n ← (d.GetOk "name").1.asString
  let spec := { spec with Name := some n, Resources := some subnet }
  pure { request with Metadata := some metadata, Spec := some spec }

/-- The addresses held by the names of the listed entities are all in use, that
is, below the next free address. -/
def NamesAllocated (entities : List SubnetIntentResponse) (heap : Nat) : Prop :=
  ∀ e ∈ entities, ∀ p, e.Status.Name = some p → p.addr < heap

/-- Resource data with the given identifier and no field set. -/
def blank (id : String) : ResourceData :=
  { id := id, fields := fun _ => none, changed := fun _ => false }

/-- The fields of `d` are those of `d'`, and those of `d0` where `d'` has
none. -/
def Overrides (d0 d d' : ResourceData) : Prop :=
  ∀ k, d.fields k = match d'.fields k with
    | some v => some v
    | none => d0.fields k

/-- The identifier and change flags of `d` and `d'` agree. -/
structure SameFrame (d d' : ResourceData) : Prop where
  id : d'.id = d.id
  changed : d'.changed = d.changed

/-- The keys `resourceNutanixSubnetRead` writes whatever the response is. -/
def readWrittenKeys : List String :=
  [ "metadata", "categories", "owner_reference", "api_version", "name", "description",
    "availability_zone_reference", "cluster_reference", "state", "vswitch_name",
    "subnet_type", "default_gateway_ip", "prefix_length", "subnet_ip",
    "dhcp_server_address_port", "ip_config_pool_list_ranges", "dhcp_options", "vlan_id",
    "network_function_chain_reference" ]

/-- Whether a call returned without error and without fault. -/
def Result.isOk {α : Type} : Result α → Bool
  | .ok _ => true
  | _ => false

/-- The refresh function for `uuid`, applied again and again from `calls` on,
reports the given states one after the other, each time with a result that is
not nil and without error. -/
def Reports (conn : Conn) (uuid : String) : List Call → List String → Prop
  | _, [] => True
  | calls, s :: rest =>
    (∃ p, (subnetStateRefreshFunc conn uuid calls).1 = .ok ⟨some p, s, none⟩) ∧
    Reports conn uuid (calls ++ [Call.GetSubnet uuid]) rest

/-- The keys `resourceNutanixSubnetCreate` reads to build its request: every
key of the schema but `state` and `owner_reference`. -/
def createKeys : List String :=
  [ "name", "description", "availability_zone_reference", "cluster_reference", "subnet_type",
    "api_version", "metadata", "categories", "project_reference", "vswitch_name",
    "default_gateway_ip", "prefix_length", "subnet_ip", "dhcp_server_address",
    "dhcp_server_address_port", "ip_config_pool_list_ranges", "dhcp_options",
    "dhcp_domain_name_server_list", "dhcp_domain_search_list", "vlan_id",
    "network_function_chain_reference" ]

/-- The references a request carries: owner and project in the metadata,
availability zone and cluster in the spec, network function chain in the
resources. -/
def requestReferences (req : SubnetIntentInput) : List Reference :=
  (req.Metadata.bind SubnetMetadata.OwnerReference).toList ++
  (req.Metadata.bind SubnetMetadata.ProjectReference).toList ++
  (req.Spec.bind Subnet.AvailabilityZoneReference).toList ++
  (req.Spec.bind Subnet.ClusterReference).toList ++
  ((req.Spec.bind Subnet.Resources).bind SubnetResources.NetworkFunctionChainReference).toList

/-- A reference field that is nil or holds a reference with kind and uuid. -/
def RefOk (o : Option Reference) : Prop :=
  ∀ r, o = some r → r.Kind ≠ none ∧ r.UUID ≠ none

/-- The computation does not end with a returned error: it yields a value or
it faults. -/
structure NoErr {α : Type} (x : Result α) : Prop where
  ne : ∀ e, x ≠ .error e

/-- The field `k` of the resource data is set to a map without the key `kind`
or without the key `uuid`. -/
def LacksKindOrUUID (d : ResourceData) (k : String) : Prop :=
  (d.GetOk k).2 = true ∧
  ∃ m, d.Get k = .mapIface m ∧ (m.lookup "kind" = none ∨ m.lookup "uuid" = none)

/-- One of the nested maps the create handler builds a sub-object from is
malformed: a reference map lacks `kind` or `uuid`, or the metadata map lacks
`kind`. -/
def Malformed (d : ResourceData) : Prop :=
  LacksKindOrUUID d "project_reference" ∨
  LacksKindOrUUID d "availability_zone_reference" ∨
  LacksKindOrUUID d "cluster_reference" ∨
  ∃ m, d.Get "metadata" = .mapIface m ∧ m.lookup "kind" = none

/-- The errors the create handler returns while it assembles the request: the
two checks of the required attributes, the check that the metadata is set, and
a `spec_version` of the metadata that is not a number. -/
def AssemblyError (d : ResourceData) (e : String) : Prop :=
  ((d.GetOk "subnet_type").2 = false ∧ (d.GetOk "name").2 = false ∧
    e = "Please provide the required attributes name, subnet_type") ∨
  ((d.GetOk "subnet_type").2 = true ∧ (d.GetOk "name").2 = false ∧
    e = "Please provide the required name attribute") ∨
  ((d.GetOk "name").2 = true ∧ (d.GetOk "metadata").2 = false ∧
    e = "please provide metadata required attributes") ∨
  ((d.GetOk "name").2 = true ∧ (d.GetOk "metadata").2 = true ∧
    ∃ metad s, d.Get "metadata" = .mapIface metad ∧ metad.lookup "kind" ≠ none ∧
      metad.lookup "spec_version" = some (.str s) ∧ strconv.Atoi s = .error e)

/-- The lines that are scanned: those before the first line that is exactly
`}`. -/
def scannedLines (lines : List String) : List String :=
  lines.takeWhile (fun t => t != "\x7d")

/-- The line is a header line: its third word is `struct` and its fourth word
is `{`. -/
def isStructHeader (text : String) : Bool :=
  (strings.Fields text)[2]? == some "struct" && (strings.Fields text)[3]? == some "\x7b"

/-- The line has at least two words, its first word is not `//`, and it is
not a header line. -/
def isFieldLine (text : String) : Bool :=
  decide (2 ≤ (strings.Fields text).length) && (strings.Fields text)[0]? != some "//" &&
  !isStructHeader text

/-- The scanned lines that come after the first header line and satisfy
`isFieldLine`, in the order of the file. -/
def fieldLines (lines : List String) : List String :=
  (((scannedLines lines).dropWhile (fun t => !isStructHeader t)).drop 1).filter isFieldLine

/-- The map that sends the first word to the second word for every line of
`fieldLines`, a later line overriding an earlier one: the value at `k` is the
second word of the last such line whose first word is `k`. -/
def fieldTypes (lines : List String) (k : String) : Option String :=
  ((fieldLines lines).reverse.find? (fun t => (strings.Fields t)[0]? == some k)).bind
    (fun t => (strings.Fields t)[1]?)

/-- The line has exactly three words, the third of which is `struct`. -/
def isShortHeader (text : String) : Bool :=
  (strings.Fields text).length == 3 && (strings.Fields text)[2]? == some "struct"

/-! # Theorems -/

/-! ## Facts about the helpers -/

theorem strings_Contains_iff (s substr : String) :
    strings.Contains s substr = true ↔ ∃ a b, s.data = a ++ substr.data ++ b := by
  unfold strings.Contains
  rw [List.any_eq_true]
  constructor
  · rintro ⟨t, ht, hp⟩
    rw [List.mem_tails] at ht
    rw [List.isPrefixOf_iff_prefix] at hp
    obtain ⟨a, ha⟩ := ht
    obtain ⟨b, hb⟩ := hp
    exact ⟨a, b, by rw [← ha, ← hb, List.append_assoc]⟩
  · rintro ⟨a, b, h⟩
    refine ⟨substr.data ++ b, ?_, ?_⟩
    · rw [List.mem_tails]
      exact ⟨a, by rw [h, List.append_assoc]⟩
    · rw [List.isPrefixOf_iff_prefix]
      exact ⟨b, rfl⟩

theorem existsLoop_allocated (name : String) (entities : List SubnetIntentResponse) :
    ∀ (heap : Nat) (acc : Option String), NamesAllocated entities heap →
      existsLoop name entities heap acc = acc := by
  induction entities with
  | nil => intro heap acc _; rfl
  | cons e rest ih =>
    intro heap acc h
    have hrest : NamesAllocated rest (heap + 1) := by
      intro x hx p hp
      exact Nat.lt_succ_of_lt (h x (List.mem_cons_of_mem _ hx) p hp)
    have hne : ptrEq e.Status.Name (some ⟨heap, name⟩) = false := by
      cases hn : e.Status.Name with
      | none => rfl
      | some p =>
        have hlt := h e (List.mem_cons_self _ _) p hn
        simp only [ptrEq, decide_eq_false_iff_not]
        exact Nat.ne_of_lt hlt
    simp only [existsLoop, utils.String, hne]
    exact ih (heap + 1) acc hrest

/-! ## Required attributes (C1) -/

/-- C1, at the failing input: with `name` set and `subnet_type` not set (and
the metadata map present) `resourceNutanixSubnetCreate` returns no error and
issues `ListSubnet`, `CreateSubnet` and two `GetSubnet` calls (one poll, one
read). -/
theorem C1_create_without_subnet_type :
    (noTypeDesired.GetOk "subnet_type").2 = false ∧
    (resourceNutanixSubnetCreate (connOf [] net1Entity) 0 3 noTypeDesired []).err = .ok () ∧
    (resourceNutanixSubnetCreate (connOf [] net1Entity) 0 3 noTypeDesired []).calls.map Call.name
      = ["ListSubnet", "CreateSubnet", "GetSubnet", "GetSubnet"] := by
  decide

/-- The half of C1 that the code satisfies: when `name` is not set, the create
handler returns an error and issues no call, whatever `subnet_type` is. -/
theorem create_without_name (conn : Conn) (heap polls : Nat) (d : ResourceData)
    (calls : List Call) (hd : d.WellTyped) (hname : (d.GetOk "name").2 = false) :
    (∃ e, (resourceNutanixSubnetCreate conn heap polls d calls).err = .error e) ∧
    (resourceNutanixSubnetCreate conn heap polls d calls).calls = calls := by
  have harg : ∃ e, createArguments d = .error e := by
    unfold createArguments
    simp only [hname]
    cases hst : (d.GetOk "subnet_type").2 with
    | false => exact ⟨_, rfl⟩
    | true =>
      cases hok : (d.GetOk "api_version").2 with
      | false =>
        have hp : d.GetOk "api_version" = ((d.GetOk "api_version").1, false) := by
          rw [← hok]
        rw [hp]
        exact ⟨_, rfl⟩
      | true =>
        have hp : d.GetOk "api_version" = ((d.GetOk "api_version").1, true) := by
          rw [← hok]
        rw [hp]
        have hset : d.fields "api_version" ≠ none := by
          intro hnone
          simp [ResourceData.GetOk, hnone] at hok
        obtain ⟨v, hv⟩ := Option.ne_none_iff_exists'.mp hset
        have hty := hd "api_version" .TypeString v (by decide) hv
        have hget : (d.GetOk "api_version").1 = v := by
          simp [ResourceData.GetOk, ResourceData.Get, hv]
        rw [hget]
        cases v <;> simp [Value.hasType] at hty
        exact ⟨_, rfl⟩
  obtain ⟨e, he⟩ := harg
  unfold resourceNutanixSubnetCreate
  rw [he]
  exact ⟨⟨e, rfl⟩, rfl⟩

/-! ## The name pre-check (C2, C3, C4) -/

/-- C2, at the failing input: desired state `{name: "net1", subnet_type:
"VLAN"}`, and the backend already lists an entity named `net1` (identifier
`u1`, its name held at address `0`, next free address `1`). The create handler
returns no error and issues a `CreateSubnet` call. -/
theorem C2_create_with_existing_name :
    NamesAllocated [net1Entity] 1 ∧
    (net1Desired.GetOk "name") = (.str "net1", true) ∧
    (net1Desired.GetOk "subnet_type") = (.str "VLAN", true) ∧
    net1Entity.Status.Name.map StrPtr.val = some "net1" ∧
    (resourceNutanixSubnetCreate (connOf [net1Entity] net1Entity) 1 3 net1Desired []).err
      = .ok () ∧
    (resourceNutanixSubnetCreate (connOf [net1Entity] net1Entity) 1 3 net1Desired []).calls.map
      Call.name = ["ListSubnet", "CreateSubnet", "GetSubnet", "GetSubnet"] := by
  refine ⟨?_, by decide, by decide, by decide, by decide, by decide⟩
  intro e he p hp
  simp only [List.mem_singleton] at he
  subst he
  simp only [net1Entity, Option.some.injEq] at hp
  subst hp
  decide

/-- C3, at the failing input: the listing holds exactly one entity named `net1`
(identifier `u1`, its name held at the address `0`, next free address `1`), and
`resourceNutanixSubnetExists` for the name `net1` returns no identifier. -/
theorem C3_exists_single_match :
    NamesAllocated [net1Entity] 1 ∧
    net1Entity.Status.Name.map StrPtr.val = some "net1" ∧
    net1Entity.Metadata.UUID = some "u1" ∧
    (resourceNutanixSubnetExists (connOf [net1Entity] net1Entity) 1 "net1" []).1
      = .ok none := by
  refine ⟨?_, by decide, by decide, by decide⟩
  intro e he p hp
  simp only [List.mem_singleton] at he
  subst he
  simp only [net1Entity, Option.some.injEq] at hp
  subst hp
  decide

/-- C4: when the listing succeeds and no listed entity has the name,
`resourceNutanixSubnetExists` returns no identifier and no error. The names of
the listed entities sit at addresses already in use. -/
theorem C4_exists_no_match (conn : Conn) (heap : Nat) (name : String) (calls : List Call)
    (entities : List SubnetIntentResponse)
    (hlist : conn.ListSubnet calls = .ok entities)
    (halloc : NamesAllocated entities heap)
    (_hno : ∀ e ∈ entities, e.Status.Name.map StrPtr.val ≠ some name) :
    (resourceNutanixSubnetExists conn heap name calls).1 = .ok none := by
  unfold resourceNutanixSubnetExists
  rw [hlist]
  simp only [existsLoop_allocated name entities heap none halloc]

/-- C4 at a listing of one entity named `net1`, asked for the name `net2`. -/
theorem C4_exists_no_match_witness :
    (resourceNutanixSubnetExists (connOf [net1Entity] net1Entity) 1 "net2" []).1
      = .ok none :=
  C4_exists_no_match (connOf [net1Entity] net1Entity) 1 "net2" [] [net1Entity] rfl
    (by intro e he p hp
        simp only [List.mem_singleton] at he
        subst he
        simp only [net1Entity, Option.some.injEq] at hp
        subst hp
        decide)
    (by intro e he
        simp only [List.mem_singleton] at he
        subst he
        decide)

/-! ## Read (C5, C6, C7) -/

theorem overrides_base (d0 : ResourceData) : Overrides d0 d0 (blank d0.id) := by
  intro k
  rfl

theorem overrides_set {d0 d d' : ResourceData} (h : Overrides d0 d d') (key : String)
    (v : Value) : Overrides d0 (d.Set key v) (d'.Set key v) := by
  intro k
  by_cases hk : k = key
  · simp [ResourceData.Set, hk]
  · simp only [ResourceData.Set, hk, if_false]
    exact h k


/-- What `readResponse` leaves in a field is what it writes there (seen by
running it on blank resource data), and the prior value of the field where it
writes nothing. -/
theorem readResponse_override (resp : SubnetIntentResponse) (d : ResourceData) :
    Overrides d (readResponse resp d) (readResponse resp (blank d.id)) := by
  unfold readResponse
  simp only [blank]
  obtain ⟨api, md, nm, desc, az, cr, st, vs, sty, ipc, vlan, nfcr⟩ := resp
  cases sty <;> cases nfcr <;> cases ipc with
  | none =>
    dsimp only
    repeat apply overrides_set
    exact overrides_base d
  | some c =>
    obtain ⟨gw, pl, sip, dsa, pool, opts⟩ := c
    cases pool <;> cases opts with
    | none =>
      dsimp only
      repeat apply overrides_set
      exact overrides_base d
    | some o =>
      obtain ⟨bf, dn, tf, dnsl, dsl⟩ := o
      cases dnsl <;> cases dsl <;>
      · dsimp only
        repeat apply overrides_set
        exact overrides_base d

theorem sameFrame_set {d d' : ResourceData} (h : SameFrame d d') (key : String) (v : Value) :
    SameFrame d (d'.Set key v) := ⟨h.id, h.changed⟩

theorem readResponse_frame (resp : SubnetIntentResponse) (d : ResourceData) :
    SameFrame d (readResponse resp d) := by
  unfold readResponse
  obtain ⟨api, md, nm, desc, az, cr, st, vs, sty, ipc, vlan, nfcr⟩ := resp
  cases sty <;> cases nfcr <;> cases ipc with
  | none =>
    dsimp only
    repeat apply sameFrame_set
    exact ⟨rfl, rfl⟩
  | some c =>
    obtain ⟨gw, pl, sip, dsa, pool, opts⟩ := c
    cases pool <;> cases opts with
    | none =>
      dsimp only
      repeat apply sameFrame_set
      exact ⟨rfl, rfl⟩
    | some o =>
      obtain ⟨bf, dn, tf, dnsl, dsl⟩ := o
      cases dnsl <;> cases dsl <;>
      · dsimp only
        repeat apply sameFrame_set
        exact ⟨rfl, rfl⟩

set_option maxRecDepth 100000 in
/-- On blank resource data `readResponse` leaves a value in every key of
`readWrittenKeys` and none in `project_reference`. -/
theorem readResponse_writes (resp : SubnetIntentResponse) (id : String) :
    (readWrittenKeys.all fun k => ((readResponse resp (blank id)).fields k).isSome) = true ∧
    (readResponse resp (blank id)).fields "project_reference" = none := by
  unfold readResponse
  simp only [blank]
  obtain ⟨api, md, nm, desc, az, cr, st, vs, sty, ipc, vlan, nfcr⟩ := resp
  cases sty <;> cases nfcr <;> cases ipc with
  | none => exact ⟨rfl, rfl⟩
  | some c =>
    obtain ⟨gw, pl, sip, dsa, pool, opts⟩ := c
    cases pool <;> cases opts with
    | none => exact ⟨rfl, rfl⟩
    | some o =>
      obtain ⟨bf, dn, tf, dnsl, dsl⟩ := o
      cases dnsl <;> cases dsl <;> exact ⟨rfl, rfl⟩

theorem readResponse_idem (resp : SubnetIntentResponse) (d : ResourceData) :
    readResponse resp (readResponse resp d) = readResponse resp d := by
  have f1 := readResponse_frame resp d
  have f2 := readResponse_frame resp (readResponse resp d)
  have o1 := readResponse_override resp d
  have o2 := readResponse_override resp (readResponse resp d)
  rw [f1.id] at o2
  have hfields : (readResponse resp (readResponse resp d)).fields = (readResponse resp d).fields := by
    funext k
    rw [o2 k, o1 k]
    cases (readResponse resp (blank d.id)).fields k <;> rfl
  have hid := f2.id
  have hch := f2.changed
  revert hfields hid hch
  generalize readResponse resp (readResponse resp d) = a
  generalize readResponse resp d = b
  intro hfields hid hch
  cases a
  cases b
  simp only at hfields hid hch
  subst hfields hid hch
  rfl

/-- C5, at two failing inputs. A response without IP configuration: the read
succeeds and `dhcp_server_address` is still not set. A response whose DHCP
options carry no lists: the read succeeds and `dhcp_domain_name_server_list`
and `dhcp_domain_search_list` are still not set. -/
theorem C5_read_leaves_keys_unset :
    (net1Entity.Status.Resources.IPConfig = none ∧
     (resourceNutanixSubnetRead (connOf [] net1Entity) (dataOf []) []).err = .ok () ∧
     (resourceNutanixSubnetRead (connOf [] net1Entity) (dataOf []) []).d.fields
        "dhcp_server_address" = none) ∧
    ((resourceNutanixSubnetRead (connOf [] optionsEntity) (dataOf []) []).err = .ok () ∧
     (resourceNutanixSubnetRead (connOf [] optionsEntity) (dataOf []) []).d.fields
        "dhcp_domain_name_server_list" = none ∧
     (resourceNutanixSubnetRead (connOf [] optionsEntity) (dataOf []) []).d.fields
        "dhcp_domain_search_list" = none) := by
  decide

/-- C6: when the backend answers the second fetch as it answered the first, a
second `resourceNutanixSubnetRead` leaves the resource data exactly as the
first left it, and returns what the first returned. -/
theorem C6_read_idempotent (conn : Conn) (d : ResourceData) (calls : List Call)
    (hsame : conn.GetSubnet (calls ++ [Call.GetSubnet d.id]) d.id = conn.GetSubnet calls d.id) :
    (resourceNutanixSubnetRead conn (resourceNutanixSubnetRead conn d calls).d
        (resourceNutanixSubnetRead conn d calls).calls).d
      = (resourceNutanixSubnetRead conn d calls).d ∧
    (resourceNutanixSubnetRead conn (resourceNutanixSubnetRead conn d calls).d
        (resourceNutanixSubnetRead conn d calls).calls).err
      = (resourceNutanixSubnetRead conn d calls).err := by
  cases h : conn.GetSubnet calls d.id with
  | error err =>
    have h1 : resourceNutanixSubnetRead conn d calls
        = ⟨.error err, d, calls ++ [Call.GetSubnet d.id]⟩ := by
      simp only [resourceNutanixSubnetRead, h]
    rw [h1]
    simp only [resourceNutanixSubnetRead, hsame, h, and_self]
  | ok resp =>
    have h1 : resourceNutanixSubnetRead conn d calls
        = ⟨.ok (), readResponse resp d, calls ++ [Call.GetSubnet d.id]⟩ := by
      simp only [resourceNutanixSubnetRead, h]
    rw [h1]
    have hid : (readResponse resp d).id = d.id := (readResponse_frame resp d).id
    simp only [resourceNutanixSubnetRead, hid, hsame, h, readResponse_idem, and_self]

/-- C6 for the desired state `net1Desired` and a backend that answers every
fetch with the entity `net1Entity`. -/
theorem C6_read_idempotent_witness :
    (resourceNutanixSubnetRead (connOf [] net1Entity)
        (resourceNutanixSubnetRead (connOf [] net1Entity) net1Desired []).d
        (resourceNutanixSubnetRead (connOf [] net1Entity) net1Desired []).calls).d
      = (resourceNutanixSubnetRead (connOf [] net1Entity) net1Desired []).d ∧
    (resourceNutanixSubnetRead (connOf [] net1Entity)
        (resourceNutanixSubnetRead (connOf [] net1Entity) net1Desired []).d
        (resourceNutanixSubnetRead (connOf [] net1Entity) net1Desired []).calls).err
      = (resourceNutanixSubnetRead (connOf [] net1Entity) net1Desired []).err :=
  C6_read_idempotent (connOf [] net1Entity) net1Desired [] rfl

/-- C7 as stated fails: two prior states with the same identifier, one of them
holding a project reference, read the same entity and end with different
values of `project_reference`. -/
theorem C7_project_reference_differs :
    projectDesired.id = net1Desired.id ∧
    (resourceNutanixSubnetRead (connOf [] net1Entity) projectDesired []).d.fields
        "project_reference"
      ≠ (resourceNutanixSubnetRead (connOf [] net1Entity) net1Desired []).d.fields
        "project_reference" := by
  decide

/-- C7, amended: for two prior states with the same identifier and the same
fetched entity, a successful read leaves identical values in every key of
`readWrittenKeys` (the keys it writes on every path), and it leaves
`project_reference` at its prior value. -/
theorem C7_read_written_fields (conn : Conn) (d1 d2 : ResourceData) (calls : List Call)
    (resp : SubnetIntentResponse) (hid : d1.id = d2.id)
    (hget : conn.GetSubnet calls d1.id = .ok resp) :
    (∀ k ∈ readWrittenKeys,
      (resourceNutanixSubnetRead conn d1 calls).d.fields k
        = (resourceNutanixSubnetRead conn d2 calls).d.fields k) ∧
    (resourceNutanixSubnetRead conn d1 calls).d.fields "project_reference"
      = d1.fields "project_reference" := by
  have hget2 : conn.GetSubnet calls d2.id = .ok resp := by rw [← hid]; exact hget
  have h1 : (resourceNutanixSubnetRead conn d1 calls).d = readResponse resp d1 := by
    simp only [resourceNutanixSubnetRead, hget]
  have h2 : (resourceNutanixSubnetRead conn d2 calls).d = readResponse resp d2 := by
    simp only [resourceNutanixSubnetRead, hget2]
  rw [h1, h2]
  have o1 := readResponse_override resp d1
  have o2 := readResponse_override resp d2
  rw [← hid] at o2
  have hw := readResponse_writes resp d1.id
  constructor
  · intro k hk
    have hsome := List.all_eq_true.mp hw.1 k hk
    rw [o1 k, o2 k]
    cases hv : (readResponse resp (blank d1.id)).fields k with
    | none => rw [hv] at hsome; cases hsome
    | some v => rfl
  · rw [o1 "project_reference", hw.2]

/-- C7, amended, for the prior states `projectDesired` and `net1Desired` and
the entity `net1Entity`, at the key `name`. -/
theorem C7_read_written_fields_witness :
    (resourceNutanixSubnetRead (connOf [] net1Entity) projectDesired []).d.fields "name"
      = (resourceNutanixSubnetRead (connOf [] net1Entity) net1Desired []).d.fields "name" ∧
    (resourceNutanixSubnetRead (connOf [] net1Entity) projectDesired []).d.fields
        "project_reference"
      = projectDesired.fields "project_reference" :=
  ⟨(C7_read_written_fields (connOf [] net1Entity) projectDesired net1Desired [] net1Entity
      rfl rfl).1 "name" (by decide),
   (C7_read_written_fields (connOf [] net1Entity) projectDesired net1Desired [] net1Entity
      rfl rfl).2⟩

/-! ## The refresh function (C8) and the update request (C9) -/

theorem Result.bind_def {α β : Type} (r : Result α) (f : α → Result β) :
    (r >>= f) = Result.bind r f := rfl

theorem Result.pure_def {α : Type} (a : α) : (pure a : Result α) = Result.ok a := rfl

theorem Result.bind_eq_ok {α β : Type} {r : Result α} {f : α → Result β} {b : β} :
    Result.bind r f = .ok b ↔ ∃ a, r = .ok a ∧ f a = .ok b := by
  cases r <;> simp [Result.bind]

theorem Value.asString_eq_ok {v : Value} {s : String} : v.asString = .ok s ↔ v = .str s := by
  cases v <;> simp [Value.asString]

theorem Value.asInt_eq_ok {v : Value} {n : Int} : v.asInt = .ok n ↔ v = .int n := by
  cases v <;> simp [Value.asInt]

/-- A step `if changed then G else keep x` that ends well either ran `G` or
kept `x`. -/
theorem step_ok {α : Type} {c : Bool} {G : Result α} {x x' : α}
    (h : (if c = true then G else Result.ok x) = Result.ok x') :
    (c = true ∧ G = .ok x') ∨ (c = false ∧ x' = x) := by
  cases c
  · right
    simp only [Bool.false_eq_true, if_false, Result.ok.injEq] at h
    exact ⟨rfl, h.symm⟩
  · left
    simp only [if_true] at h
    exact ⟨rfl, h⟩

theorem refresh_calls (conn : Conn) (uuid : String) (calls : List Call) :
    (subnetStateRefreshFunc conn uuid calls).2 = calls ++ [Call.GetSubnet uuid] := by
  unfold subnetStateRefreshFunc
  cases conn.GetSubnet calls uuid with
  | error err =>
    by_cases hc : strings.Contains err "ENTITY_NOT_FOUND" = true <;> simp [hc]
  | ok v =>
    cases hs : v.Status.State <;> simp [hs]

/-- The wait issues `GetSubnet` calls for the identifier, at most one for each
round, and nothing else. -/
theorem waitLoop_calls (conf : StateChangeConf) (conn : Conn) (uuid : String) :
    ∀ (fuel tick : Nat) (last : String) (calls : List Call),
      ∃ k, k ≤ fuel ∧
        (waitLoop conf (subnetStateRefreshFunc conn uuid) fuel tick last calls).2
          = calls ++ List.replicate k (Call.GetSubnet uuid) := by
  intro fuel
  induction fuel with
  | zero =>
    intro tick last calls
    exact ⟨0, Nat.le_refl 0, by simp [waitLoop]⟩
  | succ n ih =>
    intro tick last calls
    have hone : ∃ k, k ≤ n + 1 ∧ calls ++ [Call.GetSubnet uuid]
        = calls ++ List.replicate k (Call.GetSubnet uuid) := ⟨1, by omega, rfl⟩
    have hmore : ∀ (t : Nat) (l : String), ∃ k, k ≤ n + 1 ∧
        (waitLoop conf (subnetStateRefreshFunc conn uuid) n t l
            (calls ++ [Call.GetSubnet uuid])).2
          = calls ++ List.replicate k (Call.GetSubnet uuid) := by
      intro t l
      obtain ⟨k, hk, hcalls⟩ := ih t l (calls ++ [Call.GetSubnet uuid])
      refine ⟨k + 1, by omega, ?_⟩
      rw [hcalls, List.append_assoc, List.replicate_succ]
      rfl
    have hc := refresh_calls conn uuid calls
    unfold waitLoop
    rcases hr : subnetStateRefreshFunc conn uuid calls with ⟨res, calls1⟩
    rw [hr] at hc
    simp only at hc
    subst hc
    cases res with
    | fault => exact hone
    | error e => exact hone
    | ok r =>
      simp only
      cases r.err with
      | some e => exact hone
      | none =>
        simp only
        cases r.result with
        | none =>
          simp only
          split
          · exact hone
          · split
            · exact hone
            · exact hmore _ _
        | some v =>
          simp only
          split
          · exact hone
          · split
            · exact hmore _ _
            · split
              · exact hmore _ _
              · exact hone

theorem exists_calls (conn : Conn) (heap : Nat) (name : String) (calls : List Call) :
    (resourceNutanixSubnetExists conn heap name calls).2 = calls ++ [Call.ListSubnet] := by
  unfold resourceNutanixSubnetExists
  cases conn.ListSubnet calls <;> rfl

theorem read_calls (conn : Conn) (d : ResourceData) (calls : List Call) :
    (resourceNutanixSubnetRead conn d calls).calls = calls ++ [Call.GetSubnet d.id] := by
  unfold resourceNutanixSubnetRead
  cases conn.GetSubnet calls d.id <;> rfl

/-- The first call of the update handler carries the request `updateRequest`
built. -/
theorem update_sends (d : ResourceData) (request : SubnetIntentInput)
    (h : updateRequest d = .ok request) (conn : Conn) (polls : Nat) (calls : List Call) :
    (calls ++ [Call.UpdateSubnet d.id request])
      <+: (resourceNutanixSubnetUpdate conn polls d calls).calls := by
  unfold resourceNutanixSubnetUpdate
  simp only [h]
  cases conn.UpdateSubnet calls d.id request with
  | error e => exact List.prefix_refl _
  | ok r =>
    simp only
    obtain ⟨k, -, hcalls⟩ := waitLoop_calls (createStateConf polls) conn d.id polls 0 ""
      (calls ++ [Call.UpdateSubnet d.id request])
    rcases hw : (createStateConf polls).WaitForState (subnetStateRefreshFunc conn d.id)
        (calls ++ [Call.UpdateSubnet d.id request]) with ⟨res, calls2⟩
    have h2 : calls2 = calls ++ [Call.UpdateSubnet d.id request]
        ++ List.replicate k (Call.GetSubnet d.id) := by
      have hw2 : (waitLoop (createStateConf polls) (subnetStateRefreshFunc conn d.id) polls 0 ""
          (calls ++ [Call.UpdateSubnet d.id request])).2 = calls2 := by
        have := congrArg Prod.snd hw
        exact this
      rw [← hw2]
      exact hcalls
    cases res with
    | error e => simp only; rw [h2]; exact List.prefix_append _ _
    | fault => simp only; rw [h2]; exact List.prefix_append _ _
    | ok a =>
      simp only
      rw [read_calls, h2, List.append_assoc]
      exact List.prefix_append _ _

/-- C8: when `GetSubnet` fails with the error `err`, the refresh function
returns the state `DELETED` with no error exactly when the text of `err`
contains `ENTITY_NOT_FOUND`; otherwise it returns `err` with the empty state
and a nil result. In the first case a round of the wait of the delete path
(target `DELETED`) ends the wait with success. -/
theorem C8_refresh_on_error (client : Conn) (uuid : String) (calls : List Call) (err : String)
    (hget : client.GetSubnet calls uuid = .error err) :
    ((∃ r, (subnetStateRefreshFunc client uuid calls).1 = .ok r ∧ r.state = "DELETED" ∧
          r.err = none)
        ↔ strings.Contains err "ENTITY_NOT_FOUND" = true) ∧
    (strings.Contains err "ENTITY_NOT_FOUND" = false →
      (subnetStateRefreshFunc client uuid calls).1 = .ok ⟨none, "", some err⟩) ∧
    (strings.Contains err "ENTITY_NOT_FOUND" = true →
      ∀ (polls fuel tick : Nat) (last : String),
        (waitLoop (deleteStateConf polls) (subnetStateRefreshFunc client uuid) (fuel + 1) tick
            last calls).1 = .ok ⟨some none, "DELETED", none⟩) := by
  cases hc : strings.Contains err "ENTITY_NOT_FOUND" with
  | false =>
    have hr : subnetStateRefreshFunc client uuid calls
        = (.ok ⟨none, "", some err⟩, calls ++ [Call.GetSubnet uuid]) := by
      simp only [subnetStateRefreshFunc, hget, hc, Bool.false_eq_true, if_false]
    refine ⟨?_, ?_, ?_⟩
    · rw [hr]
      constructor
      · rintro ⟨r, hr1, hs, -⟩
        simp only [Result.ok.injEq] at hr1
        subst hr1
        simp at hs
      · intro h
        cases h
    · intro _
      rw [hr]
    · intro h
      cases h
  | true =>
    have hr : subnetStateRefreshFunc client uuid calls
        = (.ok ⟨some none, "DELETED", none⟩, calls ++ [Call.GetSubnet uuid]) := by
      simp only [subnetStateRefreshFunc, hget, hc, if_true]
    refine ⟨?_, ?_, ?_⟩
    · rw [hr]
      exact ⟨fun _ => rfl, fun _ => ⟨_, rfl, rfl, rfl⟩⟩
    · intro h
      cases h
    · intro _ polls fuel tick last
      simp only [waitLoop, hr]
      rfl

/-- C8 for a backend whose fetch fails with a not-found error: the first round
of the wait of the delete path ends it with success. -/
theorem C8_refresh_on_error_witness :
    (waitLoop (deleteStateConf 3) (subnetStateRefreshFunc goneConn "u1") 3 0 "" []).1
      = .ok ⟨some none, "DELETED", none⟩ :=
  (C8_refresh_on_error goneConn "u1" []
    "status: 404, code: ENTITY_NOT_FOUND, subnet is gone" rfl).2.2 (by decide) 3 2 0 ""

/-- C9: when the update request is built, each of the eight scalar fields of the
request is set exactly when its key is flagged as changed, and then holds the
value of the key in the resource data; a field whose key is not flagged is
nil. -/
theorem C9_update_scalar_fields (d : ResourceData) (request : SubnetIntentInput)
    (h : updateRequest d = .ok request) :
    (request.Spec.bind Subnet.Name).map Value.str
      = (if d.HasChange "name" then some (d.Get "name") else none) ∧
    (request.Spec.bind Subnet.Description).map Value.str
      = (if d.HasChange "description" then some (d.Get "description") else none) ∧
    ((request.Spec.bind Subnet.Resources).bind SubnetResources.VswitchName).map Value.str
      = (if d.HasChange "vswitch_name" then some (d.Get "vswitch_name") else none) ∧
    ((request.Spec.bind Subnet.Resources).bind SubnetResources.SubnetType).map Value.str
      = (if d.HasChange "subnet_type" then some (d.Get "subnet_type") else none) ∧
    (((request.Spec.bind Subnet.Resources).bind SubnetResources.IPConfig).bind
        IPConfig.DefaultGatewayIP).map Value.str
      = (if d.HasChange "default_gateway_ip" then some (d.Get "default_gateway_ip") else none) ∧
    (((request.Spec.bind Subnet.Resources).bind SubnetResources.IPConfig).bind
        IPConfig.PrefixLength).map Value.int
      = (if d.HasChange "prefix_length" then some (d.Get "prefix_length") else none) ∧
    (((request.Spec.bind Subnet.Resources).bind SubnetResources.IPConfig).bind
        IPConfig.SubnetIP).map Value.str
      = (if d.HasChange "subnet_ip" then some (d.Get "subnet_ip") else none) ∧
    ((request.Spec.bind Subnet.Resources).bind SubnetResources.VlanID).map Value.int
      = (if d.HasChange "vlan_id" then some (d.Get "vlan_id") else none) ∧
    (∀ (conn : Conn) (polls : Nat) (calls : List Call),
      (calls ++ [Call.UpdateSubnet d.id request])
        <+: (resourceNutanixSubnetUpdate conn polls d calls).calls) := by
  have hout := update_sends d request h
  unfold updateRequest at h
  simp only [Result.bind_def, Result.pure_def] at h
  obtain ⟨m1, -, h1⟩ := Result.bind_eq_ok.mp h; clear h
  obtain ⟨m2, -, h⟩ := Result.bind_eq_ok.mp h1; clear h1
  obtain ⟨m3, -, h1⟩ := Result.bind_eq_ok.mp h; clear h
  obtain ⟨m4, -, h⟩ := Result.bind_eq_ok.mp h1; clear h1
  obtain ⟨spec1, hs1, h1⟩ := Result.bind_eq_ok.mp h; clear h
  obtain ⟨spec2, hs2, h⟩ := Result.bind_eq_ok.mp h1; clear h1
  obtain ⟨spec3, hs3, h1⟩ := Result.bind_eq_ok.mp h; clear h
  obtain ⟨spec4, hs4, h⟩ := Result.bind_eq_ok.mp h1; clear h1
  obtain ⟨o1, -, h1⟩ := Result.bind_eq_ok.mp h; clear h
  obtain ⟨o2, -, h⟩ := Result.bind_eq_ok.mp h1; clear h1
  obtain ⟨ip1, hi1, h1⟩ := Result.bind_eq_ok.mp h; clear h
  obtain ⟨o3, -, h⟩ := Result.bind_eq_ok.mp h1; clear h1
  obtain ⟨res1, hr1, h1⟩ := Result.bind_eq_ok.mp h; clear h
  obtain ⟨res2, hr2, h⟩ := Result.bind_eq_ok.mp h1; clear h1
  obtain ⟨res3, hr3, h1⟩ := Result.bind_eq_ok.mp h; clear h
  obtain ⟨ip2, hi2, h⟩ := Result.bind_eq_ok.mp h1; clear h1
  obtain ⟨ip3, hi3, h1⟩ := Result.bind_eq_ok.mp h; clear h
  obtain ⟨ip4, hi4, h⟩ := Result.bind_eq_ok.mp h1; clear h1
  obtain ⟨ip5, hi5, h1⟩ := Result.bind_eq_ok.mp h; clear h
  obtain ⟨ip6, hi6, h⟩ := Result.bind_eq_ok.mp h1; clear h1
  obtain ⟨res4, hr4, h1⟩ := Result.bind_eq_ok.mp h; clear h
  -- the spec
  have S1 : spec1.Name.map Value.str = (if d.HasChange "name" then some (d.Get "name") else none)
      ∧ spec1.Description = none := by
    rcases step_ok hs1 with ⟨hc, hg⟩ | ⟨hc, rfl⟩
    · simp only [Result.bind_eq_ok, Value.asString_eq_ok, Result.ok.injEq] at hg
      obtain ⟨a, ha, rfl⟩ := hg
      simp [hc, ha]
    · simp [hc]
  have S2 : spec2.Name = spec1.Name ∧ spec2.Description.map Value.str
      = (if d.HasChange "description" then some (d.Get "description") else none) := by
    rcases step_ok hs2 with ⟨hc, hg⟩ | ⟨hc, rfl⟩
    · simp only [Result.bind_eq_ok, Value.asString_eq_ok, Result.ok.injEq] at hg
      obtain ⟨a, ha, rfl⟩ := hg
      simp [hc, ha]
    · simp [hc, S1.2]
  have S3 : spec3.Name = spec2.Name ∧ spec3.Description = spec2.Description := by
    rcases step_ok hs3 with ⟨hc, hg⟩ | ⟨hc, rfl⟩
    · simp only [Result.bind_eq_ok, Result.ok.injEq] at hg
      obtain ⟨a, ha, r, hr, rfl⟩ := hg
      simp
    · simp
  have S4 : spec4.Name = spec3.Name ∧ spec4.Description = spec3.Description := by
    rcases step_ok hs4 with ⟨hc, hg⟩ | ⟨hc, rfl⟩
    · simp only [Result.bind_eq_ok, Result.ok.injEq] at hg
      obtain ⟨a, ha, r, hr, rfl⟩ := hg
      simp
    · simp
  -- the resources
  have R1 : res1.VswitchName = none ∧ res1.SubnetType = none ∧ res1.VlanID = none := by
    rcases step_ok hr1 with ⟨hc, hg⟩ | ⟨hc, rfl⟩
    · simp only [Result.bind_eq_ok, Result.ok.injEq] at hg
      obtain ⟨a, ha, r, hr, rfl⟩ := hg
      simp
    · simp
  have R2 : res2.VswitchName.map Value.str
      = (if d.HasChange "vswitch_name" then some (d.Get "vswitch_name") else none)
      ∧ res2.SubnetType = none ∧ res2.VlanID = none := by
    rcases step_ok hr2 with ⟨hc, hg⟩ | ⟨hc, rfl⟩
    · simp only [Result.bind_eq_ok, Value.asString_eq_ok, Result.ok.injEq] at hg
      obtain ⟨a, ha, rfl⟩ := hg
      simp [hc, ha, R1.2.1, R1.2.2]
    · simp [hc, R1.1, R1.2.1, R1.2.2]
  have R3 : res3.VswitchName = res2.VswitchName ∧ res3.SubnetType.map Value.str
      = (if d.HasChange "subnet_type" then some (d.Get "subnet_type") else none)
      ∧ res3.VlanID = none := by
    rcases step_ok hr3 with ⟨hc, hg⟩ | ⟨hc, rfl⟩
    · simp only [Result.bind_eq_ok, Value.asString_eq_ok, Result.ok.injEq] at hg
      obtain ⟨a, ha, rfl⟩ := hg
      simp [hc, ha, R2.2.2]
    · simp [hc, R2.2.1, R2.2.2]
  have R4 : res4.VswitchName = res3.VswitchName ∧ res4.SubnetType = res3.SubnetType
      ∧ res4.VlanID.map Value.int
        = (if d.HasChange "vlan_id" then some (d.Get "vlan_id") else none) := by
    rcases step_ok hr4 with ⟨hc, hg⟩ | ⟨hc, rfl⟩
    · simp only [Result.bind_eq_ok, Value.asInt_eq_ok, Result.ok.injEq] at hg
      obtain ⟨a, ha, rfl⟩ := hg
      simp [hc, ha]
    · simp [hc, R3.2.2]
  -- the IP configuration
  have I1 : ip1.DefaultGatewayIP = none ∧ ip1.PrefixLength = none ∧ ip1.SubnetIP = none := by
    rcases step_ok hi1 with ⟨hc, hg⟩ | ⟨hc, rfl⟩
    · simp only [Result.bind_eq_ok, Result.ok.injEq] at hg
      obtain ⟨a, ha, rfl⟩ := hg
      simp
    · simp
  have I2 : ip2.DefaultGatewayIP.map Value.str
      = (if d.HasChange "default_gateway_ip" then some (d.Get "default_gateway_ip") else none)
      ∧ ip2.PrefixLength = none ∧ ip2.SubnetIP = none := by
    rcases step_ok hi2 with ⟨hc, hg⟩ | ⟨hc, rfl⟩
    · simp only [Result.bind_eq_ok, Value.asString_eq_ok, Result.ok.injEq] at hg
      obtain ⟨a, ha, rfl⟩ := hg
      simp [hc, ha, I1.2.1, I1.2.2]
    · simp [hc, I1.1, I1.2.1, I1.2.2]
  have I3 : ip3.DefaultGatewayIP = ip2.DefaultGatewayIP ∧ ip3.PrefixLength.map Value.int
      = (if d.HasChange "prefix_length" then some (d.Get "prefix_length") else none)
      ∧ ip3.SubnetIP = none := by
    rcases step_ok hi3 with ⟨hc, hg⟩ | ⟨hc, rfl⟩
    · simp only [Result.bind_eq_ok, Value.asInt_eq_ok, Result.ok.injEq] at hg
      obtain ⟨a, ha, rfl⟩ := hg
      simp [hc, ha, I2.2.2]
    · simp [hc, I2.2.1, I2.2.2]
  have I4 : ip4.DefaultGatewayIP = ip3.DefaultGatewayIP ∧ ip4.PrefixLength = ip3.PrefixLength
      ∧ ip4.SubnetIP.map Value.str
        = (if d.HasChange "subnet_ip" then some (d.Get "subnet_ip") else none) := by
    rcases step_ok hi4 with ⟨hc, hg⟩ | ⟨hc, rfl⟩
    · simp only [Result.bind_eq_ok, Value.asString_eq_ok, Result.ok.injEq] at hg
      obtain ⟨a, ha, rfl⟩ := hg
      simp [hc, ha]
    · simp [hc, I3.2.2]
  have I5 : ip5.DefaultGatewayIP = ip4.DefaultGatewayIP ∧ ip5.PrefixLength = ip4.PrefixLength
      ∧ ip5.SubnetIP = ip4.SubnetIP := by
    rcases step_ok hi5 with ⟨hc, hg⟩ | ⟨hc, rfl⟩
    · simp only [Result.bind_eq_ok, Result.ok.injEq] at hg
      obtain ⟨a, ha, b, hb, c, hc2, e, he, rfl⟩ := hg
      simp
    · simp
  have I6 : ip6.DefaultGatewayIP = ip5.DefaultGatewayIP ∧ ip6.PrefixLength = ip5.PrefixLength
      ∧ ip6.SubnetIP = ip5.SubnetIP := by
    rcases step_ok hi6 with ⟨hc, hg⟩ | ⟨hc, rfl⟩
    · simp only [Result.bind_eq_ok] at hg
      obtain ⟨a, ha, hm⟩ := hg
      cases hadr : ip5.DHCPServerAddress with
      | none => simp [hadr] at hm
      | some adr =>
        simp only [hadr, Result.ok.injEq] at hm
        subst hm
        simp
    · simp
  simp only [Result.ok.injEq] at h1
  subst h1
  simp only [Option.bind_some, Option.some_bind] at hout ⊢
  refine ⟨?_, ?_, ?_, ?_, ?_, ?_, ?_, ?_, hout⟩
  · rw [S4.1, S3.1, S2.1]; exact S1.1
  · rw [S4.2, S3.2]; exact S2.2
  · rw [R4.1, R3.1]; exact R2.1
  · rw [R4.2.1]; exact R3.2.1
  · rw [I6.1, I5.1, I4.1, I3.1]; exact I2.1
  · rw [I6.2.1, I5.2.1, I4.2.1]; exact I3.2.1
  · rw [I6.2.2, I5.2.2]; exact I4.2.2
  · exact R4.2.2

/-- C9 for `renamedData`, where `name` and `vlan_id` are flagged and nothing
else is: the request carries the new name and VLAN and no description. -/
theorem C9_update_scalar_fields_witness :
    updateRequest renamedData = .ok renamedRequest ∧
    (renamedRequest.Spec.bind Subnet.Name).map Value.str = some (.str "net1b") ∧
    (renamedRequest.Spec.bind Subnet.Description).map Value.str = none ∧
    ((renamedRequest.Spec.bind Subnet.Resources).bind SubnetResources.VlanID).map Value.int
      = some (.int 7) :=
  ⟨by decide,
   (C9_update_scalar_fields renamedData renamedRequest (by decide)).1,
   (C9_update_scalar_fields renamedData renamedRequest (by decide)).2.1,
   (C9_update_scalar_fields renamedData renamedRequest (by decide)).2.2.2.2.2.2.2.1⟩

/-! ## Create when the wait fails (C10) -/

/-- C10: the request is built, the pre-check finds nothing, `CreateSubnet`
succeeds with the identifier `uuid`, and the wait ends with the error `err`.
Then the create handler returns an error naming the identifier, the resource
data holds the identifier and its fields are untouched, and the calls issued
are `ListSubnet`, `CreateSubnet` and the `GetSubnet` calls of the wait: no
`DeleteSubnet`, and no call after the wait. -/
theorem C10_create_wait_fails (conn : Conn) (heap polls : Nat) (d : ResourceData)
    (calls : List Call) (req : SubnetIntentInput) (name : String)
    (resp : SubnetIntentResponse) (uuid err : String)
    (hreq : createRequest d = .ok req)
    (hname : d.Get "name" = .str name)
    (hexists : (resourceNutanixSubnetExists conn heap name calls).1 = .ok none)
    (hcreate : conn.CreateSubnet (calls ++ [Call.ListSubnet]) req = .ok resp)
    (huuid : resp.Metadata.UUID = some uuid)
    (hwait : ((createStateConf polls).WaitForState (subnetStateRefreshFunc conn uuid)
        (calls ++ [Call.ListSubnet] ++ [Call.CreateSubnet req])).1 = .error err) :
    (resourceNutanixSubnetCreate conn heap polls d calls).err
      = .error ("Error waiting for subnet (" ++ uuid ++ ") to create: " ++ err) ∧
    (resourceNutanixSubnetCreate conn heap polls d calls).d.id = uuid ∧
    (resourceNutanixSubnetCreate conn heap polls d calls).d.fields = d.fields ∧
    (resourceNutanixSubnetCreate conn heap polls d calls).calls
      = ((createStateConf polls).WaitForState (subnetStateRefreshFunc conn uuid)
          (calls ++ [Call.ListSubnet] ++ [Call.CreateSubnet req])).2 ∧
    (∃ k, k ≤ polls ∧ (resourceNutanixSubnetCreate conn heap polls d calls).calls
      = calls ++ [Call.ListSubnet] ++ [Call.CreateSubnet req]
          ++ List.replicate k (Call.GetSubnet uuid)) ∧
    (∀ u, Call.DeleteSubnet u ∉
      (resourceNutanixSubnetCreate conn heap polls d calls).calls.drop calls.length) := by
  -- the parts of the request
  unfold createRequest at hreq
  simp only [Result.bind_def, Result.pure_def] at hreq
  obtain ⟨⟨request, spec, metadata, subnet⟩, hargs, h1⟩ := Result.bind_eq_ok.mp hreq
  obtain ⟨n, hn, h2⟩ := Result.bind_eq_ok.mp h1
  simp only [Result.ok.injEq] at h2
  have hget : (d.GetOk "name").1 = .str name := hname
  rw [hget] at hn
  simp only [Value.asString, Result.ok.injEq] at hn
  subst hn
  -- the pre-check
  have hex : resourceNutanixSubnetExists conn heap name calls
      = (.ok none, calls ++ [Call.ListSubnet]) :=
    Prod.ext hexists (exists_calls conn heap name calls)
  -- the wait
  obtain ⟨k, hk, hcalls⟩ := waitLoop_calls (createStateConf polls) conn uuid polls 0 ""
    (calls ++ [Call.ListSubnet] ++ [Call.CreateSubnet req])
  have hw : (createStateConf polls).WaitForState (subnetStateRefreshFunc conn uuid)
      (calls ++ [Call.ListSubnet] ++ [Call.CreateSubnet req])
      = (.error err, calls ++ [Call.ListSubnet] ++ [Call.CreateSubnet req]
          ++ List.replicate k (Call.GetSubnet uuid)) :=
    Prod.ext hwait hcalls
  have hrun : resourceNutanixSubnetCreate conn heap polls d calls
      = ⟨.error ("Error waiting for subnet (" ++ uuid ++ ") to create: " ++ err),
          d.SetId uuid,
          calls ++ [Call.ListSubnet] ++ [Call.CreateSubnet req]
            ++ List.replicate k (Call.GetSubnet uuid)⟩ := by
    unfold resourceNutanixSubnetCreate
    simp only [hargs, hname, hget, Value.asString, hex, h2, hcreate, huuid,
      ResourceData.SetId, hw]
  rw [hrun, hw]
  refine ⟨rfl, rfl, rfl, rfl, ⟨k, hk, rfl⟩, ?_⟩
  intro u hu
  simp only [List.append_assoc, List.drop_left, List.mem_append, List.mem_singleton,
    List.mem_replicate] at hu
  rcases hu with hu | hu | ⟨-, hu⟩ <;> cases hu

/-- C10 for the desired state `net1Desired` and a backend that creates the
subnet `u1` and then reports it as `PENDING` for as long as the wait lasts (two
rounds). -/
theorem C10_create_wait_fails_witness :
    (resourceNutanixSubnetCreate (connOf [] pendingEntity) 0 2 net1Desired []).err
      = .error ("Error waiting for subnet (" ++ "u1" ++ ") to create: " ++
          "timeout while waiting for state to become [COMPLETE] (last state: PENDING)") ∧
    (resourceNutanixSubnetCreate (connOf [] pendingEntity) 0 2 net1Desired []).d.id = "u1" ∧
    (resourceNutanixSubnetCreate (connOf [] pendingEntity) 0 2 net1Desired []).d.fields
      = net1Desired.fields :=
  ⟨(C10_create_wait_fails (connOf [] pendingEntity) 0 2 net1Desired [] net1Request "net1"
      pendingEntity "u1"
      "timeout while waiting for state to become [COMPLETE] (last state: PENDING)"
      (by decide) (by decide) (by decide) (by decide) (by decide) (by decide)).1,
   (C10_create_wait_fails (connOf [] pendingEntity) 0 2 net1Desired [] net1Request "net1"
      pendingEntity "u1"
      "timeout while waiting for state to become [COMPLETE] (last state: PENDING)"
      (by decide) (by decide) (by decide) (by decide) (by decide) (by decide)).2.1,
   (C10_create_wait_fails (connOf [] pendingEntity) 0 2 net1Desired [] net1Request "net1"
      pendingEntity "u1"
      "timeout while waiting for state to become [COMPLETE] (last state: PENDING)"
      (by decide) (by decide) (by decide) (by decide) (by decide) (by decide)).2.2.1⟩

/-! ## Delete (C11) -/

/-- A wait that ends with success and has a target ends in a state of the
target. -/
theorem waitLoop_ok_target (conf : StateChangeConf)
    (refresh : List Call → Result RefreshResult × List Call) (hT : conf.Target.isEmpty = false) :
    ∀ (fuel tick : Nat) (last : String) (calls : List Call) (r : RefreshResult),
      (waitLoop conf refresh fuel tick last calls).1 = .ok r →
        conf.Target.contains r.state = true := by
  intro fuel
  induction fuel with
  | zero =>
    intro tick last calls r h
    simp [waitLoop] at h
  | succ n ih =>
    intro tick last calls r h
    unfold waitLoop at h
    rcases hr : refresh calls with ⟨res, calls1⟩
    rw [hr] at h
    cases res with
    | fault => simp at h
    | error e => simp at h
    | ok a =>
      simp only at h
      cases he : a.err with
      | some e => simp [he] at h
      | none =>
        simp only [he] at h
        cases hres : a.result with
        | none =>
          simp only [hres, hT, Bool.false_eq_true, if_false] at h
          split at h
          · simp at h
          · exact ih _ _ _ _ h
        | some v =>
          simp only [hres] at h
          split at h
          · rename_i hc
            simp only [Result.ok.injEq] at h
            subst h
            exact hc
          · split at h
            · exact ih _ _ _ _ h
            · split at h
              · exact ih _ _ _ _ h
              · simp at h

/-- A wait that has room for a refresh issues at least one `GetSubnet` call. -/
theorem waitLoop_calls_pos (conf : StateChangeConf) (conn : Conn) (uuid : String)
    (n tick : Nat) (last : String) (calls : List Call) :
    ∃ k, 1 ≤ k ∧ k ≤ n + 1 ∧
      (waitLoop conf (subnetStateRefreshFunc conn uuid) (n + 1) tick last calls).2
        = calls ++ List.replicate k (Call.GetSubnet uuid) := by
  have hone : ∃ k, 1 ≤ k ∧ k ≤ n + 1 ∧ calls ++ [Call.GetSubnet uuid]
      = calls ++ List.replicate k (Call.GetSubnet uuid) := ⟨1, by omega, by omega, rfl⟩
  have hmore : ∀ (t : Nat) (l : String), ∃ k, 1 ≤ k ∧ k ≤ n + 1 ∧
      (waitLoop conf (subnetStateRefreshFunc conn uuid) n t l
          (calls ++ [Call.GetSubnet uuid])).2
        = calls ++ List.replicate k (Call.GetSubnet uuid) := by
    intro t l
    obtain ⟨k, hk, hcalls⟩ := waitLoop_calls conf conn uuid n t l (calls ++ [Call.GetSubnet uuid])
    refine ⟨k + 1, by omega, by omega, ?_⟩
    rw [hcalls, List.append_assoc, List.replicate_succ]
    rfl
  have hc := refresh_calls conn uuid calls
  unfold waitLoop
  rcases hr : subnetStateRefreshFunc conn uuid calls with ⟨res, calls1⟩
  rw [hr] at hc
  simp only at hc
  subst hc
  cases res with
  | fault => exact hone
  | error e => exact hone
  | ok r =>
    simp only
    cases r.err with
    | some e => exact hone
    | none =>
      simp only
      cases r.result with
      | none =>
        simp only
        split
        · exact hone
        · split
          · exact hone
          · exact hmore _ _
      | some v =>
        simp only
        split
        · exact hone
        · split
          · exact hmore _ _
          · split
            · exact hmore _ _
            · exact hone

/-- C11: the delete handler issues one `DeleteSubnet` call for the identifier
it holds. When that call fails nothing follows it. When it succeeds the
handler polls: the calls that follow are exactly those of the wait configured
with the target `DELETED`, run on the refresh function of the identifier, and
these are `GetSubnet` calls for the identifier, at least one (when the timeout
leaves room for a refresh) and at most one for each round. The handler returns
success exactly when the delete call succeeded and the wait ended in the state
`DELETED`; then at least one `GetSubnet` call was issued and the identifier is
the empty string, and in every other case the resource data is unchanged. -/
theorem C11_delete_clears_id (conn : Conn) (polls : Nat) (d : ResourceData)
    (calls : List Call) :
    (deleteStateConf polls).Target = ["DELETED"] ∧
    (∃ k, k ≤ polls ∧ (resourceNutanixSubnetDelete conn polls d calls).calls
      = calls ++ [Call.DeleteSubnet d.id] ++ List.replicate k (Call.GetSubnet d.id)) ∧
    (conn.DeleteSubnet calls d.id ≠ none →
      (resourceNutanixSubnetDelete conn polls d calls).calls
        = calls ++ [Call.DeleteSubnet d.id]) ∧
    (conn.DeleteSubnet calls d.id = none →
      (resourceNutanixSubnetDelete conn polls d calls).calls
        = ((deleteStateConf polls).WaitForState (subnetStateRefreshFunc conn d.id)
            (calls ++ [Call.DeleteSubnet d.id])).2 ∧
      (0 < polls → ∃ k, 1 ≤ k ∧ k ≤ polls ∧
        (resourceNutanixSubnetDelete conn polls d calls).calls
          = calls ++ [Call.DeleteSubnet d.id] ++ List.replicate k (Call.GetSubnet d.id))) ∧
    ((resourceNutanixSubnetDelete conn polls d calls).err = .ok () ↔
      (conn.DeleteSubnet calls d.id = none ∧
       ∃ res, ((deleteStateConf polls).WaitForState (subnetStateRefreshFunc conn d.id)
          (calls ++ [Call.DeleteSubnet d.id])).1 = .ok res ∧ res.state = "DELETED")) ∧
    ((resourceNutanixSubnetDelete conn polls d calls).err = .ok () →
      (resourceNutanixSubnetDelete conn polls d calls).d = d.SetId "" ∧
      (resourceNutanixSubnetDelete conn polls d calls).d.id = "" ∧
      ∃ k, 1 ≤ k ∧ k ≤ polls ∧
        (resourceNutanixSubnetDelete conn polls d calls).calls
          = calls ++ [Call.DeleteSubnet d.id] ++ List.replicate k (Call.GetSubnet d.id)) ∧
    ((resourceNutanixSubnetDelete conn polls d calls).err ≠ .ok () →
      (resourceNutanixSubnetDelete conn polls d calls).d = d) := by
  refine ⟨rfl, ?_⟩
  cases hdel : conn.DeleteSubnet calls d.id with
  | some err =>
    have hrun : resourceNutanixSubnetDelete conn polls d calls
        = ⟨.error err, d, calls ++ [Call.DeleteSubnet d.id]⟩ := by
      simp only [resourceNutanixSubnetDelete, hdel]
    rw [hrun]
    refine ⟨⟨0, Nat.zero_le _, by simp⟩, fun _ => rfl, fun h => (by cases h), ?_, ?_,
      fun _ => rfl⟩
    · simp
    · intro h
      simp at h
  | none =>
    obtain ⟨k, hk, hcalls⟩ := waitLoop_calls (deleteStateConf polls) conn d.id polls 0 ""
      (calls ++ [Call.DeleteSubnet d.id])
    have hpos : 0 < polls → ∃ k, 1 ≤ k ∧ k ≤ polls ∧
        ((deleteStateConf polls).WaitForState (subnetStateRefreshFunc conn d.id)
          (calls ++ [Call.DeleteSubnet d.id])).2
          = calls ++ [Call.DeleteSubnet d.id] ++ List.replicate k (Call.GetSubnet d.id) := by
      intro hp
      obtain ⟨n, rfl⟩ : ∃ n, polls = n + 1 := ⟨polls - 1, by omega⟩
      exact waitLoop_calls_pos (deleteStateConf (n + 1)) conn d.id n 0 ""
        (calls ++ [Call.DeleteSubnet d.id])
    have hzero : polls = 0 → ∀ r,
        ((deleteStateConf polls).WaitForState (subnetStateRefreshFunc conn d.id)
          (calls ++ [Call.DeleteSubnet d.id])).1 ≠ .ok r := by
      intro hp r h
      subst hp
      simp [StateChangeConf.WaitForState, deleteStateConf, waitLoop] at h
    rcases hw : (deleteStateConf polls).WaitForState (subnetStateRefreshFunc conn d.id)
        (calls ++ [Call.DeleteSubnet d.id]) with ⟨res, calls2⟩
    rw [hw] at hpos hzero
    simp only at hpos hzero
    have h2 : calls2 = calls ++ [Call.DeleteSubnet d.id]
        ++ List.replicate k (Call.GetSubnet d.id) := by
      have hw2 := congrArg Prod.snd hw
      simp only [StateChangeConf.WaitForState] at hw2
      rw [← hw2]
      exact hcalls
    have htarget : ∀ r, res = .ok r → r.state = "DELETED" := by
      intro r hr
      have hw1 := congrArg Prod.fst hw
      simp only [StateChangeConf.WaitForState, hr] at hw1
      have := waitLoop_ok_target (deleteStateConf polls) (subnetStateRefreshFunc conn d.id)
        rfl _ _ _ _ r hw1
      simpa [deleteStateConf] using this
    cases res with
    | error e =>
      have hrun : resourceNutanixSubnetDelete conn polls d calls
          = ⟨.error ("Error waiting for subnet (" ++ d.id ++ ") to delete: " ++ e), d, calls2⟩ := by
        simp only [resourceNutanixSubnetDelete, hdel, hw]
      rw [hrun]
      refine ⟨⟨k, hk, h2⟩, fun h => absurd rfl h, fun _ => ⟨rfl, hpos⟩, ?_, ?_, fun _ => rfl⟩
      · simp
      · intro h
        simp at h
    | fault =>
      have hrun : resourceNutanixSubnetDelete conn polls d calls = ⟨.fault, d, calls2⟩ := by
        simp only [resourceNutanixSubnetDelete, hdel, hw]
      rw [hrun]
      refine ⟨⟨k, hk, h2⟩, fun h => absurd rfl h, fun _ => ⟨rfl, hpos⟩, ?_, ?_, fun _ => rfl⟩
      · simp
      · intro h
        simp at h
    | ok r =>
      have hrun : resourceNutanixSubnetDelete conn polls d calls
          = ⟨.ok (), d.SetId "", calls2⟩ := by
        simp only [resourceNutanixSubnetDelete, hdel, hw]
      rw [hrun]
      have hp : 0 < polls := by
        rcases Nat.eq_zero_or_pos polls with h0 | h0
        · exact absurd rfl (hzero h0 r)
        · exact h0
      refine ⟨⟨k, hk, h2⟩, fun h => absurd rfl h, fun _ => ⟨rfl, hpos⟩, ?_,
        fun _ => ⟨rfl, rfl, hpos hp⟩, ?_⟩
      · simp [htarget r rfl]
      · intro h
        simp at h

/-- C11 for a backend that accepts the delete and then reports the subnet as
not found: the delete handler issues the delete call and one poll, which are
the calls of the wait, it succeeds and the identifier is empty. -/
theorem C11_delete_clears_id_witness :
    (resourceNutanixSubnetDelete goneConn 3 (net1Desired.SetId "u1") []).err = .ok () ∧
    (resourceNutanixSubnetDelete goneConn 3 (net1Desired.SetId "u1") []).d.id = "" ∧
    (resourceNutanixSubnetDelete goneConn 3 (net1Desired.SetId "u1") []).calls
      = [Call.DeleteSubnet "u1", Call.GetSubnet "u1"] ∧
    (resourceNutanixSubnetDelete goneConn 3 (net1Desired.SetId "u1") []).calls
      = ((deleteStateConf 3).WaitForState (subnetStateRefreshFunc goneConn "u1")
          [Call.DeleteSubnet "u1"]).2 :=
  ⟨by decide,
   ((C11_delete_clears_id goneConn 3 (net1Desired.SetId "u1") []).2.2.2.2.2.1 (by decide)).2.1,
   by decide,
   ((C11_delete_clears_id goneConn 3 (net1Desired.SetId "u1") []).2.2.2.1 (by decide)).1⟩

/-! ## Create to the end (C12) and the first error (C13) -/

theorem read_id (conn : Conn) (d : ResourceData) (calls : List Call) :
    (resourceNutanixSubnetRead conn d calls).d.id = d.id := by
  unfold resourceNutanixSubnetRead
  cases conn.GetSubnet calls d.id with
  | error err => rfl
  | ok resp => exact (readResponse_frame resp d).id

/-- C12: the request is built, the listing holds no entity of the desired name,
`CreateSubnet` succeeds with the identifier `uuid` and the wait ends with
success. Then the wait ended in the state `COMPLETE`, the create handler
returns what `resourceNutanixSubnetRead` returns on the resource data holding
`uuid`, the identifier is `uuid`, and the calls issued are `ListSubnet`, one
`CreateSubnet`, the polls and the fetch of the read. -/
theorem C12_create_then_read (conn : Conn) (heap polls : Nat) (d : ResourceData)
    (calls : List Call) (req : SubnetIntentInput) (name : String)
    (entities : List SubnetIntentResponse) (resp : SubnetIntentResponse) (uuid : String)
    (res : RefreshResult)
    (hreq : createRequest d = .ok req)
    (hname : d.Get "name" = .str name)
    (hlist : conn.ListSubnet calls = .ok entities)
    (halloc : NamesAllocated entities heap)
    (_hno : ∀ e ∈ entities, e.Status.Name.map StrPtr.val ≠ some name)
    (hcreate : conn.CreateSubnet (calls ++ [Call.ListSubnet]) req = .ok resp)
    (huuid : resp.Metadata.UUID = some uuid)
    (hwait : ((createStateConf polls).WaitForState (subnetStateRefreshFunc conn uuid)
        (calls ++ [Call.ListSubnet] ++ [Call.CreateSubnet req])).1 = .ok res) :
    res.state = "COMPLETE" ∧
    resourceNutanixSubnetCreate conn heap polls d calls
      = resourceNutanixSubnetRead conn (d.SetId uuid)
          ((createStateConf polls).WaitForState (subnetStateRefreshFunc conn uuid)
            (calls ++ [Call.ListSubnet] ++ [Call.CreateSubnet req])).2 ∧
    (resourceNutanixSubnetCreate conn heap polls d calls).d.id = uuid ∧
    (∃ k, k ≤ polls ∧ (resourceNutanixSubnetCreate conn heap polls d calls).calls
      = calls ++ [Call.ListSubnet] ++ [Call.CreateSubnet req]
          ++ List.replicate k (Call.GetSubnet uuid) ++ [Call.GetSubnet uuid]) := by
  -- the parts of the request
  unfold createRequest at hreq
  simp only [Result.bind_def, Result.pure_def] at hreq
  obtain ⟨⟨request, spec, metadata, subnet⟩, hargs, h1⟩ := Result.bind_eq_ok.mp hreq
  obtain ⟨n, hn, h2⟩ := Result.bind_eq_ok.mp h1
  simp only [Result.ok.injEq] at h2
  have hget : (d.GetOk "name").1 = .str name := hname
  rw [hget] at hn
  simp only [Value.asString, Result.ok.injEq] at hn
  subst hn
  -- the pre-check
  have hex : resourceNutanixSubnetExists conn heap name calls
      = (.ok none, calls ++ [Call.ListSubnet]) := by
    simp only [resourceNutanixSubnetExists, hlist,
      existsLoop_allocated name entities heap none halloc]
  -- the wait
  obtain ⟨k, hk, hcalls⟩ := waitLoop_calls (createStateConf polls) conn uuid polls 0 ""
    (calls ++ [Call.ListSubnet] ++ [Call.CreateSubnet req])
  have hw : (createStateConf polls).WaitForState (subnetStateRefreshFunc conn uuid)
      (calls ++ [Call.ListSubnet] ++ [Call.CreateSubnet req])
      = (.ok res, calls ++ [Call.ListSubnet] ++ [Call.CreateSubnet req]
          ++ List.replicate k (Call.GetSubnet uuid)) :=
    Prod.ext hwait hcalls
  have hstate : res.state = "COMPLETE" := by
    have := waitLoop_ok_target (createStateConf polls) (subnetStateRefreshFunc conn uuid)
      rfl _ _ _ _ res hwait
    simpa [createStateConf] using this
  have hrun : resourceNutanixSubnetCreate conn heap polls d calls
      = resourceNutanixSubnetRead conn (d.SetId uuid)
          (calls ++ [Call.ListSubnet] ++ [Call.CreateSubnet req]
            ++ List.replicate k (Call.GetSubnet uuid)) := by
    unfold resourceNutanixSubnetCreate
    simp only [hargs, hname, hget, Value.asString, hex, h2, hcreate, huuid,
      ResourceData.SetId, hw]
  rw [hrun, hw]
  refine ⟨hstate, rfl, ?_, k, hk, ?_⟩
  · rw [read_id]
    rfl
  · rw [read_calls]
    rfl

/-- C12 for the desired state `net1Desired` and a backend with an empty listing
that creates the subnet `u1` and reports it as `COMPLETE`. -/
theorem C12_create_then_read_witness :
    resourceNutanixSubnetCreate (connOf [] net1Entity) 0 3 net1Desired []
      = resourceNutanixSubnetRead (connOf [] net1Entity) (net1Desired.SetId "u1")
          ((createStateConf 3).WaitForState (subnetStateRefreshFunc (connOf [] net1Entity) "u1")
            ([] ++ [Call.ListSubnet] ++ [Call.CreateSubnet net1Request])).2 ∧
    (resourceNutanixSubnetCreate (connOf [] net1Entity) 0 3 net1Desired []).d.id = "u1" :=
  ⟨(C12_create_then_read (connOf [] net1Entity) 0 3 net1Desired [] net1Request "net1" []
      net1Entity "u1" ⟨some (some net1Entity), "COMPLETE", none⟩
      (by decide) (by decide) rfl (by intro e he; cases he) (by intro e he; cases he)
      (by decide) (by decide) (by decide)).2.1,
   (C12_create_then_read (connOf [] net1Entity) 0 3 net1Desired [] net1Request "net1" []
      net1Entity "u1" ⟨some (some net1Entity), "COMPLETE", none⟩
      (by decide) (by decide) rfl (by intro e he; cases he) (by intro e he; cases he)
      (by decide) (by decide) (by decide)).2.2.1⟩

/-- C13: each handler returns the first error of the backend and stops. A
failed `ListSubnet` ends the create handler with that error and no
`CreateSubnet`; a failed `CreateSubnet` ends it with that error, the
identifier untouched and no further call; a failed `UpdateSubnet` ends the
update handler with that error and no further call; a failed `DeleteSubnet`
ends the delete handler with that error and the identifier untouched; a failed
`GetSubnet` ends the read handler with that error and no field written. -/
theorem C13_first_error_returned (conn : Conn) (heap polls : Nat) (d : ResourceData)
    (calls : List Call) (e : String) :
    (∀ req name, createRequest d = .ok req → d.Get "name" = .str name →
      conn.ListSubnet calls = .error e →
      resourceNutanixSubnetCreate conn heap polls d calls
        = ⟨.error e, d, calls ++ [Call.ListSubnet]⟩) ∧
    (∀ req name, createRequest d = .ok req → d.Get "name" = .str name →
      (resourceNutanixSubnetExists conn heap name calls).1 = .ok none →
      conn.CreateSubnet (calls ++ [Call.ListSubnet]) req = .error e →
      resourceNutanixSubnetCreate conn heap polls d calls
        = ⟨.error e, d, calls ++ [Call.ListSubnet] ++ [Call.CreateSubnet req]⟩) ∧
    (∀ req, updateRequest d = .ok req →
      conn.UpdateSubnet calls d.id req = .error e →
      resourceNutanixSubnetUpdate conn polls d calls
        = ⟨.error e, d, calls ++ [Call.UpdateSubnet d.id req]⟩) ∧
    (conn.DeleteSubnet calls d.id = some e →
      resourceNutanixSubnetDelete conn polls d calls
        = ⟨.error e, d, calls ++ [Call.DeleteSubnet d.id]⟩) ∧
    (conn.GetSubnet calls d.id = .error e →
      resourceNutanixSubnetRead conn d calls
        = ⟨.error e, d, calls ++ [Call.GetSubnet d.id]⟩) := by
  have hparts : ∀ req name, createRequest d = .ok req → d.Get "name" = .str name →
      ∃ request spec metadata subnet,
        createArguments d = .ok (request, spec, metadata, subnet) ∧
        ({ request with Metadata := some metadata,
                        Spec := some { spec with Name := some name,
                                                 Resources := some subnet } }
          : SubnetIntentInput) = req := by
    intro req name hreq hname
    unfold createRequest at hreq
    simp only [Result.bind_def, Result.pure_def] at hreq
    obtain ⟨⟨request, spec, metadata, subnet⟩, hargs, h1⟩ := Result.bind_eq_ok.mp hreq
    obtain ⟨n, hn, h2⟩ := Result.bind_eq_ok.mp h1
    simp only [Result.ok.injEq] at h2
    have hget : (d.GetOk "name").1 = .str name := hname
    rw [hget] at hn
    simp only [Value.asString, Result.ok.injEq] at hn
    subst hn
    exact ⟨request, spec, metadata, subnet, hargs, h2⟩
  refine ⟨?_, ?_, ?_, ?_, ?_⟩
  · intro req name hreq hname hlist
    obtain ⟨request, spec, metadata, subnet, hargs, -⟩ := hparts req name hreq hname
    have hget : (d.GetOk "name").1 = .str name := hname
    have hex : resourceNutanixSubnetExists conn heap name calls
        = (.error e, calls ++ [Call.ListSubnet]) := by
      simp only [resourceNutanixSubnetExists, hlist]
    unfold resourceNutanixSubnetCreate
    simp only [hargs, hname, hget, Value.asString, hex]
  · intro req name hreq hname hexists hcreate
    obtain ⟨request, spec, metadata, subnet, hargs, h2⟩ := hparts req name hreq hname
    have hget : (d.GetOk "name").1 = .str name := hname
    have hex : resourceNutanixSubnetExists conn heap name calls
        = (.ok none, calls ++ [Call.ListSubnet]) :=
      Prod.ext hexists (exists_calls conn heap name calls)
    unfold resourceNutanixSubnetCreate
    simp only [hargs, hname, hget, Value.asString, hex, h2, hcreate]
  · intro req hreq hupd
    simp only [resourceNutanixSubnetUpdate, hreq, hupd]
  · intro hdel
    simp only [resourceNutanixSubnetDelete, hdel]
  · intro hget
    simp only [resourceNutanixSubnetRead, hget]

/-- C13 for a backend that refuses every call (create on `net1Desired`, update,
delete and read on `renamedData`), and for a backend that lists nothing and
refuses the creation. -/
theorem C13_first_error_returned_witness :
    resourceNutanixSubnetCreate downConn 0 3 net1Desired []
      = ⟨.error "connection refused", net1Desired, [] ++ [Call.ListSubnet]⟩ ∧
    resourceNutanixSubnetCreate goneConn 0 3 net1Desired []
      = ⟨.error "unavailable", net1Desired,
          [] ++ [Call.ListSubnet] ++ [Call.CreateSubnet net1Request]⟩ ∧
    resourceNutanixSubnetUpdate downConn 3 renamedData []
      = ⟨.error "connection refused", renamedData,
          [] ++ [Call.UpdateSubnet renamedData.id renamedRequest]⟩ ∧
    resourceNutanixSubnetDelete downConn 3 renamedData []
      = ⟨.error "connection refused", renamedData, [] ++ [Call.DeleteSubnet renamedData.id]⟩ ∧
    resourceNutanixSubnetRead downConn renamedData []
      = ⟨.error "connection refused", renamedData, [] ++ [Call.GetSubnet renamedData.id]⟩ :=
  ⟨(C13_first_error_returned downConn 0 3 net1Desired [] "connection refused").1
      net1Request "net1" (by decide) (by decide) rfl,
   (C13_first_error_returned goneConn 0 3 net1Desired [] "unavailable").2.1
      net1Request "net1" (by decide) (by decide) (by decide) rfl,
   (C13_first_error_returned downConn 0 3 renamedData [] "connection refused").2.2.1
      renamedRequest (by decide) rfl,
   (C13_first_error_returned downConn 0 3 renamedData [] "connection refused").2.2.2.1 rfl,
   (C13_first_error_returned downConn 0 3 renamedData [] "connection refused").2.2.2.2 rfl⟩

/-! ## The state the wait sees (C16, C17) -/

/-- C16 as stated fails: the backend returns no entity, only a not-found error,
and the refresh function reports the state `DELETED`. -/
theorem C16_state_without_entity :
    goneConn.GetSubnet [] "u1"
      = .error "status: 404, code: ENTITY_NOT_FOUND, subnet is gone" ∧
    (subnetStateRefreshFunc goneConn "u1" []).1 = .ok ⟨some none, "DELETED", none⟩ := by
  decide

/-- C16, amended: when the backend returns an entity, the state the refresh
function reports is the `status.state` of that entity (a nil state is a fault);
when the backend returns an error whose text contains `ENTITY_NOT_FOUND`, the
function itself supplies the state `DELETED`; any other error of the backend
is returned as the error of the poll, with a nil result and the empty state,
and it ends the wait with that error. -/
theorem C16_state_of_entity (client : Conn) (uuid : String) (calls : List Call) :
    (∀ v, client.GetSubnet calls uuid = .ok v →
      (∀ r, (subnetStateRefreshFunc client uuid calls).1 = .ok r →
        v.Status.State = some r.state ∧ r.result = some (some v) ∧ r.err = none) ∧
      (∀ s, v.Status.State = some s →
        (subnetStateRefreshFunc client uuid calls).1 = .ok ⟨some (some v), s, none⟩) ∧
      (v.Status.State = none → (subnetStateRefreshFunc client uuid calls).1 = .fault)) ∧
    (∀ err, client.GetSubnet calls uuid = .error err →
      strings.Contains err "ENTITY_NOT_FOUND" = true →
      (subnetStateRefreshFunc client uuid calls).1 = .ok ⟨some none, "DELETED", none⟩) ∧
    (∀ err, client.GetSubnet calls uuid = .error err →
      strings.Contains err "ENTITY_NOT_FOUND" = false →
      (subnetStateRefreshFunc client uuid calls).1 = .ok ⟨none, "", some err⟩ ∧
      ∀ (conf : StateChangeConf) (fuel tick : Nat) (last : String),
        (waitLoop conf (subnetStateRefreshFunc client uuid) (fuel + 1) tick last calls).1
          = .error err) := by
  refine ⟨?_, ?_, ?_⟩
  · intro v hget
    unfold subnetStateRefreshFunc
    simp only [hget]
    cases hs : v.Status.State with
    | none =>
      refine ⟨?_, ?_, fun _ => rfl⟩
      · intro r hr
        simp at hr
      · intro s h
        simp at h
    | some st =>
      refine ⟨?_, ?_, ?_⟩
      · intro r hr
        simp only [Result.ok.injEq] at hr
        subst hr
        exact ⟨rfl, rfl, rfl⟩
      · intro s h
        simp only [Option.some.injEq] at h
        subst h
        rfl
      · intro h
        simp at h
  · intro err hget hc
    simp only [subnetStateRefreshFunc, hget, hc, if_true]
  · intro err hget hc
    have hr : subnetStateRefreshFunc client uuid calls
        = (.ok ⟨none, "", some err⟩, calls ++ [Call.GetSubnet uuid]) := by
      simp only [subnetStateRefreshFunc, hget, hc, Bool.false_eq_true, if_false]
    refine ⟨by rw [hr], ?_⟩
    intro conf fuel tick last
    simp only [waitLoop, hr]

/-- C16, amended, for a backend that returns the entity `net1Entity` (state
`COMPLETE`), for one that returns a not-found error and for one that returns
another error. -/
theorem C16_state_of_entity_witness :
    (subnetStateRefreshFunc (connOf [] net1Entity) "u1" []).1
      = .ok ⟨some (some net1Entity), "COMPLETE", none⟩ ∧
    (subnetStateRefreshFunc goneConn "u1" []).1 = .ok ⟨some none, "DELETED", none⟩ ∧
    (subnetStateRefreshFunc downConn "u1" []).1 = .ok ⟨none, "", some "connection refused"⟩ :=
  ⟨((C16_state_of_entity (connOf [] net1Entity) "u1" []).1 net1Entity rfl).2.1 "COMPLETE" rfl,
   (C16_state_of_entity goneConn "u1" []).2.1
     "status: 404, code: ENTITY_NOT_FOUND, subnet is gone" rfl (by decide),
   ((C16_state_of_entity downConn "u1" []).2.2 "connection refused" rfl (by decide)).1⟩

/-- A wait that ends with success has refreshed at least once. -/
theorem waitLoop_ok_longer (conf : StateChangeConf) (conn : Conn) (uuid : String)
    (fuel tick : Nat) (last : String) (calls : List Call)
    (h : (waitLoop conf (subnetStateRefreshFunc conn uuid) fuel tick last calls).1.isOk = true) :
    calls.length < (waitLoop conf (subnetStateRefreshFunc conn uuid) fuel tick last calls).2.length := by
  cases fuel with
  | zero => simp [waitLoop, Result.isOk] at h
  | succ n =>
    have hone : calls.length < (calls ++ [Call.GetSubnet uuid]).length := by simp
    have hmore : ∀ (t : Nat) (l : String), calls.length <
        (waitLoop conf (subnetStateRefreshFunc conn uuid) n t l
          (calls ++ [Call.GetSubnet uuid])).2.length := by
      intro t l
      obtain ⟨k, -, hk⟩ := waitLoop_calls conf conn uuid n t l (calls ++ [Call.GetSubnet uuid])
      rw [hk]
      simp only [List.length_append, List.length_singleton, List.length_replicate]
      omega
    have hc := refresh_calls conn uuid calls
    clear h
    unfold waitLoop
    rcases hr : subnetStateRefreshFunc conn uuid calls with ⟨res, calls1⟩
    rw [hr] at hc
    simp only at hc
    subst hc
    cases res with
    | fault => exact hone
    | error e => exact hone
    | ok r =>
      simp only
      cases r.err with
      | some e => exact hone
      | none =>
        simp only
        cases r.result with
        | none =>
          simp only
          split
          · exact hone
          · split
            · exact hone
            · exact hmore _ _
        | some v =>
          simp only
          split
          · exact hone
          · split
            · exact hmore _ _
            · split
              · exact hmore _ _
              · exact hone

/-- One round of the wait whose refresh reports the state `s` with a result
that is not nil and without error. -/
theorem waitLoop_step (conf : StateChangeConf)
    (refresh : List Call → Result RefreshResult × List Call) (n tick : Nat) (last : String)
    (calls calls1 : List Call) (p : Option SubnetIntentResponse) (s : String)
    (hr : refresh calls = (.ok ⟨some p, s, none⟩, calls1)) :
    waitLoop conf refresh (n + 1) tick last calls =
      if conf.Target.contains s = true then (.ok ⟨some p, s, none⟩, calls1)
      else if conf.Pending.contains s = true then waitLoop conf refresh n 0 s calls1
      else if conf.Pending.isEmpty = true then waitLoop conf refresh n 0 s calls1
      else (.error ("unexpected state " ++ s ++ ", wanted target " ++
              toString conf.Target), calls1) := by
  rw [waitLoop, hr]

/-- The wait over a script of reported states: it ends with success after
exactly as many polls as the script is long if and only if every state but
the last is pending and not a target, and the last is a target. -/
theorem waitLoop_script (conf : StateChangeConf) (hP : conf.Pending.isEmpty = false)
    (conn : Conn) (uuid : String) :
    ∀ (pre : List String) (t : String) (fuel tick : Nat) (last : String) (calls : List Call),
      pre.length + 1 ≤ fuel → Reports conn uuid calls (pre ++ [t]) →
      (((waitLoop conf (subnetStateRefreshFunc conn uuid) fuel tick last calls).1.isOk = true ∧
        (waitLoop conf (subnetStateRefreshFunc conn uuid) fuel tick last calls).2
          = calls ++ List.replicate (pre.length + 1) (Call.GetSubnet uuid)) ↔
       ((∀ s ∈ pre, conf.Pending.contains s = true ∧ conf.Target.contains s = false) ∧
        conf.Target.contains t = true)) := by
  intro pre
  induction pre with
  | nil =>
    intro t fuel tick last calls hfuel hrep
    obtain ⟨n, rfl⟩ : ∃ n, fuel = n + 1 := ⟨fuel - 1, by simp at hfuel; omega⟩
    obtain ⟨⟨p, hp⟩, -⟩ := hrep
    have hr : subnetStateRefreshFunc conn uuid calls
        = (.ok ⟨some p, t, none⟩, calls ++ [Call.GetSubnet uuid]) :=
      Prod.ext hp (refresh_calls conn uuid calls)
    have hno : ∀ (tk : Nat) (l : String),
        ¬ ((waitLoop conf (subnetStateRefreshFunc conn uuid) n tk l
              (calls ++ [Call.GetSubnet uuid])).1.isOk = true ∧
           (waitLoop conf (subnetStateRefreshFunc conn uuid) n tk l
              (calls ++ [Call.GetSubnet uuid])).2
             = calls ++ List.replicate ([] : List String).length.succ (Call.GetSubnet uuid)) := by
      rintro tk l ⟨hok, hc⟩
      have := waitLoop_ok_longer conf conn uuid n tk l _ hok
      rw [hc] at this
      simp at this
    have hall : ∀ s ∈ ([] : List String),
        conf.Pending.contains s = true ∧ conf.Target.contains s = false := by
      intro s hs
      cases hs
    rw [waitLoop_step conf _ n tick last calls _ p t hr]
    cases hT : conf.Target.contains t with
    | true =>
      simp only [if_true]
      exact ⟨fun _ => ⟨hall, trivial⟩, fun _ => ⟨rfl, rfl⟩⟩
    | false =>
      simp only [Bool.false_eq_true, if_false]
      cases hPd : conf.Pending.contains t with
      | true =>
        simp only [if_true]
        exact ⟨fun h => absurd h (hno _ _), fun h => h.2.elim⟩
      | false =>
        simp only [Bool.false_eq_true, if_false, hP]
        exact ⟨fun h => Bool.noConfusion h.1, fun h => h.2.elim⟩
  | cons s pre ih =>
    intro t fuel tick last calls hfuel hrep
    obtain ⟨n, rfl⟩ : ∃ n, fuel = n + 1 := ⟨fuel - 1, by simp at hfuel; omega⟩
    have hn : pre.length + 1 ≤ n := by simp at hfuel; omega
    obtain ⟨⟨p, hp⟩, hrest⟩ := hrep
    have hr : subnetStateRefreshFunc conn uuid calls
        = (.ok ⟨some p, s, none⟩, calls ++ [Call.GetSubnet uuid]) :=
      Prod.ext hp (refresh_calls conn uuid calls)
    have hlen : calls ++ List.replicate ((s :: pre).length + 1) (Call.GetSubnet uuid)
        = calls ++ [Call.GetSubnet uuid] ++ List.replicate (pre.length + 1) (Call.GetSubnet uuid) := by
      simp [List.replicate_succ]
    have IH := fun tk l => ih t n tk l (calls ++ [Call.GetSubnet uuid]) hn hrest
    rw [waitLoop_step conf _ n tick last calls _ p s hr, hlen]
    cases hT : conf.Target.contains s with
    | true =>
      simp only [if_true]
      constructor
      · rintro ⟨-, hc⟩
        have := congrArg List.length hc
        simp at this
      · rintro ⟨hall, -⟩
        have := (hall s (List.mem_cons_self _ _)).2
        rw [hT] at this
        exact Bool.noConfusion this
    | false =>
      simp only [Bool.false_eq_true, if_false]
      cases hPd : conf.Pending.contains s with
      | true =>
        simp only [if_true]
        rw [IH 0 s]
        constructor
        · rintro ⟨hall, ht⟩
          refine ⟨?_, ht⟩
          intro x hx
          rcases List.mem_cons.mp hx with rfl | hx
          · exact ⟨hPd, hT⟩
          · exact hall x hx
        · rintro ⟨hall, ht⟩
          exact ⟨fun x hx => hall x (List.mem_cons_of_mem _ hx), ht⟩
      | false =>
        simp only [Bool.false_eq_true, if_false, hP]
        constructor
        · intro h
          exact Bool.noConfusion h.1
        · rintro ⟨hall, -⟩
          have := (hall s (List.mem_cons_self _ _)).1
          rw [hPd] at this
          exact Bool.noConfusion this

/-- C17: the refresh function reports the states `pre` and then `t`, and the
timeout leaves room for that many polls. The wait of the create and update
path (pending `PENDING`, `RUNNING`; target `COMPLETE`) ends with success at the
last of these polls exactly when every state of `pre` is pending, none of them
is the target and `t` is the target; the same holds for the wait of the delete
path (pending `PENDING`, `RUNNING`, `DELETE_IN_PROGRESS`, `COMPLETE`; target
`DELETED`). The two target sets are disjoint. -/
theorem C17_wait_ends_at_first_target (conn : Conn) (uuid : String) (polls : Nat)
    (pre : List String) (t : String) (calls : List Call)
    (hfuel : pre.length + 1 ≤ polls) (hrep : Reports conn uuid calls (pre ++ [t])) :
    ((((createStateConf polls).WaitForState (subnetStateRefreshFunc conn uuid) calls).1.isOk
          = true ∧
       ((createStateConf polls).WaitForState (subnetStateRefreshFunc conn uuid) calls).2
          = calls ++ List.replicate (pre.length + 1) (Call.GetSubnet uuid)) ↔
      ((∀ s ∈ pre, s ∈ ["PENDING", "RUNNING"]) ∧ (∀ s ∈ pre, s ∉ ["COMPLETE"]) ∧
        t ∈ ["COMPLETE"])) ∧
    ((((deleteStateConf polls).WaitForState (subnetStateRefreshFunc conn uuid) calls).1.isOk
          = true ∧
       ((deleteStateConf polls).WaitForState (subnetStateRefreshFunc conn uuid) calls).2
          = calls ++ List.replicate (pre.length + 1) (Call.GetSubnet uuid)) ↔
      ((∀ s ∈ pre, s ∈ ["PENDING", "RUNNING", "DELETE_IN_PROGRESS", "COMPLETE"]) ∧
        (∀ s ∈ pre, s ∉ ["DELETED"]) ∧ t ∈ ["DELETED"])) ∧
    (createStateConf polls).Pending = ["PENDING", "RUNNING"] ∧
    (createStateConf polls).Target = ["COMPLETE"] ∧
    (deleteStateConf polls).Pending = ["PENDING", "RUNNING", "DELETE_IN_PROGRESS", "COMPLETE"] ∧
    (deleteStateConf polls).Target = ["DELETED"] ∧
    (∀ s, s ∈ (deleteStateConf polls).Target → s ∉ (createStateConf polls).Target) := by
  have hc := waitLoop_script (createStateConf polls) rfl conn uuid pre t polls 0 "" calls
    hfuel hrep
  have hd := waitLoop_script (deleteStateConf polls) rfl conn uuid pre t polls 0 "" calls
    hfuel hrep
  refine ⟨?_, ?_, rfl, rfl, rfl, rfl, ?_⟩
  · unfold StateChangeConf.WaitForState
    rw [show (createStateConf polls).polls = polls from rfl, hc]
    simp only [createStateConf, List.contains_iff_exists_mem_beq, beq_iff_eq, exists_eq_right', ← Bool.not_eq_true, forall_and, and_assoc]
  · unfold StateChangeConf.WaitForState
    rw [show (deleteStateConf polls).polls = polls from rfl, hd]
    simp only [deleteStateConf, List.contains_iff_exists_mem_beq, beq_iff_eq, exists_eq_right', ← Bool.not_eq_true, forall_and, and_assoc]
  · intro s hs
    simp only [deleteStateConf, createStateConf, List.mem_singleton] at hs ⊢
    subst hs
    decide

/-- C17 for a backend that reports `PENDING` and then `COMPLETE`: the wait of
the create path ends with success at the second poll. -/
theorem C17_wait_ends_at_first_target_witness :
    ((createStateConf 3).WaitForState (subnetStateRefreshFunc slowConn "u1") []).1.isOk = true ∧
    ((createStateConf 3).WaitForState (subnetStateRefreshFunc slowConn "u1") []).2
      = [] ++ List.replicate (["PENDING"].length + 1) (Call.GetSubnet "u1") :=
  (C17_wait_ends_at_first_target slowConn "u1" 3 ["PENDING"] "COMPLETE" [] (by decide)
    ⟨⟨_, rfl⟩, ⟨_, rfl⟩, trivial⟩).1.mpr
    ⟨by decide, by decide, by decide⟩

/-! ## What the create request depends on (C19, C20) -/

/-- The request of the create path is a function of what `GetOk` returns for
the keys of `createKeys`. -/
theorem createRequest_congr (d1 d2 : ResourceData)
    (h : ∀ k ∈ createKeys, d1.GetOk k = d2.GetOk k) :
    createArguments d1 = createArguments d2 ∧ createRequest d1 = createRequest d2 := by
  have h01 := h "name" (by decide)
  have h02 := h "description" (by decide)
  have h03 := h "availability_zone_reference" (by decide)
  have h04 := h "cluster_reference" (by decide)
  have h05 := h "subnet_type" (by decide)
  have h06 := h "api_version" (by decide)
  have h07 := h "metadata" (by decide)
  have h08 := h "categories" (by decide)
  have h09 := h "project_reference" (by decide)
  have h10 := h "vswitch_name" (by decide)
  have h11 := h "default_gateway_ip" (by decide)
  have h12 := h "prefix_length" (by decide)
  have h13 := h "subnet_ip" (by decide)
  have h14 := h "dhcp_server_address" (by decide)
  have h15 := h "dhcp_server_address_port" (by decide)
  have h16 := h "ip_config_pool_list_ranges" (by decide)
  have h17 := h "dhcp_options" (by decide)
  have h18 := h "dhcp_domain_name_server_list" (by decide)
  have h19 := h "dhcp_domain_search_list" (by decide)
  have h20 := h "vlan_id" (by decide)
  have h21 := h "network_function_chain_reference" (by decide)
  have hargs : createArguments d1 = createArguments d2 := by
    simp only [createArguments, getSubnetMetadaAttributes, getSubnetResources,
      h01, h02, h03, h04, h05, h06, h07, h08, h09, h10, h11, h12, h13, h14, h15, h16, h17,
      h18, h19, h20, h21]
  refine ⟨hargs, ?_⟩
  simp only [createRequest, hargs, h01]

theorem read_same_id (conn : Conn) (d d' : ResourceData) (calls : List Call)
    (h : d.id = d'.id) :
    (resourceNutanixSubnetRead conn d calls).calls
      = (resourceNutanixSubnetRead conn d' calls).calls ∧
    (resourceNutanixSubnetRead conn d calls).err
      = (resourceNutanixSubnetRead conn d' calls).err := by
  unfold resourceNutanixSubnetRead
  rw [h]
  cases conn.GetSubnet calls d'.id <;> exact ⟨rfl, rfl⟩

/-- Two runs of the create handler whose resource data give the same answers to
`GetOk` on the keys of `createKeys` issue the same calls and return the same
result. -/
theorem create_run_congr (conn : Conn) (heap polls : Nat) (d1 d2 : ResourceData)
    (calls : List Call) (h : ∀ k ∈ createKeys, d1.GetOk k = d2.GetOk k) :
    (resourceNutanixSubnetCreate conn heap polls d1 calls).calls
      = (resourceNutanixSubnetCreate conn heap polls d2 calls).calls ∧
    (resourceNutanixSubnetCreate conn heap polls d1 calls).err
      = (resourceNutanixSubnetCreate conn heap polls d2 calls).err := by
  have hargs := (createRequest_congr d1 d2 h).1
  have hok : d1.GetOk "name" = d2.GetOk "name" := h "name" (by decide)
  have hget : d1.Get "name" = d2.Get "name" := congrArg Prod.fst hok
  unfold resourceNutanixSubnetCreate
  rw [hargs, hget, hok]
  cases createArguments d2 with
  | error e => exact ⟨rfl, rfl⟩
  | fault => exact ⟨rfl, rfl⟩
  | ok parts =>
    obtain ⟨request, spec, metadata, subnet⟩ := parts
    simp only
    cases (d2.Get "name").asString with
    | error e => exact ⟨rfl, rfl⟩
    | fault => exact ⟨rfl, rfl⟩
    | ok name =>
      cases (d2.GetOk "name").1.asString with
      | error e => exact ⟨rfl, rfl⟩
      | fault => exact ⟨rfl, rfl⟩
      | ok nstr =>
        simp only
        rcases resourceNutanixSubnetExists conn heap name calls with ⟨found, calls1⟩
        cases found with
        | error e => exact ⟨rfl, rfl⟩
        | ok o =>
          cases o with
          | some u => exact ⟨rfl, rfl⟩
          | none =>
            simp only
            cases conn.CreateSubnet calls1 _ with
            | error e => exact ⟨rfl, rfl⟩
            | ok resp =>
              simp only
              cases resp.Metadata.UUID with
              | none => exact ⟨rfl, rfl⟩
              | some uuid =>
                simp only [ResourceData.SetId]
                rcases (createStateConf polls).WaitForState
                  (subnetStateRefreshFunc conn uuid) _ with ⟨w, calls3⟩
                cases w with
                | error e => exact ⟨rfl, rfl⟩
                | fault => exact ⟨rfl, rfl⟩
                | ok r => exact read_same_id conn _ _ calls3 rfl

theorem getOk_fst (d : ResourceData) (k : String) : (d.GetOk k).1 = d.Get k := rfl

theorem getOk_false_zero (d : ResourceData) (k : String) (h : (d.GetOk k).2 = false) :
    d.Get k = zeroOf k := by
  unfold ResourceData.GetOk at h
  simp only [decide_eq_false_iff_not, not_and, not_not] at h
  by_cases hf : d.fields k = none
  · simp only [ResourceData.Get, hf]
  · exact h hf

theorem getOk_of_fields (d1 d2 : ResourceData) (k : String) (h : d1.fields k = d2.fields k) :
    d1.GetOk k = d2.GetOk k := by
  simp only [ResourceData.GetOk, ResourceData.Get, h]

/-- What `getSubnetResources` leaves in the structure it fills, when it
returns. -/
theorem getSubnetResources_ok (d : ResourceData) (s0 subnet : SubnetResources)
    (h : getSubnetResources d s0 = .ok subnet) :
    subnet.VlanID.map Value.int = some (d.Get "vlan_id") ∧
    ((d.GetOk "vswitch_name").2 = false → subnet.VswitchName = s0.VswitchName) ∧
    ((d.GetOk "subnet_type").2 = false → subnet.SubnetType = s0.SubnetType) ∧
    ((d.GetOk "network_function_chain_reference").2 = false →
      subnet.NetworkFunctionChainReference = s0.NetworkFunctionChainReference) ∧
    ((d.GetOk "network_function_chain_reference").2 = true →
      ∃ m r, d.Get "network_function_chain_reference" = .mapIface m ∧
        createReference m = .ok r ∧ subnet.NetworkFunctionChainReference = some r) ∧
    ∃ ip o, subnet.IPConfig = some ip ∧ ip.DHCPOptions = some o ∧
      ((d.GetOk "default_gateway_ip").2 = false → ip.DefaultGatewayIP = none) ∧
      ((d.GetOk "prefix_length").2 = false → ip.PrefixLength = none) ∧
      ((d.GetOk "subnet_ip").2 = false → ip.SubnetIP = none) ∧
      ((d.GetOk "dhcp_server_address").2 = false → ip.DHCPServerAddress = none) ∧
      ((d.GetOk "ip_config_pool_list_ranges").2 = false → ip.PoolList = none) ∧
      ((d.GetOk "dhcp_options").2 = false →
        o.BootFileName = none ∧ o.DomainName = none ∧ o.TFTPServerName = none) ∧
      ((d.GetOk "dhcp_domain_name_server_list").2 = false → o.DomainNameServerList = none) ∧
      ((d.GetOk "dhcp_domain_search_list").2 = false → o.DomainSearchList = none) := by
  unfold getSubnetResources at h
  simp only [Result.bind_def, Result.pure_def] at h
  obtain ⟨s1, hs1, h1⟩ := Result.bind_eq_ok.mp h; clear h
  obtain ⟨s2, hs2, h⟩ := Result.bind_eq_ok.mp h1; clear h1
  obtain ⟨i1, hi1, h1⟩ := Result.bind_eq_ok.mp h; clear h
  obtain ⟨i2, hi2, h⟩ := Result.bind_eq_ok.mp h1; clear h1
  obtain ⟨i3, hi3, h1⟩ := Result.bind_eq_ok.mp h; clear h
  obtain ⟨i4, hi4, h⟩ := Result.bind_eq_ok.mp h1; clear h1
  obtain ⟨i5, hi5, h1⟩ := Result.bind_eq_ok.mp h; clear h
  obtain ⟨o1, ho1, h⟩ := Result.bind_eq_ok.mp h1; clear h1
  obtain ⟨o2, ho2, h1⟩ := Result.bind_eq_ok.mp h; clear h
  obtain ⟨o3, ho3, h⟩ := Result.bind_eq_ok.mp h1; clear h1
  obtain ⟨vlan, hvlan, h1⟩ := Result.bind_eq_ok.mp h; clear h
  obtain ⟨s3, hs3, h⟩ := Result.bind_eq_ok.mp h1; clear h1
  -- the resources
  have S1 : ((d.GetOk "vswitch_name").2 = false → s1.VswitchName = s0.VswitchName) ∧
      s1.SubnetType = s0.SubnetType := by
    revert hs1
    rcases d.GetOk "vswitch_name" with ⟨v, b⟩
    cases b
    · intro hs1
      simp only [Result.ok.injEq] at hs1
      subst hs1
      simp
    · intro hs1
      simp only [Result.bind_eq_ok, Result.ok.injEq] at hs1
      obtain ⟨a, -, rfl⟩ := hs1
      simp
  have S2 : s2.VswitchName = s1.VswitchName ∧
      ((d.GetOk "subnet_type").2 = false → s2.SubnetType = s1.SubnetType) := by
    revert hs2
    rcases d.GetOk "subnet_type" with ⟨v, b⟩
    cases b
    · intro hs2
      simp only [Result.ok.injEq] at hs2
      subst hs2
      simp
    · intro hs2
      simp only [Result.bind_eq_ok, Result.ok.injEq] at hs2
      obtain ⟨a, -, rfl⟩ := hs2
      simp
  -- the IP configuration
  have I1 : ((d.GetOk "default_gateway_ip").2 = false → i1.DefaultGatewayIP = none) ∧
      i1.PrefixLength = none ∧ i1.SubnetIP = none ∧ i1.DHCPServerAddress = none ∧
      i1.PoolList = none := by
    revert hi1
    rcases d.GetOk "default_gateway_ip" with ⟨v, b⟩
    cases b
    · intro hi1
      simp only [Result.ok.injEq] at hi1
      subst hi1
      simp
    · intro hi1
      simp only [Result.bind_eq_ok, Result.ok.injEq] at hi1
      obtain ⟨a, -, rfl⟩ := hi1
      simp
  have I2 : i2.DefaultGatewayIP = i1.DefaultGatewayIP ∧
      ((d.GetOk "prefix_length").2 = false → i2.PrefixLength = i1.PrefixLength) ∧
      i2.SubnetIP = i1.SubnetIP ∧ i2.DHCPServerAddress = i1.DHCPServerAddress ∧
      i2.PoolList = i1.PoolList := by
    revert hi2
    rcases d.GetOk "prefix_length" with ⟨v, b⟩
    cases b
    · intro hi2
      simp only [Result.ok.injEq] at hi2
      subst hi2
      simp
    · intro hi2
      simp only [Result.bind_eq_ok, Result.ok.injEq] at hi2
      obtain ⟨a, -, rfl⟩ := hi2
      simp
  have I3 : i3.DefaultGatewayIP = i2.DefaultGatewayIP ∧ i3.PrefixLength = i2.PrefixLength ∧
      ((d.GetOk "subnet_ip").2 = false → i3.SubnetIP = i2.SubnetIP) ∧
      i3.DHCPServerAddress = i2.DHCPServerAddress ∧ i3.PoolList = i2.PoolList := by
    revert hi3
    rcases d.GetOk "subnet_ip" with ⟨v, b⟩
    cases b
    · intro hi3
      simp only [Result.ok.injEq] at hi3
      subst hi3
      simp
    · intro hi3
      simp only [Result.bind_eq_ok, Result.ok.injEq] at hi3
      obtain ⟨a, -, rfl⟩ := hi3
      simp
  have I4 : i4.DefaultGatewayIP = i3.DefaultGatewayIP ∧ i4.PrefixLength = i3.PrefixLength ∧
      i4.SubnetIP = i3.SubnetIP ∧
      ((d.GetOk "dhcp_server_address").2 = false →
        i4.DHCPServerAddress = i3.DHCPServerAddress) ∧
      i4.PoolList = i3.PoolList := by
    revert hi4
    rcases d.GetOk "dhcp_server_address" with ⟨v, b⟩
    cases b
    · intro hi4
      simp only [Result.ok.injEq] at hi4
      subst hi4
      simp
    · intro hi4
      simp only [Result.bind_eq_ok, Result.ok.injEq] at hi4
      obtain ⟨m, -, a1, -, a2, -, a3, -, a4, -, rfl⟩ := hi4
      simp
  have I5 : i5.DefaultGatewayIP = i4.DefaultGatewayIP ∧ i5.PrefixLength = i4.PrefixLength ∧
      i5.SubnetIP = i4.SubnetIP ∧ i5.DHCPServerAddress = i4.DHCPServerAddress ∧
      ((d.GetOk "ip_config_pool_list_ranges").2 = false → i5.PoolList = i4.PoolList) := by
    revert hi5
    rcases d.GetOk "ip_config_pool_list_ranges" with ⟨v, b⟩
    cases b
    · intro hi5
      simp only [Result.ok.injEq] at hi5
      subst hi5
      simp
    · intro hi5
      simp only [Result.bind_eq_ok, Result.ok.injEq] at hi5
      obtain ⟨a, -, r, -, rfl⟩ := hi5
      simp
  -- the DHCP options
  have O1 : ((d.GetOk "dhcp_options").2 = false →
        o1.BootFileName = none ∧ o1.DomainName = none ∧ o1.TFTPServerName = none) ∧
      o1.DomainNameServerList = none ∧ o1.DomainSearchList = none := by
    revert ho1
    rcases d.GetOk "dhcp_options" with ⟨v, b⟩
    cases b
    · intro ho1
      simp only [Result.ok.injEq] at ho1
      subst ho1
      simp
    · intro ho1
      simp only [Result.bind_eq_ok] at ho1
      obtain ⟨m, -, a1, ha1, a2, ha2, ha3⟩ := ho1
      have e1 : a1.DomainNameServerList = none ∧ a1.DomainSearchList = none := by
        revert ha1
        cases List.lookup "boot_file_name" m with
        | none => intro ha1; simp only [Result.ok.injEq] at ha1; subst ha1; simp
        | some x =>
          intro ha1
          simp only [Result.bind_eq_ok, Result.ok.injEq] at ha1
          obtain ⟨s, -, rfl⟩ := ha1
          simp
      have e2 : a2.DomainNameServerList = a1.DomainNameServerList ∧
          a2.DomainSearchList = a1.DomainSearchList := by
        revert ha2
        cases List.lookup "domain_name" m with
        | none => intro ha2; simp only [Result.ok.injEq] at ha2; subst ha2; simp
        | some x =>
          intro ha2
          simp only [Result.bind_eq_ok, Result.ok.injEq] at ha2
          obtain ⟨s, -, rfl⟩ := ha2
          simp
      have e3 : o1.DomainNameServerList = a2.DomainNameServerList ∧
          o1.DomainSearchList = a2.DomainSearchList := by
        revert ha3
        cases List.lookup "tftp_server_name" m with
        | none => intro ha3; simp only [Result.ok.injEq] at ha3; subst ha3; simp
        | some x =>
          intro ha3
          simp only [Result.bind_eq_ok, Result.ok.injEq] at ha3
          obtain ⟨s, -, rfl⟩ := ha3
          simp
      refine ⟨fun hb => Bool.noConfusion hb, ?_, ?_⟩
      · rw [e3.1, e2.1, e1.1]
      · rw [e3.2, e2.2, e1.2]
  have O2 : o2.BootFileName = o1.BootFileName ∧ o2.DomainName = o1.DomainName ∧
      o2.TFTPServerName = o1.TFTPServerName ∧
      ((d.GetOk "dhcp_domain_name_server_list").2 = false →
        o2.DomainNameServerList = o1.DomainNameServerList) ∧
      o2.DomainSearchList = o1.DomainSearchList := by
    revert ho2
    rcases d.GetOk "dhcp_domain_name_server_list" with ⟨v, b⟩
    cases b
    · intro ho2
      simp only [Result.ok.injEq] at ho2
      subst ho2
      simp
    · intro ho2
      simp only [Result.bind_eq_ok, Result.ok.injEq] at ho2
      obtain ⟨a, -, r, -, rfl⟩ := ho2
      simp
  have O3 : o3.BootFileName = o2.BootFileName ∧ o3.DomainName = o2.DomainName ∧
      o3.TFTPServerName = o2.TFTPServerName ∧
      o3.DomainNameServerList = o2.DomainNameServerList ∧
      ((d.GetOk "dhcp_domain_search_list").2 = false →
        o3.DomainSearchList = o2.DomainSearchList) := by
    revert ho3
    rcases d.GetOk "dhcp_domain_search_list" with ⟨v, b⟩
    cases b
    · intro ho3
      simp only [Result.ok.injEq] at ho3
      subst ho3
      simp
    · intro ho3
      simp only [Result.bind_eq_ok, Result.ok.injEq] at ho3
      obtain ⟨a, -, r, -, rfl⟩ := ho3
      simp
  -- vlan_id
  have hv : d.Get "vlan_id" = .int vlan := Value.asInt_eq_ok.mp hvlan
  have hcond : (decide (vlan = 0) || (d.GetOk "vlan_id").2) = true := by
    cases hb : (d.GetOk "vlan_id").2 with
    | true => simp
    | false =>
      have hz := getOk_false_zero d "vlan_id" hb
      rw [hv] at hz
      have hz2 : zeroOf "vlan_id" = .int 0 := by decide
      rw [hz2] at hz
      simp only [Value.int.injEq] at hz
      simp [hz]
  simp only [hcond, if_true] at hs3
  -- network_function_chain_reference
  have S3 : s3.VswitchName = s2.VswitchName ∧ s3.SubnetType = s2.SubnetType ∧
      s3.VlanID = some vlan ∧
      ((d.GetOk "network_function_chain_reference").2 = false →
        s3.NetworkFunctionChainReference = s2.NetworkFunctionChainReference) ∧
      ((d.GetOk "network_function_chain_reference").2 = true →
        ∃ m r, d.Get "network_function_chain_reference" = .mapIface m ∧
          createReference m = .ok r ∧ s3.NetworkFunctionChainReference = some r) := by
    revert hs3
    rw [← getOk_fst d "network_function_chain_reference"]
    rcases d.GetOk "network_function_chain_reference" with ⟨v, b⟩
    cases b
    · intro hs3
      simp only [Result.ok.injEq] at hs3
      subst hs3
      simp
    · intro hs3
      simp only [Result.bind_eq_ok, Result.ok.injEq] at hs3
      obtain ⟨m, hm, r, hr, rfl⟩ := hs3
      refine ⟨rfl, rfl, rfl, fun hb => Bool.noConfusion hb, fun _ => ⟨m, r, ?_, hr, rfl⟩⟩
      cases v <;> simp [Value.asMap] at hm
      subst hm
      rfl
  have S0 : s2.NetworkFunctionChainReference = s0.NetworkFunctionChainReference := by
    have a1 : s1.NetworkFunctionChainReference = s0.NetworkFunctionChainReference := by
      revert hs1
      rcases d.GetOk "vswitch_name" with ⟨v, b⟩
      cases b
      · intro hs1
        simp only [Result.ok.injEq] at hs1
        subst hs1
        rfl
      · intro hs1
        simp only [Result.bind_eq_ok, Result.ok.injEq] at hs1
        obtain ⟨a, -, rfl⟩ := hs1
        rfl
    have a2 : s2.NetworkFunctionChainReference = s1.NetworkFunctionChainReference := by
      revert hs2
      rcases d.GetOk "subnet_type" with ⟨v, b⟩
      cases b
      · intro hs2
        simp only [Result.ok.injEq] at hs2
        subst hs2
        rfl
      · intro hs2
        simp only [Result.bind_eq_ok, Result.ok.injEq] at hs2
        obtain ⟨a, -, rfl⟩ := hs2
        rfl
    rw [a2, a1]
  simp only [Result.ok.injEq] at h
  subst h
  refine ⟨?_, ?_, ?_, ?_, ?_, _, o3, rfl, rfl, ?_, ?_, ?_, ?_, ?_, ?_, ?_, ?_⟩
  · simp only [S3.2.2.1, Option.map_some', hv]
  · intro hb
    simp only [S3.1, S2.1, S1.1 hb]
  · intro hb
    simp only [S3.2.1, S2.2 hb, S1.2]
  · intro hb
    simp only [S3.2.2.2.1 hb, S0]
  · exact S3.2.2.2.2
  · intro hb
    simp only [I5.1, I4.1, I3.1, I2.1, I1.1 hb]
  · intro hb
    simp only [I5.2.1, I4.2.1, I3.2.1, I2.2.1 hb, I1.2.1]
  · intro hb
    simp only [I5.2.2.1, I4.2.2.1, I3.2.2.1 hb, I2.2.2.1, I1.2.2.1]
  · intro hb
    simp only [I5.2.2.2.1, I4.2.2.2.1 hb, I3.2.2.2.1, I2.2.2.2.1, I1.2.2.2.1]
  · intro hb
    simp only [I5.2.2.2.2 hb, I4.2.2.2.2, I3.2.2.2.2, I2.2.2.2.2, I1.2.2.2.2]
  · intro hb
    simp only [O3.1, O3.2.1, O3.2.2.1, O2.1, O2.2.1, O2.2.2.1, O1.1 hb, and_self]
  · intro hb
    simp only [O3.2.2.2.1, O2.2.2.2.1 hb, O1.2.1]
  · intro hb
    simp only [O3.2.2.2.2 hb, O2.2.2.2.2, O1.2.2]

/-- C19: when `getSubnetResources` returns, the `VlanID` of the request is set
and holds what `d.Get("vlan_id")` returns: the configured value, and `0` when
`vlan_id` is not set. A state without `vlan_id` and the same state with
`vlan_id` set to `0` build the same create request. Every other optional field
of the resources is left nil when its key is not set. -/
theorem C19_vlan_id_always_sent (d : ResourceData) (subnet : SubnetResources)
    (h : getSubnetResources d {} = .ok subnet) :
    subnet.VlanID.map Value.int = some (d.Get "vlan_id") ∧
    (d.fields "vlan_id" = none → subnet.VlanID = some 0) ∧
    (d.fields "vlan_id" = none →
      createRequest (d.Set "vlan_id" (.int 0)) = createRequest d) ∧
    ((d.GetOk "vswitch_name").2 = false → subnet.VswitchName = none) ∧
    ((d.GetOk "subnet_type").2 = false → subnet.SubnetType = none) ∧
    ((d.GetOk "network_function_chain_reference").2 = false →
      subnet.NetworkFunctionChainReference = none) ∧
    ∃ ip o, subnet.IPConfig = some ip ∧ ip.DHCPOptions = some o ∧
      ((d.GetOk "default_gateway_ip").2 = false → ip.DefaultGatewayIP = none) ∧
      ((d.GetOk "prefix_length").2 = false → ip.PrefixLength = none) ∧
      ((d.GetOk "subnet_ip").2 = false → ip.SubnetIP = none) ∧
      ((d.GetOk "dhcp_server_address").2 = false → ip.DHCPServerAddress = none) ∧
      ((d.GetOk "ip_config_pool_list_ranges").2 = false → ip.PoolList = none) ∧
      ((d.GetOk "dhcp_options").2 = false →
        o.BootFileName = none ∧ o.DomainName = none ∧ o.TFTPServerName = none) ∧
      ((d.GetOk "dhcp_domain_name_server_list").2 = false → o.DomainNameServerList = none) ∧
      ((d.GetOk "dhcp_domain_search_list").2 = false → o.DomainSearchList = none) := by
  obtain ⟨hv, hvs, hst, hn, -, hip⟩ := getSubnetResources_ok d {} subnet h
  refine ⟨hv, ?_, ?_, hvs, hst, hn, hip⟩
  · intro hnone
    have hz : d.Get "vlan_id" = .int 0 := by
      simp only [ResourceData.Get, hnone]
      decide
    rw [hz] at hv
    cases hs : subnet.VlanID with
    | none => rw [hs] at hv; simp at hv
    | some n =>
      rw [hs] at hv
      simp only [Option.map_some', Option.some.injEq, Value.int.injEq] at hv
      rw [hv]
  · intro hnone
    refine (createRequest_congr _ _ ?_).2
    intro k _
    by_cases hk : k = "vlan_id"
    · subst hk
      have hz : zeroOf "vlan_id" = .int 0 := by decide
      simp [ResourceData.GetOk, ResourceData.Get, ResourceData.Set, hnone, hz]
    · exact getOk_of_fields _ _ k (by simp [ResourceData.Set, hk])

/-- C19 for the desired state `net1Desired`, where `vlan_id` is not set: the
request carries the VLAN `0`. -/
theorem C19_vlan_id_always_sent_witness :
    net1Desired.fields "vlan_id" = none ∧ net1Resources.VlanID = some 0 ∧
    createRequest (net1Desired.Set "vlan_id" (.int 0)) = createRequest net1Desired :=
  ⟨by decide,
   (C19_vlan_id_always_sent net1Desired net1Resources (by decide)).2.1 (by decide),
   (C19_vlan_id_always_sent net1Desired net1Resources (by decide)).2.2.1 (by decide)⟩

/-- C20: two states that differ at most in the top-level `owner_reference`
build the same create request, and the create handler issues the same calls
and returns the same result for both. The read handler writes the top-level
`owner_reference`, and the update handler reads it: when the key is flagged,
the owner reference of the update request is built from its value. -/
theorem C20_owner_reference_not_sent (d1 d2 : ResourceData)
    (hdiff : ∀ k, k ≠ "owner_reference" → d1.fields k = d2.fields k) :
    createRequest d1 = createRequest d2 ∧
    (∀ (conn : Conn) (heap polls : Nat) (calls : List Call),
      (resourceNutanixSubnetCreate conn heap polls d1 calls).calls
        = (resourceNutanixSubnetCreate conn heap polls d2 calls).calls ∧
      (resourceNutanixSubnetCreate conn heap polls d1 calls).err
        = (resourceNutanixSubnetCreate conn heap polls d2 calls).err) ∧
    (∀ resp, (readResponse resp d1).fields "owner_reference" ≠ none) ∧
    (∀ req, updateRequest d1 = .ok req → d1.HasChange "owner_reference" = true →
      ∃ m r, d1.Get "owner_reference" = .mapIface m ∧ updateReference m = .ok r ∧
        req.Metadata.bind SubnetMetadata.OwnerReference = some r) := by
  have hkeys : ∀ k ∈ createKeys, d1.GetOk k = d2.GetOk k := by
    intro k hk
    apply getOk_of_fields
    apply hdiff
    rintro rfl
    revert hk
    decide
  refine ⟨(createRequest_congr d1 d2 hkeys).2,
    fun conn heap polls calls => create_run_congr conn heap polls d1 d2 calls hkeys, ?_, ?_⟩
  · intro resp
    have ho := readResponse_override resp d1 "owner_reference"
    have hw := List.all_eq_true.mp (readResponse_writes resp d1.id).1 "owner_reference"
      (by decide)
    rw [ho]
    cases hv : (readResponse resp (blank d1.id)).fields "owner_reference" with
    | none => rw [hv] at hw; cases hw
    | some v => simp
  · intro req h hflag
    unfold updateRequest at h
    simp only [Result.bind_def, Result.pure_def] at h
    obtain ⟨m1, -, h1⟩ := Result.bind_eq_ok.mp h; clear h
    obtain ⟨m2, -, h⟩ := Result.bind_eq_ok.mp h1; clear h1
    obtain ⟨m3, hm3, h1⟩ := Result.bind_eq_ok.mp h; clear h
    obtain ⟨m4, hm4, h⟩ := Result.bind_eq_ok.mp h1; clear h1
    obtain ⟨spec1, -, h1⟩ := Result.bind_eq_ok.mp h; clear h
    obtain ⟨spec2, -, h⟩ := Result.bind_eq_ok.mp h1; clear h1
    obtain ⟨spec3, -, h1⟩ := Result.bind_eq_ok.mp h; clear h
    obtain ⟨spec4, -, h⟩ := Result.bind_eq_ok.mp h1; clear h1
    obtain ⟨o1, -, h1⟩ := Result.bind_eq_ok.mp h; clear h
    obtain ⟨o2, -, h⟩ := Result.bind_eq_ok.mp h1; clear h1
    obtain ⟨ip1, -, h1⟩ := Result.bind_eq_ok.mp h; clear h
    obtain ⟨o3, -, h⟩ := Result.bind_eq_ok.mp h1; clear h1
    obtain ⟨res1, -, h1⟩ := Result.bind_eq_ok.mp h; clear h
    obtain ⟨res2, -, h⟩ := Result.bind_eq_ok.mp h1; clear h1
    obtain ⟨res3, -, h1⟩ := Result.bind_eq_ok.mp h; clear h
    obtain ⟨ip2, -, h⟩ := Result.bind_eq_ok.mp h1; clear h1
    obtain ⟨ip3, -, h1⟩ := Result.bind_eq_ok.mp h; clear h
    obtain ⟨ip4, -, h⟩ := Result.bind_eq_ok.mp h1; clear h1
    obtain ⟨ip5, -, h1⟩ := Result.bind_eq_ok.mp h; clear h
    obtain ⟨ip6, -, h⟩ := Result.bind_eq_ok.mp h1; clear h1
    obtain ⟨res4, -, h1⟩ := Result.bind_eq_ok.mp h; clear h
    simp only [Result.ok.injEq] at h1
    subst h1
    simp only [hflag, if_true, Result.bind_eq_ok, Result.ok.injEq] at hm3
    obtain ⟨m, hm, r, hr, rfl⟩ := hm3
    have hget : d1.Get "owner_reference" = .mapIface m := by
      revert hm
      cases d1.Get "owner_reference" <;> simp [Value.asMap]
    have hkeep : m4.OwnerReference = some r := by
      rcases step_ok hm4 with ⟨-, hg⟩ | ⟨-, rfl⟩
      · simp only [Result.bind_eq_ok, Result.ok.injEq] at hg
        obtain ⟨a, -, r2, -, rfl⟩ := hg
        rfl
      · rfl
    exact ⟨m, r, hget, hr, hkeep⟩

/-- C20 for the desired state `net1Desired` and the same state with a top-level
owner reference. -/
theorem C20_owner_reference_not_sent_witness :
    createRequest ownerDesired = createRequest net1Desired ∧
    ownerDesired.fields "owner_reference" ≠ net1Desired.fields "owner_reference" :=
  ⟨(C20_owner_reference_not_sent ownerDesired net1Desired
      (by intro k hk; simp [ownerDesired, ResourceData.Set, hk])).1,
   by decide⟩

/-! ## References in the requests (C15) -/

theorem elemString_eq_ok {o : Option Elem} {s : String} :
    Elem.asString o = .ok s ↔ o = some (.str s) := by
  cases o with
  | none => simp [Elem.asString]
  | some e => cases e <;> simp [Elem.asString]

theorem atomString_eq_ok {o : Option Atom} {s : String} :
    Atom.asString o = .ok s ↔ o = some (.str s) := by
  cases o with
  | none => simp [Atom.asString]
  | some e => cases e <;> simp [Atom.asString]

theorem valueMap_eq_ok {v : Value} {m : List (String × Elem)} :
    v.asMap = .ok m ↔ v = .mapIface m := by
  cases v <;> simp [Value.asMap]

theorem elemMap_eq_ok {o : Option Elem} {m : List (String × Atom)} :
    Elem.asMap o = .ok m ↔ o = some (.map m) := by
  cases o with
  | none => simp [Elem.asMap]
  | some e => cases e <;> simp [Elem.asMap]

/-- A reference of the create path is built only from a map that has `kind`
and `uuid`, and carries both. -/
theorem createReference_ok (a : List (String × Elem)) (r : Reference)
    (h : createReference a = .ok r) :
    ∃ k u, a.lookup "kind" = some (.str k) ∧ a.lookup "uuid" = some (.str u) ∧
      r.Kind = some k ∧ r.UUID = some u := by
  unfold createReference at h
  simp only [Result.bind_def, Result.pure_def] at h
  obtain ⟨k, hk, h1⟩ := Result.bind_eq_ok.mp h
  obtain ⟨u, hu, h2⟩ := Result.bind_eq_ok.mp h1
  refine ⟨k, u, elemString_eq_ok.mp hk, elemString_eq_ok.mp hu, ?_⟩
  split at h2
  · simp only [Result.bind_eq_ok, Result.ok.injEq] at h2
    obtain ⟨n, -, rfl⟩ := h2
    exact ⟨rfl, rfl⟩
  · simp only [Result.ok.injEq] at h2
    subst h2
    exact ⟨rfl, rfl⟩

theorem createReferenceNested_ok (a : List (String × Atom)) (r : Reference)
    (h : createReferenceNested a = .ok r) :
    ∃ k u, a.lookup "kind" = some (.str k) ∧ a.lookup "uuid" = some (.str u) ∧
      r.Kind = some k ∧ r.UUID = some u := by
  unfold createReferenceNested at h
  simp only [Result.bind_def, Result.pure_def] at h
  obtain ⟨k, hk, h1⟩ := Result.bind_eq_ok.mp h
  obtain ⟨u, hu, h2⟩ := Result.bind_eq_ok.mp h1
  refine ⟨k, u, atomString_eq_ok.mp hk, atomString_eq_ok.mp hu, ?_⟩
  split at h2
  · simp only [Result.bind_eq_ok, Result.ok.injEq] at h2
    obtain ⟨n, -, rfl⟩ := h2
    exact ⟨rfl, rfl⟩
  · simp only [Result.ok.injEq] at h2
    subst h2
    exact ⟨rfl, rfl⟩

theorem updateReference_ok (a : List (String × Elem)) (r : Reference)
    (h : updateReference a = .ok r) :
    ∃ k u n, a.lookup "kind" = some (.str k) ∧ a.lookup "uuid" = some (.str u) ∧
      a.lookup "name" = some (.str n) ∧
      r.Kind = some k ∧ r.UUID = some u ∧ r.Name = some n := by
  unfold updateReference at h
  simp only [Result.bind_def, Result.pure_def] at h
  obtain ⟨k, hk, h1⟩ := Result.bind_eq_ok.mp h
  obtain ⟨u, hu, h2⟩ := Result.bind_eq_ok.mp h1
  obtain ⟨n, hn, h3⟩ := Result.bind_eq_ok.mp h2
  simp only [Result.ok.injEq] at h3
  subst h3
  exact ⟨k, u, n, elemString_eq_ok.mp hk, elemString_eq_ok.mp hu,
    elemString_eq_ok.mp hn, rfl, rfl, rfl⟩

theorem refOk_none : RefOk none := by
  intro r h
  cases h

theorem refOk_some (r : Reference) (hk : r.Kind ≠ none) (hu : r.UUID ≠ none) :
    RefOk (some r) := by
  intro r2 h
  simp only [Option.some.injEq] at h
  subst h
  exact ⟨hk, hu⟩

theorem refOk_create (a : List (String × Elem)) (r : Reference)
    (h : createReference a = .ok r) : RefOk (some r) := by
  obtain ⟨k, u, -, -, hk, hu⟩ := createReference_ok a r h
  exact refOk_some r (by simp [hk]) (by simp [hu])

theorem refOk_createNested (a : List (String × Atom)) (r : Reference)
    (h : createReferenceNested a = .ok r) : RefOk (some r) := by
  obtain ⟨k, u, -, -, hk, hu⟩ := createReferenceNested_ok a r h
  exact refOk_some r (by simp [hk]) (by simp [hu])

theorem refOk_update (a : List (String × Elem)) (r : Reference)
    (h : updateReference a = .ok r) : RefOk (some r) := by
  obtain ⟨k, u, n, -, -, -, hk, hu, -⟩ := updateReference_ok a r h
  exact refOk_some r (by simp [hk]) (by simp [hu])

/-- The entries `uuid`, `spec_version`, `spec_hash` and `name` of the metadata
map leave the kind and the two references of the metadata as they were. -/
theorem metadataEntries_frame (metad : List (String × Elem)) (m0 metadata : SubnetMetadata)
    (h : metadataEntries metad m0 = .ok metadata) :
    metadata.Kind = m0.Kind ∧ metadata.OwnerReference = m0.OwnerReference ∧
    metadata.ProjectReference = m0.ProjectReference := by
  unfold metadataEntries at h
  simp only [Result.bind_def, Result.pure_def] at h
  obtain ⟨m1, h1, h⟩ := Result.bind_eq_ok.mp h
  obtain ⟨m2, h2, h⟩ := Result.bind_eq_ok.mp h
  obtain ⟨m3, h3, h4⟩ := Result.bind_eq_ok.mp h
  have F1 : m1.Kind = m0.Kind ∧ m1.OwnerReference = m0.OwnerReference ∧
      m1.ProjectReference = m0.ProjectReference := by
    split at h1
    · split at h1
      · simp only [Result.bind_eq_ok, Result.ok.injEq] at h1
        obtain ⟨s, -, rfl⟩ := h1
        exact ⟨rfl, rfl, rfl⟩
      · simp only [Result.ok.injEq] at h1
        subst h1
        exact ⟨rfl, rfl, rfl⟩
    · simp only [Result.ok.injEq] at h1
      subst h1
      exact ⟨rfl, rfl, rfl⟩
  have F2 : m2.Kind = m1.Kind ∧ m2.OwnerReference = m1.OwnerReference ∧
      m2.ProjectReference = m1.ProjectReference := by
    split at h2
    · split at h2
      · simp only [Result.bind_eq_ok] at h2
        obtain ⟨s, -, h2⟩ := h2
        split at h2
        · cases h2
        · simp only [Result.ok.injEq] at h2
          subst h2
          exact ⟨rfl, rfl, rfl⟩
      · simp only [Result.ok.injEq] at h2
        subst h2
        exact ⟨rfl, rfl, rfl⟩
    · simp only [Result.ok.injEq] at h2
      subst h2
      exact ⟨rfl, rfl, rfl⟩
  have F3 : m3.Kind = m2.Kind ∧ m3.OwnerReference = m2.OwnerReference ∧
      m3.ProjectReference = m2.ProjectReference := by
    split at h3
    · split at h3
      · simp only [Result.bind_eq_ok, Result.ok.injEq] at h3
        obtain ⟨s, -, rfl⟩ := h3
        exact ⟨rfl, rfl, rfl⟩
      · simp only [Result.ok.injEq] at h3
        subst h3
        exact ⟨rfl, rfl, rfl⟩
    · simp only [Result.ok.injEq] at h3
      subst h3
      exact ⟨rfl, rfl, rfl⟩
  have F4 : metadata.Kind = m3.Kind ∧ metadata.OwnerReference = m3.OwnerReference ∧
      metadata.ProjectReference = m3.ProjectReference := by
    split at h4
    · simp only [Result.bind_eq_ok, Result.ok.injEq] at h4
      obtain ⟨s, -, rfl⟩ := h4
      exact ⟨rfl, rfl, rfl⟩
    · simp only [Result.ok.injEq] at h4
      subst h4
      exact ⟨rfl, rfl, rfl⟩
  exact ⟨by rw [F4.1, F3.1, F2.1, F1.1], by rw [F4.2.1, F3.2.1, F2.2.1, F1.2.1],
    by rw [F4.2.2, F3.2.2, F2.2.2, F1.2.2]⟩

/-- What `getSubnetMetadaAttributes` leaves in the structure it fills, when it
returns. -/
theorem getSubnetMetadaAttributes_ok (d : ResourceData) (m0 metadata : SubnetMetadata)
    (h : getSubnetMetadaAttributes d m0 = .ok metadata) :
    (d.GetOk "metadata").2 = true ∧
    ∃ metad kind, d.Get "metadata" = .mapIface metad ∧
      metad.lookup "kind" = some (.str kind) ∧ metadata.Kind = some kind ∧
      ((d.GetOk "project_reference").2 = false →
        metadata.ProjectReference = m0.ProjectReference) ∧
      ((d.GetOk "project_reference").2 = true →
        ∃ m r, d.Get "project_reference" = .mapIface m ∧ createReference m = .ok r ∧
          metadata.ProjectReference = some r) ∧
      (metad.lookup "owner_reference" = none →
        metadata.OwnerReference = m0.OwnerReference) ∧
      (∀ o, metad.lookup "owner_reference" = some o →
        ∃ m r, o = .map m ∧ createReferenceNested m = .ok r ∧
          metadata.OwnerReference = some r) := by
  unfold getSubnetMetadaAttributes at h
  simp only [Result.bind_def, Result.pure_def] at h
  obtain ⟨metad, hmetad, h⟩ := Result.bind_eq_ok.mp h
  have hmok : (d.GetOk "metadata").2 = true := by
    cases hb : (d.GetOk "metadata").2 with
    | true => rfl
    | false => simp [hb] at h
  simp only [hmok, Bool.not_true, Bool.false_eq_true, if_false] at h
  obtain ⟨kind, hkind, h⟩ := Result.bind_eq_ok.mp h
  obtain ⟨m1, h1, h⟩ := Result.bind_eq_ok.mp h
  obtain ⟨m2, h2, h⟩ := Result.bind_eq_ok.mp h
  obtain ⟨m3, h3, h4⟩ := Result.bind_eq_ok.mp h
  have F1 := metadataEntries_frame metad _ m1 h1
  simp only at F1
  have F2 : m2.Kind = m1.Kind ∧ m2.OwnerReference = m1.OwnerReference ∧
      m2.ProjectReference = m1.ProjectReference := by
    revert h2
    rcases d.GetOk "categories" with ⟨v, b⟩
    cases b
    · intro h2
      simp only [Result.ok.injEq] at h2
      subst h2
      exact ⟨rfl, rfl, rfl⟩
    · intro h2
      simp only [Result.bind_eq_ok, Result.ok.injEq] at h2
      obtain ⟨c, -, l, -, rfl⟩ := h2
      exact ⟨rfl, rfl, rfl⟩
  have F3 : m3.Kind = m2.Kind ∧ m3.OwnerReference = m2.OwnerReference ∧
      ((d.GetOk "project_reference").2 = false →
        m3.ProjectReference = m2.ProjectReference) ∧
      ((d.GetOk "project_reference").2 = true →
        ∃ m r, d.Get "project_reference" = .mapIface m ∧ createReference m = .ok r ∧
          m3.ProjectReference = some r) := by
    revert h3
    rw [← getOk_fst d "project_reference"]
    rcases d.GetOk "project_reference" with ⟨v, b⟩
    cases b
    · intro h3
      simp only [Result.ok.injEq] at h3
      subst h3
      exact ⟨rfl, rfl, fun _ => rfl, fun hb => Bool.noConfusion hb⟩
    · intro h3
      simp only [Result.bind_eq_ok, Result.ok.injEq] at h3
      obtain ⟨m, hm, r, hr, rfl⟩ := h3
      exact ⟨rfl, rfl, fun hb => Bool.noConfusion hb,
        fun _ => ⟨m, r, valueMap_eq_ok.mp hm, hr, rfl⟩⟩
  have F4 : metadata.Kind = m3.Kind ∧ metadata.ProjectReference = m3.ProjectReference ∧
      (metad.lookup "owner_reference" = none →
        metadata.OwnerReference = m3.OwnerReference) ∧
      (∀ o, metad.lookup "owner_reference" = some o →
        ∃ m r, o = .map m ∧ createReferenceNested m = .ok r ∧
          metadata.OwnerReference = some r) := by
    revert h4
    cases List.lookup "owner_reference" metad with
    | none =>
      intro h4
      simp only [Result.ok.injEq] at h4
      subst h4
      exact ⟨rfl, rfl, fun _ => rfl, fun o ho => Option.noConfusion ho⟩
    | some o =>
      intro h4
      simp only [Result.bind_eq_ok, Result.ok.injEq] at h4
      obtain ⟨m, hm, r, hr, rfl⟩ := h4
      refine ⟨rfl, rfl, fun ho => Option.noConfusion ho, ?_⟩
      intro o2 ho2
      simp only [Option.some.injEq] at ho2
      subst ho2
      have := elemMap_eq_ok.mp hm
      simp only [Option.some.injEq] at this
      exact ⟨m, r, this, hr, rfl⟩
  refine ⟨hmok, metad, kind, valueMap_eq_ok.mp hmetad, elemString_eq_ok.mp hkind,
    ?_, ?_, ?_, ?_, ?_⟩
  · rw [F4.1, F3.1, F2.1, F1.1]
  · intro hb
    rw [F4.2.1, F3.2.2.1 hb, F2.2.2, F1.2.2]
  · intro hb
    obtain ⟨m, r, hm, hr, hp⟩ := F3.2.2.2 hb
    exact ⟨m, r, hm, hr, by rw [F4.2.1, hp]⟩
  · intro ho
    rw [F4.2.2.1 ho, F3.2.1, F2.2.1, F1.2.1]
  · exact F4.2.2.2

/-- What lines 34 to 88 of the create handler have built when they are
passed. -/
theorem createArguments_ok (d : ResourceData) (request : SubnetIntentInput) (spec : Subnet)
    (metadata : SubnetMetadata) (subnet : SubnetResources)
    (h : createArguments d = .ok (request, spec, metadata, subnet)) :
    (d.GetOk "name").2 = true ∧
    getSubnetMetadaAttributes d {} = .ok metadata ∧
    getSubnetResources d {} = .ok subnet ∧
    ((d.GetOk "availability_zone_reference").2 = false →
      spec.AvailabilityZoneReference = none) ∧
    ((d.GetOk "availability_zone_reference").2 = true →
      ∃ m r, d.Get "availability_zone_reference" = .mapIface m ∧
        createReference m = .ok r ∧ spec.AvailabilityZoneReference = some r) ∧
    ((d.GetOk "cluster_reference").2 = false → spec.ClusterReference = none) ∧
    ((d.GetOk "cluster_reference").2 = true →
      ∃ m r, d.Get "cluster_reference" = .mapIface m ∧
        createReference m = .ok r ∧ spec.ClusterReference = some r) := by
  unfold createArguments at h
  simp only [Result.bind_def, Result.pure_def] at h
  split at h
  · cases h
  obtain ⟨req1, -, h⟩ := Result.bind_eq_ok.mp h
  have hname : (d.GetOk "name").2 = true := by
    cases hb : (d.GetOk "name").2 with
    | true => rfl
    | false => simp [hb] at h
  simp only [hname, Bool.not_true, Bool.false_eq_true, if_false] at h
  obtain ⟨md, hmd, h⟩ := Result.bind_eq_ok.mp h
  obtain ⟨sp1, hsp1, h⟩ := Result.bind_eq_ok.mp h
  obtain ⟨sp2, hsp2, h⟩ := Result.bind_eq_ok.mp h
  obtain ⟨sp3, hsp3, h⟩ := Result.bind_eq_ok.mp h
  obtain ⟨sn, hsn, h⟩ := Result.bind_eq_ok.mp h
  simp only [Result.ok.injEq, Prod.mk.injEq] at h
  obtain ⟨-, rfl, rfl, rfl⟩ := h
  have S1 : sp1.AvailabilityZoneReference = none ∧ sp1.ClusterReference = none := by
    rcases step_ok hsp1 with ⟨-, hg⟩ | ⟨-, rfl⟩
    · simp only [Result.bind_eq_ok, Result.ok.injEq] at hg
      obtain ⟨s, -, rfl⟩ := hg
      exact ⟨rfl, rfl⟩
    · exact ⟨rfl, rfl⟩
  have S2 : ((d.GetOk "availability_zone_reference").2 = false →
        sp2.AvailabilityZoneReference = sp1.AvailabilityZoneReference) ∧
      ((d.GetOk "availability_zone_reference").2 = true →
        ∃ m r, d.Get "availability_zone_reference" = .mapIface m ∧
          createReference m = .ok r ∧ sp2.AvailabilityZoneReference = some r) ∧
      sp2.ClusterReference = sp1.ClusterReference := by
    rcases step_ok hsp2 with ⟨hc, hg⟩ | ⟨hc, rfl⟩
    · simp only [Result.bind_eq_ok, Result.ok.injEq] at hg
      obtain ⟨m, hm, r, hr, rfl⟩ := hg
      refine ⟨fun hb => ?_, fun _ => ⟨m, r, valueMap_eq_ok.mp hm, hr, rfl⟩, rfl⟩
      rw [hc] at hb
      cases hb
    · refine ⟨fun _ => rfl, fun hb => ?_, rfl⟩
      rw [hc] at hb
      cases hb
  have S3 : sp3.AvailabilityZoneReference = sp2.AvailabilityZoneReference ∧
      ((d.GetOk "cluster_reference").2 = false →
        sp3.ClusterReference = sp2.ClusterReference) ∧
      ((d.GetOk "cluster_reference").2 = true →
        ∃ m r, d.Get "cluster_reference" = .mapIface m ∧
          createReference m = .ok r ∧ sp3.ClusterReference = some r) := by
    rcases step_ok hsp3 with ⟨hc, hg⟩ | ⟨hc, rfl⟩
    · simp only [Result.bind_eq_ok, Result.ok.injEq] at hg
      obtain ⟨m, hm, r, hr, rfl⟩ := hg
      refine ⟨rfl, fun hb => ?_, fun _ => ⟨m, r, valueMap_eq_ok.mp hm, hr, rfl⟩⟩
      rw [hc] at hb
      cases hb
    · refine ⟨rfl, fun _ => rfl, fun hb => ?_⟩
      rw [hc] at hb
      cases hb
  refine ⟨hname, hmd, hsn, ?_, ?_, ?_, ?_⟩
  · intro hb
    rw [S3.1, S2.1 hb, S1.1]
  · intro hb
    obtain ⟨m, r, hm, hr, hz⟩ := S2.2.1 hb
    exact ⟨m, r, hm, hr, by rw [S3.1, hz]⟩
  · intro hb
    rw [S3.2.1 hb, S2.2.2, S1.2]
  · exact S3.2.2

/-- What lines 351 to 507 of the update handler have built when they are
passed: the five references and the DHCP server address of the request. -/
theorem updateRequest_ok (d : ResourceData) (req : SubnetIntentInput)
    (h : updateRequest d = .ok req) :
    ∃ metadata spec res ipcfg,
      req.Metadata = some metadata ∧ req.Spec = some spec ∧
      spec.Resources = some res ∧ res.IPConfig = some ipcfg ∧
      (d.HasChange "owner_reference" = false → metadata.OwnerReference = none) ∧
      (d.HasChange "owner_reference" = true →
        ∃ m r, d.Get "owner_reference" = .mapIface m ∧ updateReference m = .ok r ∧
          metadata.OwnerReference = some r) ∧
      (d.HasChange "project_reference" = false → metadata.ProjectReference = none) ∧
      (d.HasChange "project_reference" = true →
        ∃ m r, d.Get "project_reference" = .mapIface m ∧ updateReference m = .ok r ∧
          metadata.ProjectReference = some r) ∧
      (d.HasChange "availability_zone_reference" = false →
        spec.AvailabilityZoneReference = none) ∧
      (d.HasChange "availability_zone_reference" = true →
        ∃ m r, d.Get "availability_zone_reference" = .mapIface m ∧
          updateReference m = .ok r ∧ spec.AvailabilityZoneReference = some r) ∧
      (d.HasChange "cluster_reference" = false → spec.ClusterReference = none) ∧
      (d.HasChange "cluster_reference" = true →
        ∃ m r, d.Get "cluster_reference" = .mapIface m ∧ updateReference m = .ok r ∧
          spec.ClusterReference = some r) ∧
      (d.HasChange "network_function_chain_reference" = false →
        res.NetworkFunctionChainReference = none) ∧
      (d.HasChange "network_function_chain_reference" = true →
        ∃ m r, d.Get "network_function_chain_reference" = .mapIface m ∧
          updateReference m = .ok r ∧ res.NetworkFunctionChainReference = some r) ∧
      (d.HasChange "dhcp_server_address" = false →
        d.HasChange "dhcp_server_address_port" = false ∧ ipcfg.DHCPServerAddress = none) ∧
      (d.HasChange "dhcp_server_address" = true →
        ∃ dh ip ipv6 fqdn a,
          d.Get "dhcp_server_address" = .mapIface dh ∧
          dh.lookup "ip" = some (.str ip) ∧ dh.lookup "ipv6" = some (.str ipv6) ∧
          dh.lookup "fqdn" = some (.str fqdn) ∧
          ipcfg.DHCPServerAddress = some a ∧
          a.IP = some ip ∧ a.IPV6 = some ipv6 ∧ a.FQDN = some fqdn ∧
          (d.HasChange "dhcp_server_address_port" = false → a.Port = none) ∧
          (d.HasChange "dhcp_server_address_port" = true →
            ∃ port, d.Get "dhcp_server_address_port" = .int port ∧ a.Port = some port)) := by
  unfold updateRequest at h
  simp only [Result.bind_def, Result.pure_def] at h
  obtain ⟨m1, hm1, h1⟩ := Result.bind_eq_ok.mp h; clear h
  obtain ⟨m2, hm2, h⟩ := Result.bind_eq_ok.mp h1; clear h1
  obtain ⟨m3, hm3, h1⟩ := Result.bind_eq_ok.mp h; clear h
  obtain ⟨m4, hm4, h⟩ := Result.bind_eq_ok.mp h1; clear h1
  obtain ⟨spec1, hs1, h1⟩ := Result.bind_eq_ok.mp h; clear h
  obtain ⟨spec2, hs2, h⟩ := Result.bind_eq_ok.mp h1; clear h1
  obtain ⟨spec3, hs3, h1⟩ := Result.bind_eq_ok.mp h; clear h
  obtain ⟨spec4, hs4, h⟩ := Result.bind_eq_ok.mp h1; clear h1
  obtain ⟨o1, -, h1⟩ := Result.bind_eq_ok.mp h; clear h
  obtain ⟨o2, -, h⟩ := Result.bind_eq_ok.mp h1; clear h1
  obtain ⟨ip1, hi1, h1⟩ := Result.bind_eq_ok.mp h; clear h
  obtain ⟨o3, -, h⟩ := Result.bind_eq_ok.mp h1; clear h1
  obtain ⟨res1, hr1, h1⟩ := Result.bind_eq_ok.mp h; clear h
  obtain ⟨res2, hr2, h⟩ := Result.bind_eq_ok.mp h1; clear h1
  obtain ⟨res3, hr3, h1⟩ := Result.bind_eq_ok.mp h; clear h
  obtain ⟨ip2, hi2, h⟩ := Result.bind_eq_ok.mp h1; clear h1
  obtain ⟨ip3, hi3, h1⟩ := Result.bind_eq_ok.mp h; clear h
  obtain ⟨ip4, hi4, h⟩ := Result.bind_eq_ok.mp h1; clear h1
  obtain ⟨ip5, hi5, h1⟩ := Result.bind_eq_ok.mp h; clear h
  obtain ⟨ip6, hi6, h⟩ := Result.bind_eq_ok.mp h1; clear h1
  obtain ⟨res4, hr4, h1⟩ := Result.bind_eq_ok.mp h; clear h
  simp only [Result.ok.injEq] at h1
  subst h1
  -- metadata
  have M1 : m1.OwnerReference = none ∧ m1.ProjectReference = none := by
    rcases step_ok hm1 with ⟨-, hg⟩ | ⟨-, rfl⟩
    · simp only [Result.bind_eq_ok] at hg
      obtain ⟨metad, -, hg⟩ := hg
      have F := metadataEntries_frame metad _ m1 hg
      exact ⟨F.2.1, F.2.2⟩
    · exact ⟨rfl, rfl⟩
  have M2 : m2.OwnerReference = m1.OwnerReference ∧
      m2.ProjectReference = m1.ProjectReference := by
    rcases step_ok hm2 with ⟨-, hg⟩ | ⟨-, rfl⟩
    · simp only [Result.bind_eq_ok, Result.ok.injEq] at hg
      obtain ⟨p, -, l, -, rfl⟩ := hg
      exact ⟨rfl, rfl⟩
    · exact ⟨rfl, rfl⟩
  have M3 : (d.HasChange "owner_reference" = false →
        m3.OwnerReference = m2.OwnerReference) ∧
      (d.HasChange "owner_reference" = true →
        ∃ m r, d.Get "owner_reference" = .mapIface m ∧ updateReference m = .ok r ∧
          m3.OwnerReference = some r) ∧
      m3.ProjectReference = m2.ProjectReference := by
    rcases step_ok hm3 with ⟨hc, hg⟩ | ⟨hc, rfl⟩
    · simp only [Result.bind_eq_ok, Result.ok.injEq] at hg
      obtain ⟨m, hm, r, hr, rfl⟩ := hg
      refine ⟨fun hb => ?_, fun _ => ⟨m, r, valueMap_eq_ok.mp hm, hr, rfl⟩, rfl⟩
      rw [hc] at hb
      cases hb
    · refine ⟨fun _ => rfl, fun hb => ?_, rfl⟩
      rw [hc] at hb
      cases hb
  have M4 : m4.OwnerReference = m3.OwnerReference ∧
      (d.HasChange "project_reference" = false →
        m4.ProjectReference = m3.ProjectReference) ∧
      (d.HasChange "project_reference" = true →
        ∃ m r, d.Get "project_reference" = .mapIface m ∧ updateReference m = .ok r ∧
          m4.ProjectReference = some r) := by
    rcases step_ok hm4 with ⟨hc, hg⟩ | ⟨hc, rfl⟩
    · simp only [Result.bind_eq_ok, Result.ok.injEq] at hg
      obtain ⟨m, hm, r, hr, rfl⟩ := hg
      refine ⟨rfl, fun hb => ?_, fun _ => ⟨m, r, valueMap_eq_ok.mp hm, hr, rfl⟩⟩
      rw [hc] at hb
      cases hb
    · refine ⟨rfl, fun _ => rfl, fun hb => ?_⟩
      rw [hc] at hb
      cases hb
  -- spec
  have S1 : spec1.AvailabilityZoneReference = none ∧ spec1.ClusterReference = none := by
    rcases step_ok hs1 with ⟨-, hg⟩ | ⟨-, rfl⟩
    · simp only [Result.bind_eq_ok, Result.ok.injEq] at hg
      obtain ⟨s, -, rfl⟩ := hg
      exact ⟨rfl, rfl⟩
    · exact ⟨rfl, rfl⟩
  have S2 : spec2.AvailabilityZoneReference = spec1.AvailabilityZoneReference ∧
      spec2.ClusterReference = spec1.ClusterReference := by
    rcases step_ok hs2 with ⟨-, hg⟩ | ⟨-, rfl⟩
    · simp only [Result.bind_eq_ok, Result.ok.injEq] at hg
      obtain ⟨s, -, rfl⟩ := hg
      exact ⟨rfl, rfl⟩
    · exact ⟨rfl, rfl⟩
  have S3 : (d.HasChange "availability_zone_reference" = false →
        spec3.AvailabilityZoneReference = spec2.AvailabilityZoneReference) ∧
      (d.HasChange "availability_zone_reference" = true →
        ∃ m r, d.Get "availability_zone_reference" = .mapIface m ∧
          updateReference m = .ok r ∧ spec3.AvailabilityZoneReference = some r) ∧
      spec3.ClusterReference = spec2.ClusterReference := by
    rcases step_ok hs3 with ⟨hc, hg⟩ | ⟨hc, rfl⟩
    · simp only [Result.bind_eq_ok, Result.ok.injEq] at hg
      obtain ⟨m, hm, r, hr, rfl⟩ := hg
      refine ⟨fun hb => ?_, fun _ => ⟨m, r, valueMap_eq_ok.mp hm, hr, rfl⟩, rfl⟩
      rw [hc] at hb
      cases hb
    · refine ⟨fun _ => rfl, fun hb => ?_, rfl⟩
      rw [hc] at hb
      cases hb
  have S4 : spec4.AvailabilityZoneReference = spec3.AvailabilityZoneReference ∧
      (d.HasChange "cluster_reference" = false →
        spec4.ClusterReference = spec3.ClusterReference) ∧
      (d.HasChange "cluster_reference" = true →
        ∃ m r, d.Get "cluster_reference" = .mapIface m ∧ updateReference m = .ok r ∧
          spec4.ClusterReference = some r) := by
    rcases step_ok hs4 with ⟨hc, hg⟩ | ⟨hc, rfl⟩
    · simp only [Result.bind_eq_ok, Result.ok.injEq] at hg
      obtain ⟨m, hm, r, hr, rfl⟩ := hg
      refine ⟨rfl, fun hb => ?_, fun _ => ⟨m, r, valueMap_eq_ok.mp hm, hr, rfl⟩⟩
      rw [hc] at hb
      cases hb
    · refine ⟨rfl, fun _ => rfl, fun hb => ?_⟩
      rw [hc] at hb
      cases hb
  -- resources
  have R1 : (d.HasChange "network_function_chain_reference" = false →
        res1.NetworkFunctionChainReference = none) ∧
      (d.HasChange "network_function_chain_reference" = true →
        ∃ m r, d.Get "network_function_chain_reference" = .mapIface m ∧
          updateReference m = .ok r ∧ res1.NetworkFunctionChainReference = some r) := by
    rcases step_ok hr1 with ⟨hc, hg⟩ | ⟨hc, rfl⟩
    · simp only [Result.bind_eq_ok, Result.ok.injEq] at hg
      obtain ⟨m, hm, r, hr, rfl⟩ := hg
      refine ⟨fun hb => ?_, fun _ => ⟨m, r, valueMap_eq_ok.mp hm, hr, rfl⟩⟩
      rw [hc] at hb
      cases hb
    · refine ⟨fun _ => rfl, fun hb => ?_⟩
      rw [hc] at hb
      cases hb
  have R2 : res2.NetworkFunctionChainReference = res1.NetworkFunctionChainReference := by
    rcases step_ok hr2 with ⟨-, hg⟩ | ⟨-, rfl⟩
    · simp only [Result.bind_eq_ok, Result.ok.injEq] at hg
      obtain ⟨s, -, rfl⟩ := hg
      rfl
    · rfl
  have R3 : res3.NetworkFunctionChainReference = res2.NetworkFunctionChainReference := by
    rcases step_ok hr3 with ⟨-, hg⟩ | ⟨-, rfl⟩
    · simp only [Result.bind_eq_ok, Result.ok.injEq] at hg
      obtain ⟨s, -, rfl⟩ := hg
      rfl
    · rfl
  have R4 : res4.NetworkFunctionChainReference = res3.NetworkFunctionChainReference := by
    rcases step_ok hr4 with ⟨-, hg⟩ | ⟨-, rfl⟩
    · simp only [Result.bind_eq_ok, Result.ok.injEq] at hg
      obtain ⟨s, -, rfl⟩ := hg
      rfl
    · rfl
  -- ip config
  have I1 : ip1.DHCPServerAddress = none := by
    rcases step_ok hi1 with ⟨-, hg⟩ | ⟨-, rfl⟩
    · simp only [Result.bind_eq_ok, Result.ok.injEq] at hg
      obtain ⟨s, -, rfl⟩ := hg
      rfl
    · rfl
  have I2 : ip2.DHCPServerAddress = ip1.DHCPServerAddress := by
    rcases step_ok hi2 with ⟨-, hg⟩ | ⟨-, rfl⟩
    · simp only [Result.bind_eq_ok, Result.ok.injEq] at hg
      obtain ⟨s, -, rfl⟩ := hg
      rfl
    · rfl
  have I3 : ip3.DHCPServerAddress = ip2.DHCPServerAddress := by
    rcases step_ok hi3 with ⟨-, hg⟩ | ⟨-, rfl⟩
    · simp only [Result.bind_eq_ok, Result.ok.injEq] at hg
      obtain ⟨s, -, rfl⟩ := hg
      rfl
    · rfl
  have I4 : ip4.DHCPServerAddress = ip3.DHCPServerAddress := by
    rcases step_ok hi4 with ⟨-, hg⟩ | ⟨-, rfl⟩
    · simp only [Result.bind_eq_ok, Result.ok.injEq] at hg
      obtain ⟨s, -, rfl⟩ := hg
      rfl
    · rfl
  have I5 : (d.HasChange "dhcp_server_address" = false →
        ip5.DHCPServerAddress = ip4.DHCPServerAddress) ∧
      (d.HasChange "dhcp_server_address" = true →
        ∃ dh ip ipv6 fqdn, d.Get "dhcp_server_address" = .mapIface dh ∧
          dh.lookup "ip" = some (.str ip) ∧ dh.lookup "ipv6" = some (.str ipv6) ∧
          dh.lookup "fqdn" = some (.str fqdn) ∧
          ip5.DHCPServerAddress
            = some { IP := some ip, IPV6 := some ipv6, FQDN := some fqdn }) := by
    rcases step_ok hi5 with ⟨hc, hg⟩ | ⟨hc, rfl⟩
    · simp only [Result.bind_eq_ok, Result.ok.injEq] at hg
      obtain ⟨dh, hdh, ip, hip, ipv6, hipv6, fqdn, hfqdn, rfl⟩ := hg
      refine ⟨fun hb => ?_, fun _ => ⟨dh, ip, ipv6, fqdn, valueMap_eq_ok.mp hdh,
        elemString_eq_ok.mp hip, elemString_eq_ok.mp hipv6,
        elemString_eq_ok.mp hfqdn, rfl⟩⟩
      rw [hc] at hb
      cases hb
    · refine ⟨fun _ => rfl, fun hb => ?_⟩
      rw [hc] at hb
      cases hb
  have I6 : (d.HasChange "dhcp_server_address_port" = false →
        ip6.DHCPServerAddress = ip5.DHCPServerAddress) ∧
      (d.HasChange "dhcp_server_address_port" = true →
        ∃ port a, d.Get "dhcp_server_address_port" = .int port ∧
          ip5.DHCPServerAddress = some a ∧
          ip6.DHCPServerAddress = some { a with Port := some port }) := by
    rcases step_ok hi6 with ⟨hc, hg⟩ | ⟨hc, rfl⟩
    · simp only [Result.bind_eq_ok] at hg
      obtain ⟨port, hport, hg⟩ := hg
      refine ⟨fun hb => ?_, fun _ => ?_⟩
      · rw [hc] at hb
        cases hb
      · revert hg
        cases ha : ip5.DHCPServerAddress with
        | none => intro hg; cases hg
        | some a =>
          intro hg
          simp only [Result.ok.injEq] at hg
          subst hg
          exact ⟨port, a, Value.asInt_eq_ok.mp hport, rfl, rfl⟩
    · refine ⟨fun _ => rfl, fun hb => ?_⟩
      rw [hc] at hb
      cases hb
  refine ⟨m4, _, _, _, rfl, rfl, rfl, rfl, ?_, ?_, ?_, ?_, ?_, ?_, ?_, ?_, ?_, ?_, ?_, ?_⟩
  · intro hb
    rw [M4.1, M3.1 hb, M2.1, M1.1]
  · intro hb
    obtain ⟨m, r, hm, hr, ho⟩ := M3.2.1 hb
    exact ⟨m, r, hm, hr, by rw [M4.1, ho]⟩
  · intro hb
    rw [M4.2.1 hb, M3.2.2, M2.2, M1.2]
  · exact M4.2.2
  · intro hb
    show spec4.AvailabilityZoneReference = none
    rw [S4.1, S3.1 hb, S2.1, S1.1]
  · intro hb
    obtain ⟨m, r, hm, hr, ho⟩ := S3.2.1 hb
    exact ⟨m, r, hm, hr, by show spec4.AvailabilityZoneReference = some r; rw [S4.1, ho]⟩
  · intro hb
    show spec4.ClusterReference = none
    rw [S4.2.1 hb, S3.2.2, S2.2, S1.2]
  · exact S4.2.2
  · intro hb
    show res4.NetworkFunctionChainReference = none
    rw [R4, R3, R2, R1.1 hb]
  · intro hb
    obtain ⟨m, r, hm, hr, ho⟩ := R1.2 hb
    exact ⟨m, r, hm, hr, by show res4.NetworkFunctionChainReference = some r; rw [R4, R3, R2, ho]⟩
  · intro hb
    have h5 : ip5.DHCPServerAddress = none := by rw [I5.1 hb, I4, I3, I2, I1]
    have hp : d.HasChange "dhcp_server_address_port" = false := by
      cases hq : d.HasChange "dhcp_server_address_port" with
      | false => rfl
      | true =>
        obtain ⟨port, a, -, ha, -⟩ := I6.2 hq
        rw [h5] at ha
        cases ha
    exact ⟨hp, by show ip6.DHCPServerAddress = none; rw [I6.1 hp, h5]⟩
  · intro hb
    obtain ⟨dh, ip, ipv6, fqdn, hdh, hip, hipv6, hfqdn, h5⟩ := I5.2 hb
    cases hq : d.HasChange "dhcp_server_address_port" with
    | false =>
      refine ⟨dh, ip, ipv6, fqdn, _, hdh, hip, hipv6, hfqdn,
        (show ip6.DHCPServerAddress = _ from (I6.1 hq).trans h5), rfl, rfl, rfl,
        fun _ => rfl, fun hb2 => Bool.noConfusion hb2⟩
    | true =>
      obtain ⟨port, a, hport, ha, h6⟩ := I6.2 hq
      rw [h5] at ha
      simp only [Option.some.injEq] at ha
      subst ha
      refine ⟨dh, ip, ipv6, fqdn, _, hdh, hip, hipv6, hfqdn,
        (show ip6.DHCPServerAddress = _ from h6), rfl, rfl, rfl,
        fun hb2 => Bool.noConfusion hb2, fun _ => ⟨port, hport, rfl⟩⟩

/-- The references of a request are those of its metadata, spec and
resources. -/
theorem requestReferences_ok (req : SubnetIntentInput) (metadata : SubnetMetadata)
    (spec : Subnet) (res : SubnetResources)
    (hm : req.Metadata = some metadata) (hs : req.Spec = some spec)
    (hr : spec.Resources = some res)
    (h1 : RefOk metadata.OwnerReference) (h2 : RefOk metadata.ProjectReference)
    (h3 : RefOk spec.AvailabilityZoneReference) (h4 : RefOk spec.ClusterReference)
    (h5 : RefOk res.NetworkFunctionChainReference) :
    ∀ r ∈ requestReferences req, r.Kind ≠ none ∧ r.UUID ≠ none := by
  intro r hmem
  simp only [requestReferences, hm, hs, hr, Option.some_bind, List.mem_append,
    Option.mem_toList, Option.mem_def] at hmem
  rcases hmem with (((h | h) | h) | h) | h
  · exact h1 r h
  · exact h2 r h
  · exact h3 r h
  · exact h4 r h
  · exact h5 r h

/-- The references of the request the create handler assembles. -/
theorem createRequest_refs (d : ResourceData) (req : SubnetIntentInput)
    (h : createRequest d = .ok req) :
    ∀ r ∈ requestReferences req, r.Kind ≠ none ∧ r.UUID ≠ none := by
  unfold createRequest at h
  simp only [Result.bind_def, Result.pure_def] at h
  obtain ⟨⟨request, spec, metadata, subnet⟩, hargs, h⟩ := Result.bind_eq_ok.mp h
  simp only [Result.bind_eq_ok, Result.ok.injEq] at h
  obtain ⟨n, -, rfl⟩ := h
  obtain ⟨-, hmd, hsn, hz0, hz1, hc0, hc1⟩ := createArguments_ok d _ _ _ _ hargs
  obtain ⟨-, metad, kind, -, -, -, hp0, hp1, ho0, ho1⟩ :=
    getSubnetMetadaAttributes_ok d {} metadata hmd
  obtain ⟨-, -, -, hn0, hn1, -⟩ := getSubnetResources_ok d {} subnet hsn
  refine requestReferences_ok _ metadata _ subnet rfl rfl rfl ?_ ?_ ?_ ?_ ?_
  · cases ho : metad.lookup "owner_reference" with
    | none =>
      rw [ho0 ho]
      exact refOk_none
    | some o =>
      obtain ⟨m, r, -, hr, hor⟩ := ho1 o ho
      rw [hor]
      exact refOk_createNested m r hr
  · cases hb : (d.GetOk "project_reference").2 with
    | false =>
      rw [hp0 hb]
      exact refOk_none
    | true =>
      obtain ⟨m, r, -, hr, hor⟩ := hp1 hb
      rw [hor]
      exact refOk_create m r hr
  · show RefOk spec.AvailabilityZoneReference
    cases hb : (d.GetOk "availability_zone_reference").2 with
    | false =>
      rw [hz0 hb]
      exact refOk_none
    | true =>
      obtain ⟨m, r, -, hr, hor⟩ := hz1 hb
      rw [hor]
      exact refOk_create m r hr
  · show RefOk spec.ClusterReference
    cases hb : (d.GetOk "cluster_reference").2 with
    | false =>
      rw [hc0 hb]
      exact refOk_none
    | true =>
      obtain ⟨m, r, -, hr, hor⟩ := hc1 hb
      rw [hor]
      exact refOk_create m r hr
  · cases hb : (d.GetOk "network_function_chain_reference").2 with
    | false =>
      rw [hn0 hb]
      exact refOk_none
    | true =>
      obtain ⟨m, r, -, hr, hor⟩ := hn1 hb
      rw [hor]
      exact refOk_create m r hr

/-- The references of the request the update handler assembles. -/
theorem updateRequest_refs (d : ResourceData) (req : SubnetIntentInput)
    (h : updateRequest d = .ok req) :
    ∀ r ∈ requestReferences req, r.Kind ≠ none ∧ r.UUID ≠ none := by
  obtain ⟨metadata, spec, res, ipcfg, hm, hs, hr, -, ho0, ho1, hp0, hp1, hz0, hz1, hc0, hc1,
    hn0, hn1, -, -⟩ := updateRequest_ok d req h
  refine requestReferences_ok req metadata spec res hm hs hr ?_ ?_ ?_ ?_ ?_
  · cases hb : d.HasChange "owner_reference" with
    | false =>
      rw [ho0 hb]
      exact refOk_none
    | true =>
      obtain ⟨m, r, -, hr, hor⟩ := ho1 hb
      rw [hor]
      exact refOk_update m r hr
  · cases hb : d.HasChange "project_reference" with
    | false =>
      rw [hp0 hb]
      exact refOk_none
    | true =>
      obtain ⟨m, r, -, hr, hor⟩ := hp1 hb
      rw [hor]
      exact refOk_update m r hr
  · cases hb : d.HasChange "availability_zone_reference" with
    | false =>
      rw [hz0 hb]
      exact refOk_none
    | true =>
      obtain ⟨m, r, -, hr, hor⟩ := hz1 hb
      rw [hor]
      exact refOk_update m r hr
  · cases hb : d.HasChange "cluster_reference" with
    | false =>
      rw [hc0 hb]
      exact refOk_none
    | true =>
      obtain ⟨m, r, -, hr, hor⟩ := hc1 hb
      rw [hor]
      exact refOk_update m r hr
  · cases hb : d.HasChange "network_function_chain_reference" with
    | false =>
      rw [hn0 hb]
      exact refOk_none
    | true =>
      obtain ⟨m, r, -, hr, hor⟩ := hn1 hb
      rw [hor]
      exact refOk_update m r hr

/-- C15: when the request assembly of the create handler or of the update
handler completes for the resource data `d` with the request `req`, every
reference in `req` (owner, project, availability zone, cluster, network
function chain) has a kind and a uuid. The name may be absent: the request
the create handler assembles for `clusterDesired` holds a reference without
one. -/
theorem C15_references_carry_kind_and_uuid (d : ResourceData) (req : SubnetIntentInput)
    (h : createRequest d = .ok req ∨ updateRequest d = .ok req) :
    (∀ r ∈ requestReferences req, r.Kind ≠ none ∧ r.UUID ≠ none) ∧
    (∃ req0, createRequest clusterDesired = .ok req0 ∧
      ∃ r ∈ requestReferences req0, r.Name = none) := by
  refine ⟨?_, ?_⟩
  · rcases h with h | h
    · exact createRequest_refs d req h
    · exact updateRequest_refs d req h
  · exact ⟨clusterRequest, by decide, { Kind := some "cluster", UUID := some "c1" },
      by decide, rfl⟩

/-- C15 for the desired state `clusterDesired`: the create request carries the
cluster reference, with its kind and uuid. -/
theorem C15_references_carry_kind_and_uuid_witness :
    createRequest clusterDesired = .ok clusterRequest ∧
    requestReferences clusterRequest ≠ [] ∧
    ∀ r ∈ requestReferences clusterRequest, r.Kind ≠ none ∧ r.UUID ≠ none :=
  ⟨by decide, by decide, (C15_references_carry_kind_and_uuid clusterDesired clusterRequest
    (Or.inl (by decide))).1⟩

/-! ## Malformed nested maps (C14) -/

theorem Result.bind_eq_error {α β : Type} {x : Result α} {f : α → Result β} {e : String} :
    x.bind f = .error e ↔ x = .error e ∨ ∃ a, x = .ok a ∧ f a = .error e := by
  cases x <;> simp [Result.bind]

theorem noErr_ok {α : Type} (a : α) : NoErr (Result.ok a) := ⟨fun _ h => by cases h⟩

theorem noErr_fault {α : Type} : NoErr (Result.fault : Result α) := ⟨fun _ h => by cases h⟩

theorem noErr_bind {α β : Type} {x : Result α} {f : α → Result β}
    (hx : NoErr x) (hf : ∀ a, NoErr (f a)) : NoErr (x.bind f) := by
  constructor
  intro e h
  rcases Result.bind_eq_error.mp h with h | ⟨a, -, h⟩
  · exact hx.ne e h
  · exact (hf a).ne e h

theorem noErr_ite {α : Type} {c : Prop} [Decidable c] {t e : Result α}
    (ht : NoErr t) (he : NoErr e) : NoErr (if c then t else e) := by
  split
  · exact ht
  · exact he

theorem noErr_asString (v : Value) : NoErr v.asString := by
  cases v <;> first | exact noErr_ok _ | exact noErr_fault

theorem noErr_asInt (v : Value) : NoErr v.asInt := by
  cases v <;> first | exact noErr_ok _ | exact noErr_fault

theorem noErr_asInt64 (v : Value) : NoErr v.asInt64 := by
  cases v <;> first | exact noErr_ok _ | exact noErr_fault

theorem noErr_asMap (v : Value) : NoErr v.asMap := by
  cases v <;> first | exact noErr_ok _ | exact noErr_fault

theorem noErr_asList (v : Value) : NoErr v.asList := by
  cases v <;> first | exact noErr_ok _ | exact noErr_fault

theorem noErr_elemString (o : Option Elem) : NoErr (Elem.asString o) := by
  rcases o with _ | e
  · exact noErr_fault
  · cases e <;> first | exact noErr_ok _ | exact noErr_fault

theorem noErr_elemMap (o : Option Elem) : NoErr (Elem.asMap o) := by
  rcases o with _ | e
  · exact noErr_fault
  · cases e <;> first | exact noErr_ok _ | exact noErr_fault

theorem noErr_atomString (o : Option Atom) : NoErr (Atom.asString o) := by
  rcases o with _ | e
  · exact noErr_fault
  · cases e <;> first | exact noErr_ok _ | exact noErr_fault

theorem noErr_stringLabels (l : List (String × Elem)) : NoErr (stringLabels l) := by
  induction l with
  | nil => exact noErr_ok _
  | cons p rest ih =>
    obtain ⟨k, v⟩ := p
    unfold stringLabels
    simp only [Result.bind_def, Result.pure_def]
    exact noErr_bind (noErr_elemString _) fun _ => noErr_bind ih fun _ => noErr_ok _

theorem noErr_stringElems (l : List Elem) : NoErr (stringElems l) := by
  induction l with
  | nil => exact noErr_ok _
  | cons v rest ih =>
    unfold stringElems
    simp only [Result.bind_def, Result.pure_def]
    exact noErr_bind (noErr_elemString _) fun _ => noErr_bind ih fun _ => noErr_ok _

theorem noErr_createReference (a : List (String × Elem)) : NoErr (createReference a) := by
  unfold createReference
  simp only [Result.bind_def, Result.pure_def]
  repeat' first
    | exact noErr_ok _
    | exact noErr_fault
    | exact noErr_elemString _
    | apply noErr_bind
    | intro _
    | split

theorem noErr_createReferenceNested (a : List (String × Atom)) :
    NoErr (createReferenceNested a) := by
  unfold createReferenceNested
  simp only [Result.bind_def, Result.pure_def]
  repeat' first
    | exact noErr_ok _
    | exact noErr_fault
    | exact noErr_atomString _
    | apply noErr_bind
    | intro _
    | split

/-- The function `getSubnetResources` returns no error: it yields the resources
or it faults. -/
theorem noErr_getSubnetResources (d : ResourceData) (s0 : SubnetResources) :
    NoErr (getSubnetResources d s0) := by
  unfold getSubnetResources
  simp only [Result.bind_def, Result.pure_def]
  repeat' first
    | exact noErr_ok _
    | exact noErr_fault
    | exact noErr_asString _
    | exact noErr_asInt _
    | exact noErr_asInt64 _
    | exact noErr_asMap _
    | exact noErr_asList _
    | exact noErr_elemString _
    | exact noErr_stringElems _
    | exact noErr_createReference _
    | apply noErr_bind
    | apply noErr_ite
    | intro _
    | split

/-- The entries of the metadata map return an error only for a `spec_version`
that `strconv.Atoi` rejects. -/
theorem metadataEntries_error (metad : List (String × Elem)) (m0 : SubnetMetadata)
    (e : String) (h : metadataEntries metad m0 = .error e) :
    ∃ s, metad.lookup "spec_version" = some (.str s) ∧ strconv.Atoi s = .error e := by
  unfold metadataEntries at h
  simp only [Result.bind_def, Result.pure_def] at h
  rcases Result.bind_eq_error.mp h with h1 | ⟨m1, -, h⟩
  · exfalso
    revert h1
    apply NoErr.ne
    repeat' first
      | exact noErr_ok _
      | exact noErr_elemString _
      | apply noErr_bind
      | apply noErr_ite
      | intro _
      | split
  rcases Result.bind_eq_error.mp h with h2 | ⟨m2, -, h⟩
  · split at h2
    · rename_i v hv
      split at h2
      · rcases Result.bind_eq_error.mp h2 with h3 | ⟨s, hs, h3⟩
        · exact absurd h3 ((noErr_elemString _).ne e)
        · have hvs := elemString_eq_ok.mp hs
          simp only [Option.some.injEq] at hvs
          subst hvs
          split at h3
          · rename_i err herr
            simp only [Result.error.injEq] at h3
            subst h3
            exact ⟨s, hv, herr⟩
          · cases h3
      · cases h2
    · cases h2
  rcases Result.bind_eq_error.mp h with h3 | ⟨m3, -, h⟩
  · exfalso
    revert h3
    apply NoErr.ne
    repeat' first
      | exact noErr_ok _
      | exact noErr_elemString _
      | apply noErr_bind
      | apply noErr_ite
      | intro _
      | split
  · exfalso
    revert h
    apply NoErr.ne
    repeat' first
      | exact noErr_ok _
      | exact noErr_elemString _
      | apply noErr_bind
      | apply noErr_ite
      | intro _
      | split

/-- The errors `getSubnetMetadaAttributes` returns. -/
theorem getSubnetMetadaAttributes_error (d : ResourceData) (m0 : SubnetMetadata)
    (e : String) (h : getSubnetMetadaAttributes d m0 = .error e) :
    ((d.GetOk "metadata").2 = false ∧ e = "please provide metadata required attributes") ∨
    ((d.GetOk "metadata").2 = true ∧
      ∃ metad s, d.Get "metadata" = .mapIface metad ∧ metad.lookup "kind" ≠ none ∧
        metad.lookup "spec_version" = some (.str s) ∧ strconv.Atoi s = .error e) := by
  unfold getSubnetMetadaAttributes at h
  simp only [Result.bind_def, Result.pure_def] at h
  rcases Result.bind_eq_error.mp h with h1 | ⟨metad, hmetad, h⟩
  · exact absurd h1 ((noErr_asMap _).ne e)
  cases hb : (d.GetOk "metadata").2 with
  | false =>
    simp only [hb, Bool.not_false, if_true, Result.error.injEq] at h
    exact Or.inl ⟨rfl, h.symm⟩
  | true =>
    simp only [hb, Bool.not_true, Bool.false_eq_true, if_false] at h
    rcases Result.bind_eq_error.mp h with h1 | ⟨kind, hkind, h⟩
    · exact absurd h1 ((noErr_elemString _).ne e)
    have hk := elemString_eq_ok.mp hkind
    rcases Result.bind_eq_error.mp h with h1 | ⟨m1, -, h⟩
    · obtain ⟨s, hs, ha⟩ := metadataEntries_error metad _ e h1
      exact Or.inr ⟨rfl, metad, s, valueMap_eq_ok.mp hmetad, by simp [hk], hs, ha⟩
    exfalso
    revert h
    apply NoErr.ne
    repeat' first
      | exact noErr_ok _
      | exact noErr_asMap _
      | exact noErr_elemMap _
      | exact noErr_stringLabels _
      | exact noErr_createReference _
      | exact noErr_createReferenceNested _
      | apply noErr_bind
      | intro _
      | split

/-- The errors the request assembly of the create handler returns. -/
theorem createArguments_error (d : ResourceData) (e : String)
    (h : createArguments d = .error e) : AssemblyError d e := by
  unfold createArguments at h
  simp only [Result.bind_def, Result.pure_def] at h
  cases hn : (d.GetOk "name").2 with
  | false =>
    cases hst : (d.GetOk "subnet_type").2 with
    | false =>
      simp only [hst, hn, Bool.not_false, Bool.and_self, if_true, Result.error.injEq] at h
      exact Or.inl ⟨hst, hn, h.symm⟩
    | true =>
      simp only [hst, hn, Bool.not_false, Bool.not_true, Bool.false_and, Bool.false_eq_true,
        if_false, if_true] at h
      rcases Result.bind_eq_error.mp h with h1 | ⟨req, -, h⟩
      · exfalso
        revert h1
        apply NoErr.ne
        repeat' first
          | exact noErr_ok _
          | exact noErr_asString _
          | apply noErr_bind
          | intro _
          | split
      · simp only [Result.error.injEq] at h
        exact Or.inr (Or.inl ⟨hst, hn, h.symm⟩)
  | true =>
    simp only [hn, Bool.not_true, Bool.and_false, Bool.false_eq_true, if_false] at h
    rcases Result.bind_eq_error.mp h with h1 | ⟨req, -, h⟩
    · exfalso
      revert h1
      apply NoErr.ne
      repeat' first
        | exact noErr_ok _
        | exact noErr_asString _
        | apply noErr_bind
        | intro _
        | split
    rcases Result.bind_eq_error.mp h with h1 | ⟨md, -, h⟩
    · rcases getSubnetMetadaAttributes_error d _ e h1 with ⟨hm, he⟩ | ⟨hm, hrest⟩
      · exact Or.inr (Or.inr (Or.inl ⟨hn, hm, he⟩))
      · exact Or.inr (Or.inr (Or.inr ⟨hn, hm, hrest⟩))
    exfalso
    revert h
    apply NoErr.ne
    repeat' first
      | exact noErr_ok _
      | exact noErr_asString _
      | exact noErr_asMap _
      | exact noErr_createReference _
      | exact noErr_getSubnetResources _ _
      | apply noErr_bind
      | apply noErr_ite
      | intro _

/-- With a malformed nested map the request assembly of the create handler
does not complete. -/
theorem createArguments_malformed (d : ResourceData) (hmal : Malformed d)
    (x : SubnetIntentInput × Subnet × SubnetMetadata × SubnetResources) :
    createArguments d ≠ .ok x := by
  obtain ⟨request, spec, metadata, subnet⟩ := x
  intro h
  obtain ⟨-, hmd, -, -, hz1, -, hc1⟩ := createArguments_ok d _ _ _ _ h
  obtain ⟨-, metad, kind, hmetad, hkind, -, -, hp1, -, -⟩ :=
    getSubnetMetadaAttributes_ok d {} metadata hmd
  have key : ∀ k, LacksKindOrUUID d k →
      ((d.GetOk k).2 = true → ∃ m r, d.Get k = .mapIface m ∧ createReference m = .ok r ∧
        True) → False := by
    intro k hk hr
    obtain ⟨hset, m, hm, hlack⟩ := hk
    obtain ⟨m2, r, hm2, hr2, -⟩ := hr hset
    rw [hm] at hm2
    simp only [Value.mapIface.injEq] at hm2
    subst hm2
    obtain ⟨kd, u, hkd, hu, -, -⟩ := createReference_ok m r hr2
    rcases hlack with hl | hl
    · rw [hl] at hkd
      cases hkd
    · rw [hl] at hu
      cases hu
  rcases hmal with hp | hz | hc | ⟨m, hm, hl⟩
  · refine key _ hp fun hb => ?_
    obtain ⟨m, r, h1, h2, -⟩ := hp1 hb
    exact ⟨m, r, h1, h2, trivial⟩
  · refine key _ hz fun hb => ?_
    obtain ⟨m, r, h1, h2, -⟩ := hz1 hb
    exact ⟨m, r, h1, h2, trivial⟩
  · refine key _ hc fun hb => ?_
    obtain ⟨m, r, h1, h2, -⟩ := hc1 hb
    exact ⟨m, r, h1, h2, trivial⟩
  · rw [hm] at hmetad
    simp only [Value.mapIface.injEq] at hmetad
    subst hmetad
    rw [hl] at hkind
    cases hkind

/-- C14, the code at two inputs that the schema admits: the desired state
`noKindDesired` has a project reference without `kind` and `uuid`, the desired
state `noKindMetadataDesired` a metadata map without `kind`. For both the
create handler ends in a runtime fault, the panic of the unchecked type
assertion on the missing key, where the claim has it return an error. It has
issued no call and left the resource data as they were. -/
theorem C14_malformed_reference_faults :
    Malformed noKindDesired ∧
    (resourceNutanixSubnetCreate (connOf [] net1Entity) 0 3 noKindDesired [])
      = ⟨.fault, noKindDesired, []⟩ ∧
    (∀ e, (resourceNutanixSubnetCreate (connOf [] net1Entity) 0 3 noKindDesired []).err
      ≠ .error e) ∧
    Malformed noKindMetadataDesired ∧
    (resourceNutanixSubnetCreate (connOf [] net1Entity) 0 3 noKindMetadataDesired [])
      = ⟨.fault, noKindMetadataDesired, []⟩ ∧
    (∀ e, (resourceNutanixSubnetCreate (connOf [] net1Entity) 0 3 noKindMetadataDesired []).err
      ≠ .error e) := by
  have hf : (resourceNutanixSubnetCreate (connOf [] net1Entity) 0 3 noKindDesired []).err
      = .fault := by decide
  have hg : (resourceNutanixSubnetCreate (connOf [] net1Entity) 0 3 noKindMetadataDesired []).err
      = .fault := by decide
  have hrun : ∀ d : ResourceData, createArguments d = .fault →
      resourceNutanixSubnetCreate (connOf [] net1Entity) 0 3 d [] = ⟨.fault, d, []⟩ := by
    intro d h
    simp only [resourceNutanixSubnetCreate, h]
  refine ⟨Or.inl ⟨by decide, [("name", .str "p")], by decide, Or.inl (by decide)⟩,
    hrun _ (by decide), ?_,
    Or.inr (Or.inr (Or.inr ⟨[("name", .str "net1")], by decide, by decide⟩)),
    hrun _ (by decide), ?_⟩
  · intro e he
    rw [hf] at he
    cases he
  · intro e he
    rw [hg] at he
    cases he

/-- What the create handler does with a malformed nested map (the project,
availability zone or cluster reference is set and lacks `kind` or `uuid`, or
the metadata map lacks `kind`), for every such desired state: it does not
succeed, issues no backend call and leaves the resource data as they were.
An error it returns is one of the checks that precede the reading of the map
(a required attribute or the metadata is not set, or the `spec_version` of the
metadata is not a number); with the name and the metadata set and a
`spec_version` that is a number, if any, it faults. -/
theorem malformed_map_no_request (conn : Conn) (heap polls : Nat) (d : ResourceData)
    (calls : List Call) (hmal : Malformed d) :
    (∀ x, createArguments d ≠ .ok x) ∧
    (resourceNutanixSubnetCreate conn heap polls d calls).calls = calls ∧
    (resourceNutanixSubnetCreate conn heap polls d calls).d = d ∧
    (resourceNutanixSubnetCreate conn heap polls d calls).err ≠ .ok () ∧
    (∀ e, (resourceNutanixSubnetCreate conn heap polls d calls).err = .error e →
      AssemblyError d e) ∧
    ((d.GetOk "name").2 = true → (d.GetOk "metadata").2 = true →
      (∀ metad s, d.Get "metadata" = .mapIface metad →
        metad.lookup "spec_version" = some (.str s) → ∀ e, strconv.Atoi s ≠ .error e) →
      (resourceNutanixSubnetCreate conn heap polls d calls).err = .fault) := by
  have hno := createArguments_malformed d hmal
  have herr := createArguments_error d
  have hrun : resourceNutanixSubnetCreate conn heap polls d calls
      = match createArguments d with
        | .error e => ⟨.error e, d, calls⟩
        | .fault => ⟨.fault, d, calls⟩
        | .ok _ => ⟨.fault, d, calls⟩ := by
    unfold resourceNutanixSubnetCreate
    cases hx : createArguments d with
    | error e => rfl
    | fault => rfl
    | ok x => exact absurd hx (hno x)
  rw [hrun]
  cases hx : createArguments d with
  | ok x => exact absurd hx (hno x)
  | fault =>
    refine ⟨fun x hx => (by cases hx), rfl, rfl, fun h => (by cases h),
      fun e h => (by cases h), fun _ _ _ => rfl⟩
  | error e =>
    refine ⟨fun x hx => (by cases hx), rfl, rfl, fun h => (by cases h), ?_, ?_⟩
    · intro e2 h
      simp only [Result.error.injEq] at h
      subst h
      exact herr e hx
    · intro hn hm hv
      exfalso
      rcases herr e hx with ⟨-, h, -⟩ | ⟨-, h, -⟩ | ⟨-, h, -⟩ | ⟨-, -, metad, s, h1, -, h2, h3⟩
      · rw [hn] at h
        cases h
      · rw [hn] at h
        cases h
      · rw [hm] at h
        cases h
      · exact hv metad s h1 h2 e h3

/-! ## The DHCP server port in the update request (C18) -/

theorem noErr_asStringList (v : Value) : NoErr v.asStringList := by
  cases v <;> first | exact noErr_ok _ | exact noErr_fault

theorem noErr_updateReference (a : List (String × Elem)) : NoErr (updateReference a) := by
  unfold updateReference
  simp only [Result.bind_def, Result.pure_def]
  repeat' first
    | exact noErr_ok _
    | exact noErr_elemString _
    | apply noErr_bind
    | intro _

/-- The request assembly of the update handler returns an error only for a
flagged metadata map whose `spec_version` is not a number. -/
theorem updateRequest_error (d : ResourceData) (e : String)
    (h : updateRequest d = .error e) :
    d.HasChange "metadata" = true ∧
    ∃ metad s, d.Get "metadata" = .mapIface metad ∧
      metad.lookup "spec_version" = some (.str s) ∧ strconv.Atoi s = .error e := by
  unfold updateRequest at h
  simp only [Result.bind_def, Result.pure_def] at h
  rcases Result.bind_eq_error.mp h with h1 | ⟨m1, -, h⟩
  · cases hc : d.HasChange "metadata" with
    | false =>
      simp only [hc, Bool.false_eq_true, if_false] at h1
      cases h1
    | true =>
      simp only [hc, if_true] at h1
      rcases Result.bind_eq_error.mp h1 with h2 | ⟨metad, hmetad, h2⟩
      · exact absurd h2 ((noErr_asMap _).ne e)
      · obtain ⟨s, hs, ha⟩ := metadataEntries_error metad _ e h2
        exact ⟨rfl, metad, s, valueMap_eq_ok.mp hmetad, hs, ha⟩
  exfalso
  revert h
  apply NoErr.ne
  repeat' first
    | exact noErr_ok _
    | exact noErr_fault
    | exact noErr_asString _
    | exact noErr_asInt _
    | exact noErr_asMap _
    | exact noErr_asStringList _
    | exact noErr_elemString _
    | exact noErr_stringLabels _
    | exact noErr_updateReference _
    | apply noErr_bind
    | apply noErr_ite
    | intro _
    | split

/-- A run of the update handler whose request assembly does not complete
issues no call and leaves the resource data as they were. -/
theorem update_not_assembled (conn : Conn) (polls : Nat) (d : ResourceData)
    (calls : List Call) (h : ∀ req, updateRequest d ≠ .ok req) :
    (resourceNutanixSubnetUpdate conn polls d calls).calls = calls ∧
    (resourceNutanixSubnetUpdate conn polls d calls).d = d ∧
    (resourceNutanixSubnetUpdate conn polls d calls).err ≠ .ok () ∧
    (∀ e, (resourceNutanixSubnetUpdate conn polls d calls).err = .error e →
      updateRequest d = .error e) ∧
    ((∀ e, updateRequest d ≠ .error e) →
      (resourceNutanixSubnetUpdate conn polls d calls).err = .fault) := by
  unfold resourceNutanixSubnetUpdate
  cases hx : updateRequest d with
  | ok req => exact absurd hx (h req)
  | fault =>
    exact ⟨rfl, rfl, fun h => (by cases h), fun e h => (by cases h), fun _ => rfl⟩
  | error e =>
    refine ⟨rfl, rfl, fun h => (by cases h), fun e2 h => ?_, fun hne => absurd rfl (hne e)⟩
    simp only [Result.error.injEq] at h
    rw [h]

/-- C18 (as the code has it), on an example: in `portAndVersionData` the port
is flagged as changed and the address is not, and so is the metadata, whose
`spec_version` is not a number. The update handler returns the error of
`strconv.Atoi`: it does not fault, the port is not reached. -/
theorem C18_port_flagged_error_returned :
    portAndVersionData.HasChange "dhcp_server_address_port" = true ∧
    portAndVersionData.HasChange "dhcp_server_address" = false ∧
    (resourceNutanixSubnetUpdate downConn 3 portAndVersionData []).err
      = .error "strconv.Atoi: parsing \"x\": invalid syntax" ∧
    (resourceNutanixSubnetUpdate downConn 3 portAndVersionData []).err ≠ .fault ∧
    (resourceNutanixSubnetUpdate downConn 3 portAndVersionData []).calls = [] := by
  decide

/-- C18 (amended): the request assembly of the update handler completes, and
the handler issues a call, only if `dhcp_server_address_port` is not flagged as
changed or `dhcp_server_address` is flagged too. When the port is flagged and
the address is not, the handler issues no backend call, leaves the resource
data as they were and does not succeed: it ends in a runtime fault, unless the
assembly has returned an error before, which it does only for a flagged
metadata map whose `spec_version` is not a number. When both are flagged and
the assembly completes, the DHCP server address of the request carries the
desired port. -/
theorem C18_port_needs_address (conn : Conn) (polls : Nat) (d : ResourceData)
    (calls : List Call) :
    (∀ req, updateRequest d = .ok req →
      d.HasChange "dhcp_server_address_port" = false ∨
      d.HasChange "dhcp_server_address" = true) ∧
    ((resourceNutanixSubnetUpdate conn polls d calls).calls ≠ calls →
      d.HasChange "dhcp_server_address_port" = false ∨
      d.HasChange "dhcp_server_address" = true) ∧
    (d.HasChange "dhcp_server_address_port" = true →
      d.HasChange "dhcp_server_address" = false →
      (resourceNutanixSubnetUpdate conn polls d calls).calls = calls ∧
      (resourceNutanixSubnetUpdate conn polls d calls).d = d ∧
      (resourceNutanixSubnetUpdate conn polls d calls).err ≠ .ok () ∧
      (∀ e, (resourceNutanixSubnetUpdate conn polls d calls).err = .error e →
        d.HasChange "metadata" = true ∧
        ∃ metad s, d.Get "metadata" = .mapIface metad ∧
          metad.lookup "spec_version" = some (.str s) ∧ strconv.Atoi s = .error e) ∧
      ((d.HasChange "metadata" = true → ∀ metad s, d.Get "metadata" = .mapIface metad →
          metad.lookup "spec_version" = some (.str s) → ∀ e, strconv.Atoi s ≠ .error e) →
        (resourceNutanixSubnetUpdate conn polls d calls).err = .fault)) ∧
    (d.HasChange "dhcp_server_address_port" = true →
      d.HasChange "dhcp_server_address" = true →
      ∀ req, updateRequest d = .ok req →
        ((((req.Spec.bind Subnet.Resources).bind SubnetResources.IPConfig).bind
          IPConfig.DHCPServerAddress).bind Address.Port).map Value.int
          = some (d.Get "dhcp_server_address_port")) := by
  have hreach : ∀ req, updateRequest d = .ok req →
      d.HasChange "dhcp_server_address_port" = false ∨
      d.HasChange "dhcp_server_address" = true := by
    intro req h
    obtain ⟨metadata, spec, res, ipcfg, -, -, -, -, -, -, -, -, -, -, -, -, -, -, ha0, -⟩ :=
      updateRequest_ok d req h
    cases ha : d.HasChange "dhcp_server_address" with
    | true => exact Or.inr rfl
    | false => exact Or.inl (ha0 ha).1
  have hnot : d.HasChange "dhcp_server_address_port" = true →
      d.HasChange "dhcp_server_address" = false → ∀ req, updateRequest d ≠ .ok req := by
    intro hp ha req h
    rcases hreach req h with h1 | h1
    · rw [hp] at h1
      cases h1
    · rw [ha] at h1
      cases h1
  refine ⟨hreach, ?_, ?_, ?_⟩
  · intro hcalls
    cases hp : d.HasChange "dhcp_server_address_port" with
    | false => exact Or.inl rfl
    | true =>
      cases ha : d.HasChange "dhcp_server_address" with
      | true => exact Or.inr rfl
      | false => exact absurd (update_not_assembled conn polls d calls (hnot hp ha)).1 hcalls
  · intro hp ha
    obtain ⟨h1, h2, h3, h4, h5⟩ := update_not_assembled conn polls d calls (hnot hp ha)
    refine ⟨h1, h2, h3, fun e he => updateRequest_error d e (h4 e he), fun hv => h5 ?_⟩
    intro e he
    obtain ⟨hm, metad, s, hg, hs, hatoi⟩ := updateRequest_error d e he
    exact hv hm metad s hg hs e hatoi
  · intro hp ha req h
    obtain ⟨metadata, spec, res, ipcfg, -, hs, hr, hi, -, -, -, -, -, -, -, -, -, -, -, ha1⟩ :=
      updateRequest_ok d req h
    obtain ⟨dh, ip, ipv6, fqdn, a, -, -, -, -, had, -, -, -, -, hport⟩ := ha1 ha
    obtain ⟨port, hget, hap⟩ := hport hp
    simp only [hs, hr, hi, had, hap, hget, Option.some_bind, Option.map_some']

/-- C18 (amended) for `portOnlyData`, where the update handler faults before
any call, and for `addressAndPortData`, whose request carries the port. -/
theorem C18_port_needs_address_witness :
    portOnlyData.HasChange "dhcp_server_address_port" = true ∧
    portOnlyData.HasChange "dhcp_server_address" = false ∧
    (resourceNutanixSubnetUpdate downConn 3 portOnlyData []).calls = [] ∧
    (resourceNutanixSubnetUpdate downConn 3 portOnlyData []).err = .fault ∧
    updateRequest addressAndPortData = .ok addressAndPortRequest ∧
    ((((addressAndPortRequest.Spec.bind Subnet.Resources).bind SubnetResources.IPConfig).bind
      IPConfig.DHCPServerAddress).bind Address.Port).map Value.int = some (.int 67) :=
  ⟨by decide, by decide,
   ((C18_port_needs_address downConn 3 portOnlyData []).2.2.1 (by decide) (by decide)).1,
   ((C18_port_needs_address downConn 3 portOnlyData []).2.2.1 (by decide) (by decide)).2.2.2.2
     (fun hm => absurd hm (by decide)),
   by decide,
   (C18_port_needs_address downConn 3 addressAndPortData []).2.2.2 (by decide) (by decide)
     addressAndPortRequest (by decide)⟩

/-! ## `keyToTypeMap` (C21) -/

theorem lookup_filter_ne (maps : List (String × String)) (k k2 : String) (h : k2 ≠ k) :
    (maps.filter (fun p => p.1 != k)).lookup k2 = maps.lookup k2 := by
  induction maps with
  | nil => rfl
  | cons p rest ih =>
    obtain ⟨a, b⟩ := p
    by_cases ha : a = k
    · subst ha
      have hb : (k2 == a) = false := by simpa using h
      simp [List.filter_cons, List.lookup_cons, hb, ih]
    · by_cases hk : k2 = a
      · subst hk
        simp [List.filter_cons, List.lookup_cons, ha]
      · have hb2 : (k2 == a) = false := by simpa using hk
        simp [List.filter_cons, List.lookup_cons, ha, hb2, ih]

/-- Reading a Go map after the assignment `maps[k] = v`. -/
theorem lookup_mapAssign (maps : List (String × String)) (k v k2 : String) :
    (mapAssign maps k v).lookup k2 = if k2 = k then some v else maps.lookup k2 := by
  unfold mapAssign
  by_cases h : k2 = k
  · subst h
    simp [List.lookup_cons]
  · have hb : (k2 == k) = false := by simpa using h
    rw [List.lookup_cons, hb, if_neg h]
    exact lookup_filter_ne maps k k2 h

theorem sliceIndex_eq (words : List String) (i : Nat) :
    sliceIndex words i = match words[i]? with
      | some w => .ok w
      | none => .fault := rfl

/-- The header test of a line that is not a short header yields whether the
line is a header line. -/
theorem structHeaderTest_ok (text : String) (h : isShortHeader text = false) :
    structHeaderTest (strings.Fields text) = .ok (isStructHeader text) := by
  unfold structHeaderTest isStructHeader
  unfold isShortHeader at h
  generalize strings.Fields text = words at h ⊢
  simp only [Result.bind_def, Result.pure_def, sliceIndex_eq]
  rcases words with _ | ⟨a, _ | ⟨b, _ | ⟨c, _ | ⟨e, rest⟩⟩⟩⟩
  · simp
  · simp
  · simp
  · by_cases hc : c = "struct"
    · subst hc
      simp at h
    · simp [hc, Result.bind]
  · by_cases hc : c = "struct"
    · subst hc
      by_cases he : e = "\x7b"
      · subst he
        simp [Result.bind]
      · simp [he, Result.bind]
    · simp [hc, Result.bind]

/-- The header test of a short header faults. -/
theorem structHeaderTest_fault (text : String) (h : isShortHeader text = true) :
    structHeaderTest (strings.Fields text) = .fault := by
  unfold structHeaderTest
  unfold isShortHeader at h
  generalize strings.Fields text = words at h ⊢
  simp only [Result.bind_def, Result.pure_def, sliceIndex_eq]
  rcases words with _ | ⟨a, _ | ⟨b, _ | ⟨c, _ | ⟨e, rest⟩⟩⟩⟩
  · simp at h
  · simp at h
  · simp at h
  · simp at h
    subst h
    simp [Result.bind]
  · simp at h

theorem fieldEntry_false (words : List String) (maps : List (String × String)) :
    fieldEntry false words maps = .ok maps := by
  simp [fieldEntry, Result.pure_def]

/-- With the flag set, a field line is entered into the map; its two index
expressions are in range. -/
theorem fieldEntry_field (text : String) (maps : List (String × String))
    (hf : isFieldLine text = true) :
    ∃ w0 w1, (strings.Fields text)[0]? = some w0 ∧ (strings.Fields text)[1]? = some w1 ∧
      fieldEntry true (strings.Fields text) maps = .ok (mapAssign maps w0 w1) := by
  unfold isFieldLine at hf
  unfold fieldEntry
  generalize strings.Fields text = words at hf ⊢
  generalize isStructHeader text = hd at hf
  simp only [Result.bind_def, Result.pure_def, sliceIndex_eq]
  rcases words with _ | ⟨a, _ | ⟨b, rest⟩⟩
  · simp at hf
  · simp at hf
  · simp at hf
    exact ⟨a, b, by simp, by simp, by simp [hf.1, Result.bind]⟩

/-- With the flag set, a line that is neither a header nor a field line leaves
the map as it is. -/
theorem fieldEntry_skip (text : String) (maps : List (String × String))
    (hh : isStructHeader text = false) (hf : isFieldLine text = false) :
    fieldEntry true (strings.Fields text) maps = .ok maps := by
  unfold isFieldLine at hf
  rw [hh] at hf
  unfold fieldEntry
  generalize strings.Fields text = words at hf ⊢
  simp only [Result.bind_def, Result.pure_def, sliceIndex_eq]
  rcases words with _ | ⟨a, _ | ⟨b, rest⟩⟩
  · simp
  · simp
  · simp at hf
    simp [hf, Result.bind]

theorem scannedLines_cons (text : String) (rest : List String) (h : text ≠ "\x7d") :
    scannedLines (text :: rest) = text :: scannedLines rest := by
  simp [scannedLines, h]

theorem scannedLines_close (rest : List String) : scannedLines ("\x7d" :: rest) = [] := by
  simp [scannedLines]

theorem keyToTypeMapLoop_cons (text : String) (rest : List String) (flag : Bool)
    (maps : List (String × String)) (h : text ≠ "\x7d") :
    keyToTypeMapLoop (text :: rest) flag maps
      = match structHeaderTest (strings.Fields text) with
        | .fault => .fault
        | .error e => .error e
        | .ok true => keyToTypeMapLoop rest true maps
        | .ok false =>
          match fieldEntry flag (strings.Fields text) maps with
          | .fault => .fault
          | .error e => .error e
          | .ok maps => keyToTypeMapLoop rest flag maps := by
  rw [keyToTypeMapLoop]
  simp only [if_neg h]

theorem keyToTypeMapLoop_ok (lines : List String) :
    ∀ (flag : Bool) (maps : List (String × String)),
    (∀ t ∈ scannedLines lines, isShortHeader t = false) →
    ∃ m, keyToTypeMapLoop lines flag maps = .ok m ∧
      ∀ k, m.lookup k =
        match ((if flag = true then scannedLines lines
            else ((scannedLines lines).dropWhile (fun t => !isStructHeader t)).drop 1).filter
          isFieldLine).reverse.find? (fun t => (strings.Fields t)[0]? == some k) with
        | some u => (strings.Fields u)[1]?
        | none => maps.lookup k := by
  induction lines with
  | nil =>
    intro flag maps _
    exact ⟨maps, rfl, fun k => by cases flag <;> simp [scannedLines]⟩
  | cons text rest ih =>
    intro flag maps hsafe
    by_cases hclose : text = "\x7d"
    · subst hclose
      refine ⟨maps, by simp [keyToTypeMapLoop], fun k => ?_⟩
      rw [scannedLines_close]
      cases flag <;> simp
    · have hsc := scannedLines_cons text rest hclose
      have hshort : isShortHeader text = false :=
        hsafe text (by rw [hsc]; exact List.mem_cons_self _ _)
      have hrest : ∀ t ∈ scannedLines rest, isShortHeader t = false :=
        fun t ht => hsafe t (by rw [hsc]; exact List.mem_cons_of_mem _ ht)
      rw [keyToTypeMapLoop_cons text rest flag maps hclose, structHeaderTest_ok text hshort, hsc]
      cases hh : isStructHeader text with
      | true =>
        have hf : isFieldLine text = false := by simp [isFieldLine, hh]
        obtain ⟨m, hm, hl⟩ := ih true maps hrest
        refine ⟨m, hm, fun k => ?_⟩
        rw [hl k]
        cases flag <;> simp [hh, hf, List.filter_cons]
      | false =>
        cases flag with
        | false =>
          simp only [fieldEntry_false]
          obtain ⟨m, hm, hl⟩ := ih false maps hrest
          refine ⟨m, hm, fun k => ?_⟩
          rw [hl k]
          simp [hh]
        | true =>
          cases hf : isFieldLine text with
          | false =>
            simp only [fieldEntry_skip text maps hh hf]
            obtain ⟨m, hm, hl⟩ := ih true maps hrest
            refine ⟨m, hm, fun k => ?_⟩
            rw [hl k]
            simp [hf, List.filter_cons]
          | true =>
            obtain ⟨w0, w1, h0, h1, he⟩ := fieldEntry_field text maps hf
            simp only [he]
            obtain ⟨m, hm, hl⟩ := ih true (mapAssign maps w0 w1) hrest
            refine ⟨m, hm, fun k => ?_⟩
            rw [hl k, lookup_mapAssign]
            simp only [if_true, List.filter_cons, hf, List.reverse_cons, List.find?_append]
            cases ((List.filter isFieldLine (scannedLines rest)).reverse.find?
                (fun t => (strings.Fields t)[0]? == some k)) with
            | some u => simp
            | none =>
              by_cases hk : k = w0
              · subst hk
                simp [List.find?_cons, h0, h1]
              · have hk2 : ¬ w0 = k := fun h => hk h.symm
                simp [List.find?_cons, h0, hk, hk2]

theorem isShortHeader_iff (text : String) :
    isShortHeader text = true ↔
      (strings.Fields text).length = 3 ∧ (strings.Fields text)[2]? = some "struct" := by
  simp [isShortHeader]

/-- Lines 156 to 160 do not fault on a line that is not a header line. -/
theorem fieldEntry_total (flag : Bool) (text : String) (maps : List (String × String))
    (hh : isStructHeader text = false) :
    ∃ m, fieldEntry flag (strings.Fields text) maps = .ok m := by
  cases flag with
  | false => exact ⟨maps, fieldEntry_false _ _⟩
  | true =>
    cases hf : isFieldLine text with
    | false => exact ⟨maps, fieldEntry_skip text maps hh hf⟩
    | true =>
      obtain ⟨w0, w1, -, -, he⟩ := fieldEntry_field text maps hf
      exact ⟨_, he⟩

/-- A scanned line of exactly three words with `struct` as the third makes the
loop fault. -/
theorem keyToTypeMapLoop_fault (lines : List String) :
    ∀ (flag : Bool) (maps : List (String × String)),
    (∃ t ∈ scannedLines lines, isShortHeader t = true) →
    keyToTypeMapLoop lines flag maps = .fault := by
  induction lines with
  | nil =>
    intro flag maps h
    obtain ⟨t, ht, -⟩ := h
    simp [scannedLines] at ht
  | cons text rest ih =>
    intro flag maps h
    obtain ⟨t, ht, hbad⟩ := h
    by_cases hclose : text = "\x7d"
    · subst hclose
      rw [scannedLines_close] at ht
      cases ht
    · rw [scannedLines_cons text rest hclose] at ht
      rw [keyToTypeMapLoop_cons text rest flag maps hclose]
      cases hshort : isShortHeader text with
      | true => rw [structHeaderTest_fault text hshort]
      | false =>
        have hin : t ∈ scannedLines rest := by
          rcases List.mem_cons.mp ht with h1 | h1
          · subst h1
            rw [hshort] at hbad
            cases hbad
          · exact h1
        rw [structHeaderTest_ok text hshort]
        cases hh : isStructHeader text with
        | true => exact ih true maps ⟨t, hin, hbad⟩
        | false =>
          obtain ⟨m, hm⟩ := fieldEntry_total flag text maps hh
          simp only [hm]
          exact ih flag m ⟨t, hin, hbad⟩

/-- C21: `keyToTypeMap`, as a function of the lines of the struct file. The
scanned lines are those before the first line that is exactly `}`. When no
scanned line has exactly three words with `struct` as the third, the function
returns a map, and the map sends `k` to the second word of the last scanned
line that has `k` as its first word, has at least two words, does not start
with `//`, comes after the first header line (third word `struct`, fourth word
`{`) and is not a header line itself; it has no other keys. When some scanned
line has exactly three words with `struct` as the third, the index expression
`words[3]` is out of range and the function faults; it faults in no other
case, and it returns no error. -/
theorem C21_keyToTypeMap_field_types (lines : List String) :
    ((∀ t ∈ scannedLines lines,
        ¬((strings.Fields t).length = 3 ∧ (strings.Fields t)[2]? = some "struct")) →
      ∃ m, keyToTypeMap lines = .ok m ∧ ∀ k, m.lookup k = fieldTypes lines k) ∧
    (keyToTypeMap lines = .fault ↔
      ∃ t ∈ scannedLines lines,
        (strings.Fields t).length = 3 ∧ (strings.Fields t)[2]? = some "struct") ∧
    (∀ e, keyToTypeMap lines ≠ .error e) := by
  have hok : (∀ t ∈ scannedLines lines, isShortHeader t = false) →
      ∃ m, keyToTypeMap lines = .ok m ∧ ∀ k, m.lookup k = fieldTypes lines k := by
    intro hsafe
    obtain ⟨m, hm, hl⟩ := keyToTypeMapLoop_ok lines false [] hsafe
    refine ⟨m, hm, fun k => ?_⟩
    rw [hl k]
    unfold fieldTypes fieldLines
    simp only [Bool.false_eq_true, if_false]
    cases List.find? (fun t => (strings.Fields t)[0]? == some k)
      (List.filter isFieldLine (List.drop 1
        (List.dropWhile (fun t => !isStructHeader t) (scannedLines lines)))).reverse with
    | none => rfl
    | some u => rfl
  have hcases : (∀ t ∈ scannedLines lines, isShortHeader t = false) ∨
      ∃ t ∈ scannedLines lines, isShortHeader t = true := by
    by_cases h : ∃ t ∈ scannedLines lines, isShortHeader t = true
    · exact Or.inr h
    · left
      intro t ht
      cases hs : isShortHeader t with
      | false => rfl
      | true => exact absurd ⟨t, ht, hs⟩ h
  refine ⟨fun hsafe => hok fun t ht => ?_, ⟨fun hfault => ?_, fun hbad => ?_⟩, fun e he => ?_⟩
  · cases hs : isShortHeader t with
    | false => rfl
    | true => exact absurd ((isShortHeader_iff t).mp hs) (hsafe t ht)
  · rcases hcases with hsafe | ⟨t, ht, hs⟩
    · obtain ⟨m, hm, -⟩ := hok hsafe
      rw [hm] at hfault
      cases hfault
    · exact ⟨t, ht, (isShortHeader_iff t).mp hs⟩
  · obtain ⟨t, ht, hs⟩ := hbad
    exact keyToTypeMapLoop_fault lines false [] ⟨t, ht, (isShortHeader_iff t).mpr hs⟩
  · rcases hcases with hsafe | hbad
    · obtain ⟨m, hm, -⟩ := hok hsafe
      rw [hm] at he
      cases he
    · rw [show keyToTypeMap lines = .fault from keyToTypeMapLoop_fault lines false [] hbad] at he
      cases he

/-- C21 for the struct file `fooLines`, where the field `Name` is declared
twice and the last declaration is the one in the map, and for `openLines`,
whose header has three words: the function faults. -/
theorem C21_keyToTypeMap_field_types_witness :
    keyToTypeMap fooLines = .ok [("Name", "*string"), ("Age", "*int64")] ∧
    fieldTypes fooLines "Name" = some "*string" ∧
    fieldTypes fooLines "Extra" = none ∧
    (∃ m, keyToTypeMap fooLines = .ok m ∧ ∀ k, m.lookup k = fieldTypes fooLines k) ∧
    keyToTypeMap openLines = .fault :=
  ⟨by decide, by decide, by decide,
   (C21_keyToTypeMap_field_types fooLines).1 (by decide),
   (C21_keyToTypeMap_field_types openLines).2.1.mpr ⟨"type Foo struct", by decide, by decide⟩⟩

end Nutanix
